import Mathlib

/-! # Jadibot session manager (`features/jadibot.go`, `commands/parser.go`)

A shallow embedding of the multi-session manager of the WhatsApp bot: the
registry of active and pending sessions, the per-session storage folder, the
pairing workflow, the reconnection loop, the periodic health sweep with its
orphan sweep, the start-up loader, the metadata file, the `jadibot` command and the
command parser.

Modelling conventions

* A Go map is an `AList` (finite map with unique keys).  Map values are
  `*JadibotSession` pointers that are never nil: every insertion site stores a
  freshly built or an already registered session.  A field update through such a
  pointer is an update of the map entry that holds it.
* Each exported operation runs as one sequential step.  Goroutines started by an
  operation (`go jm.reconnectSession(..)`, `go jm.waitForPairing(..)`) are
  recorded in the effect log and are steps of their own.
* The messaging client, the credential store and the clock are outside the
  repository.  Whatever the code reads from them is an argument of the operation
  (an "observation"); whatever it asks them to do is recorded in the effect log.
* The file system is a set of nodes addressed by the components of a cleaned
  relative path.  `filepath.Join` joins and cleans as `filepath.Clean` does (empty
  and `.` components are dropped, `..` cancels the component before it), so an
  identifier that is not a file name may name a folder outside its own sub-folder.
  `os.RemoveAll` removes the whole subtree (the code ignores its result),
  `os.MkdirAll` fails when a component is a regular file or when the operating
  system refuses, `os.ReadDir` lists file names.
* `time.Time` and `time.Duration` are integers counting nanoseconds.
* The text handled by the command parser and by the `jadibot` command is the list of
  its characters; `len` counts UTF-8 bytes.  The table `unicode.ToLower` is a
  parameter.
* The content of the metadata file is not part of the disk: what a write hands to
  `os.WriteFile` is read off the effect log, and what a read finds is an argument.
  The library `encoding/json` is modelled after its documentation.
* `FailCount` is a Go `int` that starts at 0 and is only incremented or reset to 0,
  and its session is removed after at most a handful of increments in a row; it is
  modelled as a natural number.
-/

namespace Jadibot

/-! ## Time -/

/-- Instants (`time.Time`), in nanoseconds since the Unix epoch. -/
abbrev Time := Int

/-- Durations (`time.Duration`), in nanoseconds. -/
abbrev Duration := Int

/-- One `time.Millisecond`. -/
def millisecond : Duration := 1000000

/-- One `time.Second`. -/
def second : Duration := 1000 * millisecond

/-- One `time.Minute`. -/
def minute : Duration := 60 * second

/-- The zero value of `time.Time` (January 1, year 1, 00:00 UTC). -/
def zeroTime : Time := -62135596800 * second

/-- The function `time.Since` evaluated when the clock reads `now`. -/
def timeSince (now t : Time) : Duration := now - t

/-! ## File system -/

/-- A path, as the list of its components below the working directory. -/
abbrev Path := List String

/-- One file or directory. -/
structure Node where
  path : Path
  isDir : Bool
deriving DecidableEq, Repr

/-- The part of the disk the manager works on. -/
structure FileSys where
  nodes : List Node
deriving DecidableEq, Repr

/-- An entry returned by `os.ReadDir`. -/
structure DirEntry where
  name : String
  isDir : Bool
deriving DecidableEq, Repr

/-- Whether something (file or directory) exists at `p`. -/
def FileSys.present (fs : FileSys) (p : Path) : Bool :=
  fs.nodes.any (fun n => n.path == p)

/-- Whether a directory exists at `p`. -/
def FileSys.isDirectory (fs : FileSys) (p : Path) : Bool :=
  fs.nodes.any (fun n => n.path == p && n.isDir)

/-- Whether a regular file exists at `p`. -/
def FileSys.isFile (fs : FileSys) (p : Path) : Bool :=
  fs.nodes.any (fun n => n.path == p && !n.isDir)

/-- The call `os.RemoveAll(p)`: `p` and everything below it disappears. -/
def FileSys.removeAll (fs : FileSys) (p : Path) : FileSys :=
  ⟨fs.nodes.filter (fun n => !(p.isPrefixOf n.path))⟩

/-- The non-empty leading parts of a path: for `a/b/c` they are `a`, `a/b`, `a/b/c`. -/
def ancestors : Path → List Path
  | [] => []
  | c :: rest => [c] :: (ancestors rest).map (fun q => c :: q)

/-- The call `os.MkdirAll(p, 0o755)`.  It fails (`none`) when the operating system
refuses (`osRefuses`) or when a component of `p` is a regular file; otherwise every
missing directory along `p` is created. -/
def FileSys.mkdirAll (fs : FileSys) (p : Path) (osRefuses : Bool) : Option FileSys :=
  if osRefuses || (ancestors p).any (fun q => fs.isFile q) then none
  else some ⟨fs.nodes ++ (((ancestors p).filter (fun q => !fs.present q)).map (fun q => ⟨q, true⟩))⟩

/-- Creation of a regular file at `p` when nothing is there yet (the credential
store creating its database file). -/
def FileSys.touch (fs : FileSys) (p : Path) : FileSys :=
  if fs.present p then fs else ⟨fs.nodes ++ [⟨p, false⟩]⟩

/-- The name of `p` as a direct child of directory `d`, if it is one. -/
def childName (d p : Path) : Option String :=
  if p.take d.length == d then
    match p.drop d.length with
    | [name] => some name
    | _ => none
  else none

/-- Whether a string is the name of a directory entry: not empty, not `.` or `..`, and
without the separator `/`. -/
def isFileName (name : String) : Bool :=
  name != "" && name != "." && name != ".." && !name.data.contains (Char.ofNat 47)

/-- The call `os.ReadDir(d)`: the direct children of `d`, or `none` (an error) when
`d` is not a directory.  The entries it returns carry file names. -/
def FileSys.readDir (fs : FileSys) (d : Path) : Option (List DirEntry) :=
  if fs.isDirectory d then
    some (fs.nodes.filterMap (fun n =>
      (childName d n.path).bind (fun name =>
        if isFileName name then some ⟨name, n.isDir⟩ else none)))
  else none

/-- The pieces of a string between its separators `/`; `cur` is the piece being read,
last character first. -/
def splitPathFrom : List Char → List Char → List String
  | [], cur => [String.mk cur.reverse]
  | c :: cs, cur =>
    if c = Char.ofNat 47 then String.mk cur.reverse :: splitPathFrom cs []
    else splitPathFrom cs (c :: cur)

/-- One step of `filepath.Clean` on a relative path; `stack` holds the components kept
so far, innermost first.  Empty and `.` components are dropped, `..` cancels the
component before it (and is kept where there is none to cancel). -/
def cleanStep (stack : List String) (c : String) : List String :=
  if c = "" ∨ c = "." then stack
  else if c = ".." then
    match stack with
    | [] => [".."]
    | top :: rest => if top = ".." then ".." :: top :: rest else rest
  else c :: stack

/-- The function `filepath.Clean` on the components of a relative path; the result
for a path that cancels out is `.`. -/
def cleanPath (components : List String) : Path :=
  if (components.foldl cleanStep []).reverse = [] then ["."]
  else (components.foldl cleanStep []).reverse

/-- The function `filepath.Join(dir, elem)` for a relative `dir`: the two are joined
by a separator and the result is cleaned. -/
def pathJoin (dir : Path) (elem : String) : Path :=
  cleanPath (dir ++ splitPathFrom elem.data [])

/-- The function `strings.HasSuffix`. -/
def hasSuffix (s suffix : String) : Bool :=
  suffix.data.isSuffixOf s.data

/-- The function `strings.TrimSuffix`. -/
def trimSuffix (s suffix : String) : String :=
  if hasSuffix s suffix then String.mk (s.data.take (s.data.length - suffix.data.length)) else s

/-- The constant `JadibotFolder = "Wilykun/jadibot"`. -/
def JadibotFolder : Path := ["Wilykun", "jadibot"]

/-- The function `getJadibotFolder`: `filepath.Join(JadibotFolder, phoneNumber)`.  For
a `phoneNumber` that is a file name this is `Wilykun/jadibot/{phoneNumber}`; for the
empty string it is `Wilykun/jadibot` itself, and `..` components climb out of it. -/
def getJadibotFolder (phoneNumber : String) : Path :=
  pathJoin JadibotFolder phoneNumber

/-- The function `getJadibotDBPath`:
`filepath.Join(getJadibotFolder(phoneNumber), phoneNumber+".db")`. -/
def getJadibotDBPath (phoneNumber : String) : Path :=
  pathJoin (getJadibotFolder phoneNumber) (phoneNumber ++ ".db")

/-- The function `getJadibotMetadataPath`:
`filepath.Join(getJadibotFolder(phoneNumber), "metadata.json")`. -/
def getJadibotMetadataPath (phoneNumber : String) : Path :=
  pathJoin (getJadibotFolder phoneNumber) "metadata.json"

/-! ## Sessions and the registry -/

/-- A handle on a `*whatsmeow.Client`. -/
structure Client where
  ref : Nat
deriving DecidableEq, Repr

/-- A handle on a `*sqlstore.Container`. -/
structure Container where
  ref : Nat
deriving DecidableEq, Repr

/-- The struct `JadibotSession`.  A nil `Client` or `Container` is `none`; the
owner chat is the string form of its JID, empty for the zero JID. -/
structure JadibotSession where
  PhoneNumber : String
  Client : Option Client
  Container : Option Container
  Connected : Bool
  StartTime : Time
  OwnerChat : String
  Reconnecting : Bool
  FailCount : Nat
  LastFailTime : Time
deriving DecidableEq, Repr

/-- A Go `map[string]*JadibotSession`. -/
abbrev SessionMap := AList (fun _ : String => JadibotSession)

/-- The struct `JadibotManager` (the mutex is not modelled: every operation is one
sequential step). -/
structure JadibotManager where
  sessions : SessionMap
  pending : SessionMap
  mainClient : Option Client

/-- What the code asks of its collaborators, most recent first. -/
inductive Effect where
  | sleep (d : Duration)
  | connect (phoneNumber : String)
  | disconnect (phoneNumber : String)
  | closeContainer (phoneNumber : String)
  | sendPresence (phoneNumber : String)
  | pairPhone (phoneNumber : String)
  | addEventHandler (phoneNumber : String)
  | goWaitForPairing (phoneNumber : String) (timeout : Duration)
  | goReconnectSession (phoneNumber : String)
  | goStartHealthCheck
  | goNotifyTimeout (phoneNumber : String)
  | notifyPaired (phoneNumber : String)
  | writeMetadata (phoneNumber : String) (startUnix savedAtUnix : Int)
  | goCacheGroups (phoneNumber : String)
  | handleStory (phoneNumber : String)
deriving DecidableEq, Repr

/-- The manager together with the disk and the log of external effects. -/
structure World where
  jm : JadibotManager
  fs : FileSys
  log : List Effect

/-- The errors the manager returns, one per `fmt.Errorf` site. -/
inductive JadibotError where
  /-- Text: session untuk nomor .. sudah ada. -/
  | duplicateActive
  /-- Text: proses pairing untuk nomor .. sedang berjalan. -/
  | duplicatePending
  /-- Text: gagal membuat folder jadibot. -/
  | mkdirFailed
  /-- Text: gagal membuat database. -/
  | databaseFailed
  /-- Text: gagal connect. -/
  | connectFailed
  /-- Text: gagal generate pairing code. -/
  | pairingCodeFailed
  /-- Text: session tidak ditemukan. -/
  | notFound
deriving DecidableEq, Repr

/-- The value of `jadibotManager` at program start, on a disk where `init` has
created the jadibot folder. -/
def initialWorld : World :=
  { jm := { sessions := ∅, pending := ∅, mainClient := none }
    fs := ⟨[⟨["Wilykun"], true⟩, ⟨JadibotFolder, true⟩]⟩
    log := [] }

/-- Records an effect in the log (most recent first). -/
def World.emit (w : World) (e : Effect) : World :=
  { w with log := e :: w.log }

/-- The statement `delete(jm.sessions, phoneNumber)`. -/
def World.deleteSession (w : World) (phoneNumber : String) : World :=
  { w with jm := { w.jm with sessions := w.jm.sessions.erase phoneNumber } }

/-- The statement `delete(jm.pending, phoneNumber)`. -/
def World.deletePending (w : World) (phoneNumber : String) : World :=
  { w with jm := { w.jm with pending := w.jm.pending.erase phoneNumber } }

/-- The statement `jm.sessions[phoneNumber] = session`. -/
def World.setSession (w : World) (phoneNumber : String) (session : JadibotSession) : World :=
  { w with jm := { w.jm with sessions := w.jm.sessions.insert phoneNumber session } }

/-- The statement `jm.pending[phoneNumber] = session`. -/
def World.setPending (w : World) (phoneNumber : String) (session : JadibotSession) : World :=
  { w with jm := { w.jm with pending := w.jm.pending.insert phoneNumber session } }

/-- A field update through the pointer stored under `phoneNumber` in `jm.sessions`
(nothing happens when the key is absent). -/
def World.updateSession (w : World) (phoneNumber : String)
    (f : JadibotSession → JadibotSession) : World :=
  match w.jm.sessions.lookup phoneNumber with
  | some session => w.setSession phoneNumber (f session)
  | none => w

/-- The function `cleanupJadibotFiles`: removes the whole folder of the session. -/
def cleanupJadibotFiles (w : World) (phoneNumber : String) : World :=
  { w with fs := w.fs.removeAll (getJadibotFolder phoneNumber) }

/-- The method `deleteJadibotFiles`. -/
def deleteJadibotFiles (w : World) (phoneNumber : String) : World :=
  cleanupJadibotFiles w phoneNumber

/-- The method `GetSession`. -/
def GetSession (w : World) (phoneNumber : String) : Option JadibotSession :=
  w.jm.sessions.lookup phoneNumber

/-- The method `IsSessionExists`: looks at the active map only. -/
def IsSessionExists (w : World) (phoneNumber : String) : Bool :=
  (w.jm.sessions.lookup phoneNumber).isSome

/-- Whether `phoneNumber` is a key of `jm.sessions`. -/
def isActive (w : World) (phoneNumber : String) : Bool :=
  (w.jm.sessions.lookup phoneNumber).isSome

/-- Whether `phoneNumber` is a key of `jm.pending`. -/
def isPending (w : World) (phoneNumber : String) : Bool :=
  (w.jm.pending.lookup phoneNumber).isSome

/-- Disconnects the client of a session when it has one. -/
def disconnectIfClient (w : World) (phoneNumber : String) (c : Option Client) : World :=
  match c with
  | some _ => w.emit (.disconnect phoneNumber)
  | none => w

/-- Closes the container of a session when it has one. -/
def closeIfOpen (w : World) (phoneNumber : String) (c : Option Container) : World :=
  match c with
  | some _ => w.emit (.closeContainer phoneNumber)
  | none => w

/-- The method `RemoveSession`.  The result is `none` for a nil error. -/
def RemoveSession (w : World) (phoneNumber : String) : Option JadibotError × World :=
  match w.jm.sessions.lookup phoneNumber with
  | none =>
    match w.jm.pending.lookup phoneNumber with
    | some pendingSession =>
      let w1 := w.emit (.disconnect phoneNumber)
      let w2 := closeIfOpen w1 phoneNumber pendingSession.Container
      let w3 := w2.deletePending phoneNumber
      (none, deleteJadibotFiles w3 phoneNumber)
    | none => (some .notFound, w)
  | some session =>
    let w1 := disconnectIfClient w phoneNumber session.Client
    let w2 := closeIfOpen w1 phoneNumber session.Container
    let w3 := w2.deleteSession phoneNumber
    (none, cleanupJadibotFiles w3 phoneNumber)

/-! ## Pairing workflow -/

/-- What `CreatePairingSession` observes of its collaborators during one call. -/
structure CreateObs where
  /-- The operating system refuses `os.MkdirAll`. -/
  mkdirRefused : Bool
  /-- The call `sqlstore.New` returns an error. -/
  databaseErr : Bool
  /-- The client built by `whatsmeow.NewClient`. -/
  client : Client
  /-- The container returned by `sqlstore.New`. -/
  container : Container
  /-- The reading of `time.Now()` for `StartTime`. -/
  now : Time
  /-- The call `client.Connect()` returns an error. -/
  connectErr : Bool
  /-- The code returned by `client.PairPhone`, `none` when it returns an error. -/
  pairingCode : Option String

/-- The method `CreatePairingSession`. -/
def CreatePairingSession (obs : CreateObs) (w : World) (phoneNumber : String)
    (ownerChat : String) (mainClient : Option Client) : Except JadibotError String × World :=
  if (w.jm.sessions.lookup phoneNumber).isSome then (.error .duplicateActive, w)
  else if (w.jm.pending.lookup phoneNumber).isSome then (.error .duplicatePending, w)
  else
    match w.fs.mkdirAll (getJadibotFolder phoneNumber) obs.mkdirRefused with
    | none => (.error .mkdirFailed, w)
    | some fs1 =>
      let w1 : World := { w with fs := fs1 }
      if obs.databaseErr then (.error .databaseFailed, w1)
      else
        let w2 : World := { w1 with fs := w1.fs.touch (getJadibotDBPath phoneNumber) }
        let session : JadibotSession :=
          { PhoneNumber := phoneNumber
            Client := some obs.client
            Container := some obs.container
            Connected := false
            StartTime := obs.now
            OwnerChat := ownerChat
            Reconnecting := false
            FailCount := 0
            LastFailTime := zeroTime }
        let w3 := w2.setPending phoneNumber session
        let w4 : World := { w3 with jm := { w3.jm with mainClient := mainClient } }
        let w5 := (w4.emit (.addEventHandler phoneNumber)).emit (.connect phoneNumber)
        if obs.connectErr then
          let w6 := (w5.deletePending phoneNumber).emit (.closeContainer phoneNumber)
          (.error .connectFailed, deleteJadibotFiles w6 phoneNumber)
        else
          let w6 := (w5.emit (.sleep (1 * second))).emit (.pairPhone phoneNumber)
          match obs.pairingCode with
          | none =>
            let w7 := ((w6.deletePending phoneNumber).emit (.disconnect phoneNumber)).emit
              (.closeContainer phoneNumber)
            (.error .pairingCodeFailed, deleteJadibotFiles w7 phoneNumber)
          | some code =>
            (.ok code, w6.emit (.goWaitForPairing phoneNumber (180 * second)))

/-! ## Reconnection engine -/

/-- What the client of the session answers during one attempt of `reconnectSession`. -/
structure AttemptObs where
  /-- The answer of `session.Client.IsConnected()` at the start of the attempt. -/
  connectedBefore : Bool
  /-- Whether `session.Client.Store.ID` is non-nil. -/
  hasStoreID : Bool
  /-- The call `session.Client.Connect()` returns an error. -/
  connectErr : Bool
  /-- The answer of `session.Client.IsConnected()` after the 3 s wait. -/
  connectedAfter : Bool
  /-- The reading of `time.Now()` when a failure is recorded. -/
  now : Time

/-- The local `maxRetries` of `reconnectSession`. -/
def maxRetries : Nat := 5

/-- The local `retryDelays` of `reconnectSession`. -/
def retryDelays : List Duration :=
  [5 * second, 10 * second, 20 * second, 30 * second, 60 * second]

/-- The delay slept at the start of attempt `attempt` (counted from 1). -/
def retryDelay (attempt : Nat) : Duration :=
  if attempt ≤ retryDelays.length then retryDelays.getD (attempt - 1) (60 * second)
  else 60 * second

/-- How one pass through the body of the retry loop ends. -/
inductive LoopExit where
  /-- The statement `continue`, or falling through to the next iteration. -/
  | next
  /-- The statement `return`. -/
  | done
  /-- A nil `session.Client` is dereferenced. -/
  | nilDereference
deriving DecidableEq, Repr

/-- The bookkeeping of a failed attempt: `session.FailCount++`, the failure time is
stamped, and on the last attempt the session is removed. -/
def recordFailedAttempt (now : Time) (w : World) (phoneNumber : String) (attempt : Nat) :
    World × LoopExit :=
  let w1 := w.updateSession phoneNumber
    (fun s => { s with FailCount := s.FailCount + 1, LastFailTime := now })
  if attempt = maxRetries then ((RemoveSession w1 phoneNumber).2, .done)
  else (w1, .next)

/-- One pass through the body of the retry loop of `reconnectSession`. -/
def reconnectAttempt (obs : AttemptObs) (w : World) (phoneNumber : String) (attempt : Nat) :
    World × LoopExit :=
  let w1 := w.emit (.sleep (retryDelay attempt))
  match w1.jm.sessions.lookup phoneNumber with
  | none => (w1, .done)
  | some session =>
    match session.Client with
    | none => (w1, .nilDereference)
    | some _ =>
      if obs.connectedBefore then
        (w1.updateSession phoneNumber (fun s => { s with FailCount := 0 }), .done)
      else if !obs.hasStoreID then
        ((RemoveSession w1 phoneNumber).2, .done)
      else
        let w2 := w1.emit (.connect phoneNumber)
        if obs.connectErr then recordFailedAttempt obs.now w2 phoneNumber attempt
        else
          let w3 := w2.emit (.sleep (3 * second))
          if !obs.connectedAfter then recordFailedAttempt obs.now w3 phoneNumber attempt
          else
            let w4 := w3.emit (.sendPresence phoneNumber)
            (w4.updateSession phoneNumber (fun s => { s with FailCount := 0, Connected := true }),
              .done)

/-- The retry loop of `reconnectSession` over the given attempt numbers; `obs n` is
what the client answers during attempt `n`. -/
def reconnectLoop (obs : Nat → AttemptObs) (phoneNumber : String) :
    List Nat → World → World × LoopExit
  | [], w => (w, .next)
  | attempt :: rest, w =>
    match reconnectAttempt (obs attempt) w phoneNumber attempt with
    | (w1, .next) => reconnectLoop obs phoneNumber rest w1
    | r => r

/-- The attempt numbers `1, .., n` of `for attempt := 1; attempt <= n; attempt++`. -/
def attemptsUpTo (n : Nat) : List Nat := List.range' 1 n

/-- The deferred function of `reconnectSession`: clears `Reconnecting` on the session
registered under `phoneNumber`, if there is one. -/
def releaseReconnecting (w : World) (phoneNumber : String) : World :=
  w.updateSession phoneNumber (fun s => { s with Reconnecting := false })

/-- The statement `session.Reconnecting = true` after the entry guard. -/
def markReconnecting (w : World) (phoneNumber : String) : World :=
  w.updateSession phoneNumber (fun s => { s with Reconnecting := true })

/-- A run of `reconnectSession` that has passed the entry guard, followed through its
first `k` attempts (or to its exit, when that comes earlier). -/
def reconnectProgress (obs : Nat → AttemptObs) (w : World) (phoneNumber : String) (k : Nat) :
    World × LoopExit :=
  reconnectLoop obs phoneNumber (attemptsUpTo k) (markReconnecting w phoneNumber)

/-- The method `reconnectSession`.  A panic (nil dereference) ends the program, so
the deferred release only matters for the other two exits; it is applied in all. -/
def reconnectSession (obs : Nat → AttemptObs) (w : World) (phoneNumber : String) : World :=
  match w.jm.sessions.lookup phoneNumber with
  | none => w
  | some session =>
    if session.Reconnecting then w
    else releaseReconnecting (reconnectProgress obs w phoneNumber maxRetries).1 phoneNumber

/-- An attempt in which the client is not connected, has a stored identity, and
either `Connect` fails or the client is still not connected after the 3 s wait. -/
def AttemptObs.failsToConnect (o : AttemptObs) : Bool :=
  !o.connectedBefore && o.hasStoreID && (o.connectErr || !o.connectedAfter)

/-- The number of `Connect` calls on the client of `phoneNumber` recorded in a log. -/
def connectCalls (log : List Effect) (phoneNumber : String) : Nat :=
  log.count (.connect phoneNumber)

/-- Whether an effect is the wait that opens an attempt of the retry loop. -/
def isRetryWait : Effect → Bool
  | .sleep d => retryDelays.contains d
  | _ => false

/-- The number of retry waits (hence of attempts started) recorded in a log. -/
def retryWaits (log : List Effect) : Nat :=
  log.countP isRetryWait

/-! ## Health monitor -/

/-- What opening the credential store of an identifier yields. -/
inductive StoreProbe where
  /-- The call `sqlstore.New` returns an error. -/
  | openError
  /-- The call `container.GetFirstDevice` returns an error. -/
  | deviceError
  /-- The first device has a nil `ID`. -/
  | noIdentity
  /-- The first device has a stored identity. -/
  | identity
deriving DecidableEq, Repr

/-- What a client answers when the health sweep takes its snapshot. -/
structure ClientProbe where
  /-- Whether `session.Client.Store` is non-nil. -/
  hasStore : Bool
  /-- Whether `session.Client.Store.ID` is non-nil. -/
  hasStoreID : Bool
  /-- The answer of `session.Client.IsConnected()`. -/
  isConnected : Bool

/-- What one health sweep observes of its collaborators. -/
structure SweepObs where
  /-- The client of the session registered under an identifier. -/
  client : String → ClientProbe
  /-- The clock when `time.Since(snap.lastFailTime)` is evaluated for an identifier. -/
  sinceNow : String → Time
  /-- The reading of `time.Now()` stamped into `LastFailTime` for an identifier. -/
  stampNow : String → Time
  /-- The credential store found on disk for an identifier (orphan sweep). -/
  store : String → StoreProbe

/-- The struct `sessionSnapshot`. -/
structure sessionSnapshot where
  phoneNumber : String
  hasClient : Bool
  hasDeviceID : Bool
  isConnected : Bool
  isReconnecting : Bool
  failCount : Nat
  lastFailTime : Time
deriving DecidableEq, Repr

/-- The local constant `maxConsecutiveFails` of `validateAllSessions`. -/
def maxConsecutiveFails : Nat := 10

/-- The local constant `failResetDuration` of `validateAllSessions`. -/
def failResetDuration : Duration := 5 * minute

/-- The snapshot `validateAllSessions` takes of one entry of `jm.sessions`. -/
def takeSnapshot (obs : SweepObs) (phoneNumber : String) (session : JadibotSession) :
    sessionSnapshot :=
  let hasClient := session.Client.isSome
  { phoneNumber := phoneNumber
    hasClient := hasClient
    isReconnecting := session.Reconnecting
    failCount := session.FailCount
    lastFailTime := session.LastFailTime
    hasDeviceID := hasClient && ((obs.client phoneNumber).hasStore && (obs.client phoneNumber).hasStoreID)
    isConnected := hasClient && (obs.client phoneNumber).isConnected }

/-- The state threaded through the snapshot loop of `validateAllSessions`: the world
and the local `invalidSessions` (in append order). -/
structure SweepState where
  w : World
  invalidSessions : List String

/-- Lines 650-656 of `validateAllSessions`: a failure count whose last failure is more
than `failResetDuration` old is reset before the current observation is counted. -/
def resetStaleFailCount (obs : SweepObs) (w : World) (snap : sessionSnapshot) : World :=
  if timeSince (obs.sinceNow snap.phoneNumber) snap.lastFailTime > failResetDuration
      ∧ snap.failCount > 0 then
    w.updateSession snap.phoneNumber (fun s => { s with FailCount := 0 })
  else w

/-- Lines 658-677 of `validateAllSessions`: the session was found disconnected. -/
def countDisconnected (obs : SweepObs) (w : World) (invalidSessions : List String)
    (snap : sessionSnapshot) : SweepState :=
  match w.jm.sessions.lookup snap.phoneNumber with
  | none => { w := w, invalidSessions := invalidSessions }
  | some session =>
    let currentFailCount := session.FailCount + 1
    let w2 := w.setSession snap.phoneNumber
      { session with FailCount := session.FailCount + 1
                     LastFailTime := obs.stampNow snap.phoneNumber }
    if currentFailCount ≥ maxConsecutiveFails then
      { w := w2, invalidSessions := invalidSessions ++ [snap.phoneNumber] }
    else
      { w := w2.emit (.goReconnectSession snap.phoneNumber), invalidSessions := invalidSessions }

/-- Lines 679-683 of `validateAllSessions`: the session was found connected. -/
def clearFailCount (w : World) (snap : sessionSnapshot) : World :=
  match w.jm.sessions.lookup snap.phoneNumber with
  | some s => if s.FailCount > 0 then w.setSession snap.phoneNumber { s with FailCount := 0 } else w
  | none => w

/-- The body of the snapshot loop of `validateAllSessions` for one snapshot. -/
def processSnapshot (obs : SweepObs) (st : SweepState) (snap : sessionSnapshot) : SweepState :=
  if !snap.hasClient then
    { st with invalidSessions := st.invalidSessions ++ [snap.phoneNumber] }
  else if !snap.hasDeviceID then
    { st with invalidSessions := st.invalidSessions ++ [snap.phoneNumber] }
  else if snap.isReconnecting then st
  else
    let w1 := resetStaleFailCount obs st.w snap
    if !snap.isConnected then countDisconnected obs w1 st.invalidSessions snap
    else { st with w := clearFailCount w1 snap }

/-- The body of the file loop of `cleanupOrphanedFiles` for one directory entry;
`tracked` is the local `activeSessions` (keys of both maps). -/
def cleanupOrphanEntry (obs : SweepObs) (tracked : List String) (w : World) (file : DirEntry) :
    World :=
  if file.isDir then w
  else if !hasSuffix file.name ".db" || hasSuffix file.name "-shm" || hasSuffix file.name "-wal"
  then w
  else
    let phoneNumber := trimSuffix file.name ".db"
    if !tracked.contains phoneNumber then
      match obs.store phoneNumber with
      | .openError => deleteJadibotFiles w phoneNumber
      | .deviceError => deleteJadibotFiles (w.emit (.closeContainer phoneNumber)) phoneNumber
      | .noIdentity => deleteJadibotFiles (w.emit (.closeContainer phoneNumber)) phoneNumber
      | .identity => w.emit (.closeContainer phoneNumber)
    else w

/-- The method `cleanupOrphanedFiles`. -/
def cleanupOrphanedFiles (obs : SweepObs) (w : World) : World :=
  match w.fs.readDir JadibotFolder with
  | none => w
  | some files =>
    let tracked := w.jm.sessions.keys ++ w.jm.pending.keys
    files.foldl (cleanupOrphanEntry obs tracked) w

/-- The removal loop of `validateAllSessions` over `invalidSessions`. -/
def removeInvalid (w : World) (invalidSessions : List String) : World :=
  invalidSessions.foldl (fun w1 phoneNumber => (RemoveSession w1 phoneNumber).2) w

/-- The method `validateAllSessions` (one health sweep). -/
def validateAllSessions (obs : SweepObs) (w : World) : World :=
  let snapshots := w.jm.sessions.entries.map (fun e => takeSnapshot obs e.1 e.2)
  let st := snapshots.foldl (processSnapshot obs) { w := w, invalidSessions := [] }
  let w1 := removeInvalid st.w st.invalidSessions
  cleanupOrphanedFiles obs w1

/-! ## Bulk loader -/

/-- What the loader observes of its collaborators while loading one folder. -/
structure LoadObs where
  /-- What opening the credential store yields. -/
  store : StoreProbe
  /-- The client built by `whatsmeow.NewClient`. -/
  client : Client
  /-- The container returned by `sqlstore.New`. -/
  container : Container
  /-- The result of `loadJadibotMetadata`. -/
  startTime : Time
  /-- The call `client.Connect()` returns an error. -/
  connectErr : Bool
  /-- Whether `client.Store.ID` is non-nil after the 500 ms wait. -/
  hasStoreID : Bool
  /-- The answer of `client.IsConnected()` after the 500 ms wait. -/
  isConnected : Bool

/-- The goroutine `LoadExistingSessions` starts for one folder. -/
def loadSession (obs : LoadObs) (w : World) (phoneNumber : String) : World :=
  match obs.store with
  | .openError => deleteJadibotFiles w phoneNumber
  | .deviceError => deleteJadibotFiles (w.emit (.closeContainer phoneNumber)) phoneNumber
  | .noIdentity => deleteJadibotFiles (w.emit (.closeContainer phoneNumber)) phoneNumber
  | .identity =>
    let session : JadibotSession :=
      { PhoneNumber := phoneNumber
        Client := some obs.client
        Container := some obs.container
        Connected := false
        StartTime := obs.startTime
        OwnerChat := ""
        Reconnecting := false
        FailCount := 0
        LastFailTime := zeroTime }
    let w1 := (w.emit (.addEventHandler phoneNumber)).emit (.connect phoneNumber)
    if obs.connectErr then
      deleteJadibotFiles (w1.emit (.closeContainer phoneNumber)) phoneNumber
    else
      let w2 := w1.emit (.sleep (500 * millisecond))
      if !obs.hasStoreID || !obs.isConnected then
        deleteJadibotFiles ((w2.emit (.disconnect phoneNumber)).emit (.closeContainer phoneNumber))
          phoneNumber
      else
        (w2.setSession phoneNumber { session with Connected := true }).emit
          (.sendPresence phoneNumber)

/-- The method `LoadExistingSessions`; the goroutines run one after the other, in
the order of the directory listing. -/
def LoadExistingSessions (obs : String → LoadObs) (w : World) : World :=
  match w.fs.readDir JadibotFolder with
  | none => w
  | some files =>
    ((files.filter (fun f => f.isDir)).foldl (fun w1 f => loadSession (obs f.name) w1 f.name) w).emit
      .goStartHealthCheck

/-! ## Sample states -/

/-- A well-formed identifier used in the examples. -/
def samplePhone : String := "6281234567890"

/-- A pairing call in which every collaborator cooperates. -/
def okCreate : CreateObs :=
  { mkdirRefused := false, databaseErr := false, client := ⟨1⟩, container := ⟨1⟩, now := 100
    connectErr := false, pairingCode := some "ABCD-1234" }

/-- A load in which the store holds an identity and the client connects. -/
def okLoad : LoadObs :=
  { store := .identity, client := ⟨2⟩, container := ⟨2⟩, startTime := 5, connectErr := false
    hasStoreID := true, isConnected := true }

/-- The world right after a restart: the registry is empty and the disk still holds
the folder and database of `samplePhone` from the previous run. -/
def restartWorld : World :=
  { initialWorld with
    fs := ⟨initialWorld.fs.nodes ++
      [⟨getJadibotFolder samplePhone, true⟩, ⟨getJadibotDBPath samplePhone, false⟩]⟩ }

/-- After the restart, the owner asks to pair `samplePhone` before the loader runs. -/
def pairingStartedWorld : World :=
  (CreatePairingSession okCreate restartWorld samplePhone "owner@s.whatsapp.net" (some ⟨0⟩)).2

/-- The loader then runs and finds the identity stored by the previous run. -/
def loadedWhilePairingWorld : World :=
  LoadExistingSessions (fun _ => okLoad) pairingStartedWorld

/-- The session the loader registers for `samplePhone` in `okLoad`. -/
def loadedSession : JadibotSession :=
  { PhoneNumber := samplePhone, Client := some ⟨2⟩, Container := some ⟨2⟩, Connected := true
    StartTime := 5, OwnerChat := "", Reconnecting := false, FailCount := 0
    LastFailTime := zeroTime }

/-- The world after a restart once the loader has run: `samplePhone` is active. -/
def activeWorld : World := LoadExistingSessions (fun _ => okLoad) restartWorld

/-- A client that is never connected and whose every `Connect` fails. -/
def alwaysFailing : Nat → AttemptObs := fun _ =>
  { connectedBefore := false, hasStoreID := true, connectErr := true, connectedAfter := false
    now := 7 }

/-- A disconnected client whose store holds no identity. -/
def noIdentityObs : Nat → AttemptObs := fun _ =>
  { connectedBefore := false, hasStoreID := false, connectErr := false, connectedAfter := false
    now := 7 }

/-! ## Summaries used in the proofs -/

/-- What the body of the snapshot loop of `validateAllSessions` does with snapshot
`snap` to the session `s` registered under `snap.phoneNumber`, read off
`processSnapshot`: the session it leaves in the map, and whether it appends the
identifier to `invalidSessions`.  The lemma `processSnapshot_self` proves that the
loop body computes exactly this. -/
def sweepSnapshot (obs : SweepObs) (snap : sessionSnapshot) (s : JadibotSession) :
    JadibotSession × Bool :=
  if !snap.hasClient then (s, true)
  else if !snap.hasDeviceID then (s, true)
  else if snap.isReconnecting then (s, false)
  else
    let s1 : JadibotSession :=
      if timeSince (obs.sinceNow snap.phoneNumber) snap.lastFailTime > failResetDuration
          ∧ snap.failCount > 0 then { s with FailCount := 0 }
      else s
    if !snap.isConnected then
      ({ s1 with FailCount := s1.FailCount + 1, LastFailTime := obs.stampNow snap.phoneNumber },
        decide (s1.FailCount + 1 ≥ maxConsecutiveFails))
    else
      (if s1.FailCount > 0 then { s1 with FailCount := 0 } else s1, false)

/-- The summary `sweepSnapshot` for the snapshot the sweep takes of `s` itself. -/
def sweepSession (obs : SweepObs) (phoneNumber : String) (s : JadibotSession) :
    JadibotSession × Bool :=
  sweepSnapshot obs (takeSnapshot obs phoneNumber s) s

/-- The world after the first `k` of a row of consecutive health sweeps, nothing else
happening in between; `obs k` is what sweep `k` observes (sweeps are counted from 1). -/
def sweeps (obs : Nat → SweepObs) : Nat → World → World
  | 0, w => w
  | k + 1, w => validateAllSessions (obs (k + 1)) (sweeps obs k w)

/-- A sweep that finds every client disconnected, with a stored identity. -/
def disconnectedSweep : SweepObs :=
  { client := fun _ => ⟨true, true, false⟩, sinceNow := fun _ => 1000, stampNow := fun _ => 1000
    store := fun _ => .noIdentity }

/-- A sweep that finds every client connected, with a stored identity. -/
def connectedSweep : SweepObs :=
  { client := fun _ => ⟨true, true, true⟩, sinceNow := fun _ => 2000, stampNow := fun _ => 2000
    store := fun _ => .noIdentity }

/-- Three sweeps have found `samplePhone` disconnected, and the reconnection they
started has passed its entry guard and is waiting for its first attempt. -/
def midReconnectWorld : World :=
  markReconnecting (sweeps (fun _ => disconnectedSweep) 3 activeWorld) samplePhone

/-- The session of `samplePhone` with nine failures on its count, the last one at time 0. -/
def staleSession : JadibotSession :=
  { loadedSession with FailCount := 9, LastFailTime := 0 }

/-- The world holding `staleSession`. -/
def staleWorld : World := activeWorld.setSession samplePhone staleSession

/-- A sweep, ten minutes after time 0, that finds every client disconnected. -/
def lateSweep : SweepObs :=
  { client := fun _ => ⟨true, true, false⟩, sinceNow := fun _ => 10 * minute
    stampNow := fun _ => 10 * minute, store := fun _ => .noIdentity }

/-- An orphan sweep during which every store that is opened reports no identity. -/
def orphanSweep : SweepObs :=
  { client := fun _ => ⟨true, true, true⟩, sinceNow := fun _ => 0, stampNow := fun _ => 0
    store := fun _ => .noIdentity }

/-! ## Pairing wait and event dispatch -/

/-- The method `Time.Unix`: whole seconds since the epoch, rounded down. -/
def unixSeconds (t : Time) : Int := Int.fdiv t second

/-- The function `saveJadibotMetadata`; `now` is its reading of `time.Now()`.  The
file is written when the folder of the session exists; otherwise `os.WriteFile`
returns an error, which the caller ignores. -/
def saveJadibotMetadata (now : Time) (w : World) (phoneNumber : String) (startTime : Time) :
    World :=
  let w1 := w.emit (.writeMetadata phoneNumber (unixSeconds startTime) (unixSeconds now))
  if w1.fs.isDirectory (getJadibotFolder phoneNumber) then
    { w1 with fs := w1.fs.touch (getJadibotMetadataPath phoneNumber) }
  else w1

/-- The branch `case <-timer.C` of `waitForPairing`; `mainConnected` is the answer of
`jm.mainClient.IsConnected()`. -/
def pairingTimeout (mainConnected : Bool) (w : World) (phoneNumber : String) : World :=
  match w.jm.pending.lookup phoneNumber with
  | some session =>
    if !session.Connected then
      let w1 :=
        if w.jm.mainClient.isSome && mainConnected && session.OwnerChat != "" then
          (w.emit (.goNotifyTimeout phoneNumber)).emit (.sleep (500 * millisecond))
        else w
      let w2 := w1.emit (.disconnect phoneNumber)
      let w3 := closeIfOpen w2 phoneNumber session.Container
      let w4 := w3.deletePending phoneNumber
      deleteJadibotFiles w4 phoneNumber
    else w
  | none => w

/-- The branch `case <-ticker.C` of `waitForPairing`: whether the wait ends at this
tick (the session is no longer pending, or is marked connected). -/
def pairingTickEnds (w : World) (phoneNumber : String) : Bool :=
  match w.jm.pending.lookup phoneNumber with
  | some session => session.Connected
  | none => true

/-- The events `handleJadibotEvent` distinguishes. -/
inductive Event where
  | pairSuccess
  | connected
  | loggedOut
  | disconnected
  /-- A message; `broadcast` tells whether its chat is on the broadcast server. -/
  | message (broadcast : Bool)
  /-- Any other event type: no case of the switch applies. -/
  | other
deriving DecidableEq, Repr

/-- What `handleJadibotEvent` observes of its collaborators. -/
structure EventObs where
  /-- Whether `client.Store.ID` is non-nil. -/
  clientHasStoreID : Bool
  /-- The reading of `time.Now()` inside `saveJadibotMetadata`. -/
  now : Time

/-- The method `handleJadibotEvent`. -/
def handleJadibotEvent (obs : EventObs) (w : World) (phoneNumber : String) (evt : Event) :
    World :=
  match evt with
  | .pairSuccess =>
    let r : World × String :=
      match w.jm.pending.lookup phoneNumber with
      | some session =>
        let w1 := w.setSession phoneNumber { session with Connected := true }
        let w2 := w1.deletePending phoneNumber
        (saveJadibotMetadata obs.now w2 phoneNumber session.StartTime, session.OwnerChat)
      | none => (w, "")
    let w3 := if r.2 != "" then r.1.emit (.notifyPaired phoneNumber) else r.1
    ((w3.emit (.sendPresence phoneNumber)).emit (.sleep (500 * millisecond))).emit
      (.sendPresence phoneNumber)
  | .connected =>
    let w1 :=
      match w.jm.pending.lookup phoneNumber with
      | some session =>
        if obs.clientHasStoreID then
          (w.setSession phoneNumber { session with Connected := true }).deletePending phoneNumber
        else w
      | none => w
    ((((((w1.emit (.sendPresence phoneNumber)).emit (.sleep (300 * millisecond))).emit
      (.sendPresence phoneNumber)).emit (.sleep (300 * millisecond))).emit
      (.sendPresence phoneNumber))).emit (.goCacheGroups phoneNumber)
  | .loggedOut => (RemoveSession w phoneNumber).2
  | .disconnected => w.emit (.goReconnectSession phoneNumber)
  | .message broadcast => if broadcast then w.emit (.handleStory phoneNumber) else w
  | .other => w

/-! ## Entry guard and wait schedule of the reconnection engine -/

/-- The locked section that opens `reconnectSession` (lines 488-500): whether the call
goes on to the retry loop, and the world it leaves. -/
def reconnectEnter (w : World) (phoneNumber : String) : Bool × World :=
  match w.jm.sessions.lookup phoneNumber with
  | none => (false, w)
  | some session =>
    if session.Reconnecting then (false, w)
    else (true, markReconnecting w phoneNumber)

/-- The retry wait an effect stands for, if it is one. -/
def retryWaitOf : Effect → Option Duration
  | .sleep d => if retryDelays.contains d then some d else none
  | _ => none

/-- The retry waits recorded in a log, oldest first. -/
def retryWaitSequence (log : List Effect) : List Duration :=
  log.reverse.filterMap retryWaitOf

/-- A client that has come back by itself when the first attempt looks. -/
def recoveredObs : Nat → AttemptObs := fun _ =>
  { connectedBefore := true, hasStoreID := true, connectErr := false, connectedAfter := true
    now := 7 }

/-- A sweep that finds the store of every client without identity. -/
def noIdentitySweep : SweepObs :=
  { client := fun _ => ⟨true, false, true⟩, sinceNow := fun _ => 1000, stampNow := fun _ => 1000
    store := fun _ => .noIdentity }

/-- A pairing call in which `Connect` fails. -/
def connectFailsCreate : CreateObs := { okCreate with connectErr := true }

/-- A pairing call in which the credential store cannot be opened. -/
def databaseFailsCreate : CreateObs := { okCreate with databaseErr := true }

/-- An event handled while the client has a stored identity. -/
def okEvent : EventObs := { clientHasStoreID := true, now := 200 * second }

/-- The session `CreatePairingSession` registers for `samplePhone` in `okCreate`. -/
def pairingSession : JadibotSession :=
  { PhoneNumber := samplePhone, Client := some ⟨1⟩, Container := some ⟨1⟩, Connected := false
    StartTime := 100, OwnerChat := "owner@s.whatsapp.net", Reconnecting := false, FailCount := 0
    LastFailTime := zeroTime }

/-- A first run of `reconnectSession(samplePhone)` has passed the entry guard, has
failed four attempts and waits 60 seconds for its fifth. -/
def firstRunWaitingWorld : World :=
  (reconnectProgress alwaysFailing activeWorld samplePhone 4).1

/-- During that wait the owner deletes `samplePhone`, pairs it again, and the pairing
succeeds: a new session is active under the same identifier. -/
def rePairedWorld : World :=
  handleJadibotEvent okEvent
    (CreatePairingSession okCreate (RemoveSession firstRunWaitingWorld samplePhone).2
      samplePhone "owner@s.whatsapp.net" (some ⟨0⟩)).2
    samplePhone .pairSuccess

/-- The new session drops its connection and a second run of
`reconnectSession(samplePhone)` passes the entry guard. -/
def secondRunEnteredWorld : World :=
  (reconnectEnter rePairedWorld samplePhone).2

/-! ## Reconnections started by a sweep -/

/-- The number of `go jm.reconnectSession(phoneNumber)` statements recorded in a log. -/
def reconnectsStarted (log : List Effect) (phoneNumber : String) : Nat :=
  log.count (.goReconnectSession phoneNumber)

/-- The session of `samplePhone` in `midReconnectWorld`. -/
def midReconnectSession : JadibotSession :=
  { loadedSession with Reconnecting := true, FailCount := 3, LastFailTime := 1000 }

/-- The world `midReconnectWorld` with a regular file named `.db` directly in
`Wilykun/jadibot`. -/
def strayFileWorld : World :=
  { midReconnectWorld with
    fs := ⟨midReconnectWorld.fs.nodes ++ [⟨JadibotFolder ++ [".db"], false⟩]⟩ }

/-! ## Listing the active sessions -/

/-- The method `GetAllSessions`: a new slice to which the sessions of `jm.sessions`
are appended one by one (in the order the map is ranged over).  The method only reads
the manager, so its model returns no new world. -/
def GetAllSessions (w : World) : List JadibotSession :=
  w.jm.sessions.entries.foldl (fun sessions e => sessions ++ [e.2]) []

/-- Whether every session of a map is stored under its own `PhoneNumber`, as every
insertion site of the manager does. -/
def wellKeyed (m : SessionMap) : Bool :=
  m.entries.all (fun e => e.2.PhoneNumber == e.1)

/-- A second well-formed identifier used in the examples. -/
def otherPhone : String := "6289681234567"

/-- The world in which `samplePhone` is active and `otherPhone` is being paired. -/
def mixedWorld : World :=
  (CreatePairingSession okCreate activeWorld otherPhone "owner@s.whatsapp.net" (some ⟨0⟩)).2

/-! ## How a run of the reconnection engine leaves a session -/

/-- The two ways `reconnectSession` may leave `phoneNumber`: removed from the active
map with its folder deleted, or active with a failure count of zero. -/
def Settled (w : World) (phoneNumber : String) : Prop :=
  (w.jm.sessions.lookup phoneNumber = none ∧
    w.fs.present (getJadibotFolder phoneNumber) = false) ∨
  ∃ s, w.jm.sessions.lookup phoneNumber = some s ∧ s.FailCount = 0

/-- A client that fails twice and is connected after the third `Connect`. -/
def thirdTimeLucky : Nat → AttemptObs := fun n =>
  { connectedBefore := false, hasStoreID := true, connectErr := decide (n < 3)
    connectedAfter := true, now := 7 }

/-! ## Outcomes of the loader -/

/-- Whether loading a folder fails at some step: the credential store cannot be opened
or read, it holds no identity, `Connect` returns an error, or after the 500 ms wait the
client has no identity or is not connected. -/
def LoadObs.fails (o : LoadObs) : Bool :=
  o.store != .identity || o.connectErr || !o.hasStoreID || !o.isConnected

/-- The session the loader registers under `phoneNumber` when nothing fails. -/
def loadedSessionOf (o : LoadObs) (phoneNumber : String) : JadibotSession :=
  { PhoneNumber := phoneNumber, Client := some o.client, Container := some o.container
    Connected := true, StartTime := o.startTime, OwnerChat := "", Reconnecting := false
    FailCount := 0, LastFailTime := zeroTime }

/-- A load in which the store opens but holds no identity. -/
def noIdentityLoad : LoadObs := { okLoad with store := .noIdentity }

/-! ## Metadata file -/

/-- A JSON value as `encoding/json` sees it when it decodes into an `int64`: a string,
an integer number, or anything else (null, boolean, fraction, array, object). -/
inductive JsonValue where
  | str (s : String)
  | num (n : Int)
  | other
deriving DecidableEq, Repr

/-- A JSON object: its members in the order they are written. -/
abbrev JsonObject := List (String × JsonValue)

/-- What `os.ReadFile` followed by `json.Unmarshal` finds at a path. -/
inductive FileContent where
  /-- The call `os.ReadFile` returns an error. -/
  | unreadable
  /-- The bytes are not a JSON object: `json.Unmarshal` stores nothing. -/
  | invalid
  /-- The bytes are the JSON object `o`. -/
  | object (o : JsonObject)
deriving DecidableEq, Repr

/-- The object `saveJadibotMetadata` marshals from its `map[string]interface{}`
(`encoding/json` writes the keys of a map in sorted order). -/
def metadataRecord (phoneNumber : String) (startUnix savedAtUnix : Int) : JsonObject :=
  [("phoneNumber", .str phoneNumber), ("savedAt", .num savedAtUnix), ("startTime", .num startUnix)]

/-- The bytes an effect hands to `os.WriteFile`, as the JSON object they encode. -/
def Effect.payload : Effect → Option JsonObject
  | .writeMetadata phoneNumber startUnix savedAtUnix =>
    some (metadataRecord phoneNumber startUnix savedAtUnix)
  | _ => none

/-- The value `json.Unmarshal` stores for one member of a `map[string]int64`: the
number when it is an integer that fits an `int64`; for any other value the library
records a type error, goes on with the next member, and the entry is left at zero. -/
def int64OfJson : JsonValue → Int
  | .num n => if -(2 ^ 63) ≤ n ∧ n < 2 ^ 63 then n else 0
  | _ => 0

/-- The map `json.Unmarshal(data, &metadata)` builds for `var metadata map[string]int64`
from a JSON object (a later member replaces an earlier one with the same key). -/
def unmarshalInt64Map (o : JsonObject) : AList (fun _ : String => Int) :=
  o.foldl (fun m kv => m.insert kv.1 (int64OfJson kv.2)) ∅

/-- The function `time.Unix(sec, 0)`. -/
def timeUnix (sec : Int) : Time := sec * second

/-- The function `loadJadibotMetadata`; `content` is what it finds at the metadata
path and `now` its reading of `time.Now()`.  The error of `json.Unmarshal` is
ignored. -/
def loadJadibotMetadata (content : FileContent) (now : Time) : Time :=
  match content with
  | .unreadable => now
  | .invalid => now
  | .object o =>
    match (unmarshalInt64Map o).lookup "startTime" with
    | some startUnix => timeUnix startUnix
    | none => now

/-- A start time that is not a whole number of seconds. -/
def sampleStart : Time := 1700000000 * second + 123456789

/-! ## Command parser (`commands/parser.go`)

A Go string is the list of its characters (texts are valid UTF-8).  The table
`unicode.ToLower` is outside the repository and is a parameter of the parser. -/

/-- The predicate `unicode.IsSpace`, by code point: tab, line feed, vertical tab, form
feed, carriage return, space, U+0085, U+00A0, U+1680, U+2000 to U+200A, U+2028, U+2029,
U+202F, U+205F, U+3000. -/
def isSpace (c : Char) : Bool :=
  (9 ≤ c.toNat && c.toNat ≤ 13) || c.toNat == 32 || c.toNat == 133 || c.toNat == 160 ||
  c.toNat == 5760 || (8192 ≤ c.toNat && c.toNat ≤ 8202) || c.toNat == 8232 || c.toNat == 8233 ||
  c.toNat == 8239 || c.toNat == 8287 || c.toNat == 12288

/-- The function `strings.TrimSpace`. -/
def TrimSpace (s : List Char) : List Char :=
  ((s.dropWhile isSpace).reverse.dropWhile isSpace).reverse

/-- The function `strings.HasPrefix`. -/
def HasPrefix (s pre : List Char) : Bool :=
  pre.isPrefixOf s

/-- The function `strings.TrimPrefix`. -/
def TrimPrefix (s pre : List Char) : List Char :=
  if HasPrefix s pre then s.drop pre.length else s

/-- The scan of `strings.Fields`: `cur` is the word being read, last character first. -/
def fieldsFrom : List Char → List Char → List (List Char)
  | [], cur => if cur.isEmpty then [] else [cur.reverse]
  | c :: cs, cur =>
    if isSpace c then
      if cur.isEmpty then fieldsFrom cs [] else cur.reverse :: fieldsFrom cs []
    else fieldsFrom cs (c :: cur)

/-- The function `strings.Fields`: the maximal runs of characters that are not white
space. -/
def Fields (s : List Char) : List (List Char) :=
  fieldsFrom s []

/-- The function `strings.ToLower`, over the table `toLower` of `unicode.ToLower`. -/
def ToLower (toLower : Char → Char) (s : List Char) : List Char :=
  s.map toLower

/-- The function `strings.Join`. -/
def Join : List (List Char) → List Char → List Char
  | [], _ => []
  | [a], _ => a
  | a :: b :: rest, sep => a ++ sep ++ Join (b :: rest) sep

/-- The variable `CommandPrefixes`. -/
def CommandPrefixes : List String := [".", "!", "-", "/"]

/-- The keys of the local `allowedNoPrefixCmds` of `ParseCommand`. -/
def allowedNoPrefixCmds : List String :=
  ["bot", "menu", "info", "ping", "status", "online", "typing", "record", "readstory",
    "likestory", "storydelay", "jadibot", "listjadibot", "deljadibot"]

/-- The `args` that `ParseCommand` builds from `parts[1:]`. -/
def argsOf (more : List (List Char)) : String :=
  if more.length > 0 then String.mk (TrimSpace (Join more " ".data)) else ""

/-- The loop `for _, prefix := range CommandPrefixes` of `ParseCommand`: the result it
returns at the first entry that `text` starts with, `none` when it falls through. -/
def parsePrefixed (toLower : Char → Char) (text : List Char) :
    List String → Option (String × String × Bool)
  | [] => none
  | pre :: rest =>
    if HasPrefix text pre.data then
      let content := TrimPrefix text pre.data
      match Fields content with
      | [] => some ("", "", false)
      | first :: more => some (String.mk (ToLower toLower first), argsOf more, true)
    else parsePrefixed toLower text rest

/-- The function `ParseCommand`. -/
def ParseCommand (toLower : Char → Char) (text : String) : String × String × Bool :=
  let text := TrimSpace text.data
  if text.isEmpty then ("", "", false)
  else
    match parsePrefixed toLower text CommandPrefixes with
    | some r => r
    | none =>
      match Fields text with
      | [] => ("", "", false)
      | first :: more =>
        let cmd := String.mk (ToLower toLower first)
        if allowedNoPrefixCmds.contains cmd then (cmd, argsOf more, true) else ("", "", false)

/-- The part of `unicode.ToLower` that concerns the letters A to Z (used in examples). -/
def asciiToLower (c : Char) : Char :=
  if 65 ≤ c.toNat ∧ c.toNat ≤ 90 then Char.ofNat (c.toNat + 32) else c

/-! ## The `jadibot` command -/

/-- The function `strings.ReplaceAll(s, old, new)` for a one-character `old`. -/
def ReplaceAll : List Char → Char → List Char → List Char
  | [], _, _ => []
  | c :: cs, old, new => (if c == old then new else [c]) ++ ReplaceAll cs old new

/-- The built-in `len` of a string: its length in bytes (UTF-8). -/
def len (s : List Char) : Nat :=
  (String.mk s).utf8ByteSize

/-- The prefixes `HandleJadibotCommand` accepts, in the order it tests them. -/
def phonePrefixes : List String :=
  ["6289", "6281", "6282", "6283", "6285", "6287", "6288"]

/-- How `HandleJadibotCommand` answers, one case per `return`. -/
inductive CommandReply where
  /-- The usage text, for an empty argument. -/
  | help
  /-- Text: Format Nomor Salah. -/
  | wrongFormat
  /-- Text: Nomor tidak valid, panjang nomor harus 10-15 digit. -/
  | wrongLength
  /-- Text: nomor sudah terdaftar sebagai jadibot. -/
  | alreadyRegistered (phoneNumber : String)
  /-- The handler called `CreatePairingSession(phoneNumber, ..)` and reports its result. -/
  | pairing (phoneNumber : String) (result : Except JadibotError String)

/-- Lines 1048-1057 of `HandleJadibotCommand`: the argument is trimmed, the characters
`+`, `-` and space are removed, and a leading `0` is rewritten to `62`. -/
def normalisedNumber (args : String) : List Char :=
  let p0 := TrimSpace args.data
  let p1 := ReplaceAll p0 (Char.ofNat 43) []
  let p2 := ReplaceAll p1 (Char.ofNat 45) []
  let p3 := ReplaceAll p2 (Char.ofNat 32) []
  if !HasPrefix p3 "62".data then
    if HasPrefix p3 "0".data then "62".data ++ p3.drop 1 else p3
  else p3

/-- The function `HandleJadibotCommand`; `chat` is the chat of the request and `client`
the main client, both handed on to `CreatePairingSession`. -/
def HandleJadibotCommand (obs : CreateObs) (w : World) (client : Option Client) (chat : String)
    (args : String) : CommandReply × World :=
  if args = "" then (.help, w)
  else
    let phoneNumber := normalisedNumber args
    if phonePrefixes.all (fun pre => !HasPrefix phoneNumber pre.data) then (.wrongFormat, w)
    else if len phoneNumber < 10 || len phoneNumber > 15 then (.wrongLength, w)
    else if IsSessionExists w (String.mk phoneNumber) then
      (.alreadyRegistered (String.mk phoneNumber), w)
    else
      let r := CreatePairingSession obs w (String.mk phoneNumber) chat client
      (.pairing (String.mk phoneNumber) r.1, r.2)

/-- The number `HandleJadibotCommand` hands to `CreatePairingSession`, if it gets that
far. -/
def CommandReply.pairedNumber : CommandReply → Option String
  | .pairing phoneNumber _ => some phoneNumber
  | _ => none

/-- Whether a character is one of the decimal digits 0 to 9. -/
def isDecimalDigit (c : Char) : Bool :=
  48 ≤ c.toNat && c.toNat ≤ 57

/-! ## Histories of the manager -/

/-- One step of the manager, with what its collaborators answer during the step.  The
parts of `reconnectSession` (entry guard, one attempt, deferred release) and of
`LoadExistingSessions` (one folder) are steps of their own, so that other operations
may run in between. -/
inductive Op where
  | create (obs : CreateObs) (phoneNumber ownerChat : String) (mainClient : Option Client)
  | event (obs : EventObs) (phoneNumber : String) (evt : Event)
  | timeout (mainConnected : Bool) (phoneNumber : String)
  | reconnect (obs : Nat → AttemptObs) (phoneNumber : String)
  | enter (phoneNumber : String)
  | attempt (obs : AttemptObs) (phoneNumber : String) (number : Nat)
  | release (phoneNumber : String)
  | sweep (obs : SweepObs)
  | remove (phoneNumber : String)
  | load (obs : String → LoadObs)
  | loadOne (obs : LoadObs) (phoneNumber : String)

/-- The world after one step. -/
def Op.apply (w : World) : Op → World
  | .create obs phoneNumber ownerChat mainClient =>
    (CreatePairingSession obs w phoneNumber ownerChat mainClient).2
  | .event obs phoneNumber evt => handleJadibotEvent obs w phoneNumber evt
  | .timeout mainConnected phoneNumber => pairingTimeout mainConnected w phoneNumber
  | .reconnect obs phoneNumber => reconnectSession obs w phoneNumber
  | .enter phoneNumber => (reconnectEnter w phoneNumber).2
  | .attempt obs phoneNumber number => (reconnectAttempt obs w phoneNumber number).1
  | .release phoneNumber => releaseReconnecting w phoneNumber
  | .sweep obs => validateAllSessions obs w
  | .remove phoneNumber => (RemoveSession w phoneNumber).2
  | .load obs => LoadExistingSessions obs w
  | .loadOne obs phoneNumber => loadSession obs w phoneNumber

/-- The world after a history of steps, oldest first. -/
def run (ops : List Op) (w : World) : World :=
  ops.foldl Op.apply w

/-- The relation between the `Connected` field and the map that holds a session: false
in the pending map, true in the active map. -/
def ConnectedByMap (w : World) : Prop :=
  (∀ id s, w.jm.pending.lookup id = some s → s.Connected = false) ∧
  (∀ id s, w.jm.sessions.lookup id = some s → s.Connected = true)

/-- A history that pairs `samplePhone`, sees it connect, drop and come back, while
`otherPhone` is being paired and the loader and a sweep run. -/
def sampleHistory : List Op :=
  [.create okCreate samplePhone "owner@s.whatsapp.net" (some ⟨0⟩),
    .event okEvent samplePhone .pairSuccess,
    .create okCreate otherPhone "owner@s.whatsapp.net" (some ⟨0⟩),
    .event okEvent samplePhone .disconnected,
    .reconnect thirdTimeLucky samplePhone,
    .load (fun _ => okLoad),
    .sweep disconnectedSweep]

end Jadibot

/-! # Theorems -/

namespace Jadibot

/-! ## File system and log -/

theorem present_eq_false_iff (fs : FileSys) (p : Path) :
    fs.present p = false ↔ ∀ n ∈ fs.nodes, n.path ≠ p := by
  simp [FileSys.present]

theorem present_removeAll_self (fs : FileSys) (p : Path) :
    (fs.removeAll p).present p = false := by
  rw [present_eq_false_iff]
  intro n hn hp
  simp only [FileSys.removeAll, List.mem_filter] at hn
  have h2 := hn.2
  rw [← hp] at h2
  have h3 : List.isPrefixOf n.path n.path = true :=
    List.isPrefixOf_iff_prefix.2 (List.prefix_refl _)
  simp [h3] at h2

theorem present_removeAll_of_absent (fs : FileSys) (p q : Path) (h : fs.present q = false) :
    (fs.removeAll p).present q = false := by
  rw [present_eq_false_iff] at *
  intro n hn
  simp only [FileSys.removeAll, List.mem_filter] at hn
  exact h n hn.1

@[simp] theorem emit_jm (w : World) (e : Effect) : (w.emit e).jm = w.jm := rfl

@[simp] theorem emit_fs (w : World) (e : Effect) : (w.emit e).fs = w.fs := rfl

@[simp] theorem emit_log (w : World) (e : Effect) : (w.emit e).log = e :: w.log := rfl

@[simp] theorem disconnectIfClient_jm (w : World) (id : String) (c : Option Client) :
    (disconnectIfClient w id c).jm = w.jm := by cases c <;> rfl

@[simp] theorem disconnectIfClient_fs (w : World) (id : String) (c : Option Client) :
    (disconnectIfClient w id c).fs = w.fs := by cases c <;> rfl

@[simp] theorem closeIfOpen_jm (w : World) (id : String) (c : Option Container) :
    (closeIfOpen w id c).jm = w.jm := by cases c <;> rfl

@[simp] theorem closeIfOpen_fs (w : World) (id : String) (c : Option Container) :
    (closeIfOpen w id c).fs = w.fs := by cases c <;> rfl

/-- The folder and file paths of some identifiers, as `filepath.Join` computes them. -/
theorem pathJoin_samples :
    getJadibotFolder samplePhone = ["Wilykun", "jadibot", samplePhone] ∧
    getJadibotDBPath samplePhone = ["Wilykun", "jadibot", samplePhone, samplePhone ++ ".db"] ∧
    getJadibotMetadataPath samplePhone = ["Wilykun", "jadibot", samplePhone, "metadata.json"] ∧
    getJadibotFolder "" = ["Wilykun", "jadibot"] ∧
    getJadibotFolder "6281234/.." = ["Wilykun", "jadibot"] ∧
    getJadibotFolder "6281/../.." = ["Wilykun"] ∧
    getJadibotFolder "6281//x/./y" = ["Wilykun", "jadibot", "6281", "x", "y"] ∧
    getJadibotFolder "../.." = ["."] ∧
    getJadibotFolder "../../.." = [".."] := by
  decide

theorem cleanPath_ne_nil (components : List String) : cleanPath components ≠ [] := by
  unfold cleanPath
  split
  · simp
  · assumption

theorem getJadibotFolder_ne_nil (id : String) : getJadibotFolder id ≠ [] :=
  cleanPath_ne_nil _

theorem splitPathFrom_of_no_separator (cs cur : List Char) (h : Char.ofNat 47 ∉ cs) :
    splitPathFrom cs cur = [String.mk (cur.reverse ++ cs)] := by
  induction cs generalizing cur with
  | nil => simp [splitPathFrom]
  | cons c t ih =>
    have hc : c ≠ Char.ofNat 47 := fun he => h (by rw [he]; exact List.mem_cons_self _ _)
    have ht : Char.ofNat 47 ∉ t := fun hm => h (List.mem_cons_of_mem _ hm)
    unfold splitPathFrom
    rw [if_neg hc, ih (c :: cur) ht]
    simp

theorem isFileName_iff (name : String) :
    isFileName name = true ↔
      name ≠ "" ∧ name ≠ "." ∧ name ≠ ".." ∧ Char.ofNat 47 ∉ name.data := by
  unfold isFileName
  simp [and_assoc]

/-- For an identifier that is a file name, `filepath.Join` only appends it. -/
theorem getJadibotFolder_of_fileName (id : String) (h : isFileName id = true) :
    getJadibotFolder id = JadibotFolder ++ [id] := by
  obtain ⟨h1, h2, h3, h4⟩ := (isFileName_iff id).1 h
  have hsplit : splitPathFrom id.data [] = [id] := by
    rw [splitPathFrom_of_no_separator id.data [] h4]
    simp
  unfold getJadibotFolder pathJoin
  rw [hsplit]
  have hw : ¬ ("Wilykun" = "" ∨ "Wilykun" = ".") := by decide
  have hw2 : ¬ ("Wilykun" = "..") := by decide
  have hj : ¬ ("jadibot" = "" ∨ "jadibot" = ".") := by decide
  have hj2 : ¬ ("jadibot" = "..") := by decide
  have hi : ¬ (id = "" ∨ id = ".") := by
    intro hh
    rcases hh with hh | hh
    · exact h1 hh
    · exact h2 hh
  simp [cleanPath, JadibotFolder, cleanStep, hw, hw2, hj, hj2, hi, h3]

/-- The folders of two different file names do not contain one another. -/
theorem present_removeAll_other (fs : FileSys) (id j : String) (p : Path) (h : j ≠ id)
    (hid : isFileName id = true) (hj : isFileName j = true)
    (hp : (getJadibotFolder id).isPrefixOf p = true) :
    (fs.removeAll (getJadibotFolder j)).present p = fs.present p := by
  rw [getJadibotFolder_of_fileName id hid] at hp
  rw [getJadibotFolder_of_fileName j hj]
  have hnot : (JadibotFolder ++ [j]).isPrefixOf p = false := by
    cases hq : (JadibotFolder ++ [j]).isPrefixOf p with
    | false => rfl
    | true =>
      exfalso
      rw [List.isPrefixOf_iff_prefix] at hq hp
      obtain ⟨t1, h1⟩ := hq
      obtain ⟨t2, h2⟩ := hp
      rw [← h2] at h1
      simp [JadibotFolder] at h1
      exact h h1.1
  unfold FileSys.present FileSys.removeAll
  simp only [List.any_filter]
  congr 1
  funext n
  by_cases hn : n.path = p
  · subst hn; simp [hnot]
  · simp [hn]

/-! ## Removal -/

theorem RemoveSession_of_active (w : World) (id : String) (s : JadibotSession)
    (h : w.jm.sessions.lookup id = some s) :
    (RemoveSession w id).1 = none ∧
    (RemoveSession w id).2.jm.sessions = w.jm.sessions.erase id ∧
    (RemoveSession w id).2.jm.pending = w.jm.pending ∧
    (RemoveSession w id).2.jm.mainClient = w.jm.mainClient ∧
    (RemoveSession w id).2.fs = w.fs.removeAll (getJadibotFolder id) := by
  unfold RemoveSession
  rw [h]
  simp [cleanupJadibotFiles, World.deleteSession]

theorem RemoveSession_of_pending (w : World) (id : String) (s : JadibotSession)
    (ha : w.jm.sessions.lookup id = none) (h : w.jm.pending.lookup id = some s) :
    (RemoveSession w id).1 = none ∧
    (RemoveSession w id).2.jm.sessions = w.jm.sessions ∧
    (RemoveSession w id).2.jm.pending = w.jm.pending.erase id ∧
    (RemoveSession w id).2.jm.mainClient = w.jm.mainClient ∧
    (RemoveSession w id).2.fs = w.fs.removeAll (getJadibotFolder id) := by
  unfold RemoveSession
  rw [ha, h]
  simp [deleteJadibotFiles, cleanupJadibotFiles, World.deletePending]

theorem RemoveSession_of_absent (w : World) (id : String)
    (ha : w.jm.sessions.lookup id = none) (h : w.jm.pending.lookup id = none) :
    RemoveSession w id = (some .notFound, w) := by
  unfold RemoveSession
  rw [ha, h]

theorem create_ok_registers (obs : CreateObs) (w : World) (id owner : String)
    (mc : Option Client) (code : String)
    (h : (CreatePairingSession obs w id owner mc).1 = .ok code) :
    isActive w id = false ∧ isPending w id = false ∧
    isActive (CreatePairingSession obs w id owner mc).2 id = false ∧
    isPending (CreatePairingSession obs w id owner mc).2 id = true := by
  unfold CreatePairingSession at h ⊢
  by_cases hA : (w.jm.sessions.lookup id).isSome = true
  · simp [hA] at h
  · by_cases hP : (w.jm.pending.lookup id).isSome = true
    · simp [hA, hP] at h
    · simp only [hA, hP, if_false] at h ⊢
      cases hm : w.fs.mkdirAll (getJadibotFolder id) obs.mkdirRefused with
      | none => simp [hm] at h
      | some fs1 =>
        simp only [hm] at h ⊢
        by_cases hd : obs.databaseErr = true
        · simp [hd] at h
        · by_cases hc : obs.connectErr = true
          · simp [hd, hc] at h
          · cases hpc : obs.pairingCode with
            | none => simp [hd, hc, hpc] at h
            | some c =>
              simp [hd, hc, hpc, isActive, isPending, World.setPending] at hA hP ⊢
              simp [hA, hP]

/-- C1 (amended): in every state, after `RemoveSession(id)` returns nil,
`IsSessionExists(id)` is false, `id` is not in the active map and the folder
`getJadibotFolder(id)` no longer exists; `id` is not in the pending map either,
provided it was not a key of both maps before the call.  (A nil result already implies
that `id` was in one of the maps.) -/
theorem c1_removeSession_clears (w : World) (id : String)
    (hok : (RemoveSession w id).1 = none) :
    IsSessionExists (RemoveSession w id).2 id = false ∧
    isActive (RemoveSession w id).2 id = false ∧
    (RemoveSession w id).2.fs.present (getJadibotFolder id) = false ∧
    (¬ (isActive w id = true ∧ isPending w id = true) →
      isPending (RemoveSession w id).2 id = false) := by
  cases hs : w.jm.sessions.lookup id with
  | some s =>
    obtain ⟨_, h2, h3, _, h5⟩ := RemoveSession_of_active w id s hs
    simp only [IsSessionExists, isActive, isPending, h2, h3, h5]
    refine ⟨by simp, by simp, present_removeAll_self _ _, ?_⟩
    intro huniq
    cases hq : (w.jm.pending.lookup id).isSome with
    | false => rfl
    | true => exact absurd ⟨by simp [hs], hq⟩ huniq
  | none =>
    cases hp : w.jm.pending.lookup id with
    | some s =>
      obtain ⟨_, h2, h3, _, h5⟩ := RemoveSession_of_pending w id s hs hp
      simp only [IsSessionExists, isActive, isPending, h2, h3, h5]
      exact ⟨by simp [hs], by simp [hs], present_removeAll_self _ _, fun _ => by simp⟩
    | none =>
      rw [RemoveSession_of_absent w id hs hp] at hok
      simp at hok

/-- C1, witness: removal of the pending session of `samplePhone`. -/
theorem c1_witness :
    (RemoveSession pairingStartedWorld samplePhone).1 = none ∧
    (IsSessionExists (RemoveSession pairingStartedWorld samplePhone).2 samplePhone = false ∧
     isActive (RemoveSession pairingStartedWorld samplePhone).2 samplePhone = false ∧
     (RemoveSession pairingStartedWorld samplePhone).2.fs.present (getJadibotFolder samplePhone)
       = false ∧
     (¬ (isActive pairingStartedWorld samplePhone = true ∧
          isPending pairingStartedWorld samplePhone = true) →
       isPending (RemoveSession pairingStartedWorld samplePhone).2 samplePhone = false)) :=
  ⟨by decide, c1_removeSession_clears pairingStartedWorld samplePhone (by decide)⟩

/-- C1, counterexample: when the loader has registered as active an identifier that is
still pending, `RemoveSession` returns nil and leaves the identifier in the pending
map. -/
theorem c1_counterexample :
    (isActive loadedWhilePairingWorld samplePhone = true ∨
      isPending loadedWhilePairingWorld samplePhone = true) ∧
    (RemoveSession loadedWhilePairingWorld samplePhone).1 = none ∧
    ¬ (IsSessionExists (RemoveSession loadedWhilePairingWorld samplePhone).2 samplePhone = false ∧
       isActive (RemoveSession loadedWhilePairingWorld samplePhone).2 samplePhone = false ∧
       isPending (RemoveSession loadedWhilePairingWorld samplePhone).2 samplePhone = false ∧
       (RemoveSession loadedWhilePairingWorld samplePhone).2.fs.present
         (getJadibotFolder samplePhone) = false) := by
  decide


/-- If `CreatePairingSession(id, ..)` succeeds, then in every later state in which
`id` is pending and not active, as the call left it, a second
`CreatePairingSession(id, ..)` fails with the duplicate-pending error and changes
nothing. -/
theorem second_create_is_duplicatePending (obs1 obs2 : CreateObs) (w w2 : World)
    (id owner1 owner2 : String) (mc1 mc2 : Option Client) (code : String)
    (hfirst : (CreatePairingSession obs1 w id owner1 mc1).1 = .ok code)
    (hkeepA : isActive w2 id = isActive (CreatePairingSession obs1 w id owner1 mc1).2 id)
    (hkeepP : isPending w2 id = isPending (CreatePairingSession obs1 w id owner1 mc1).2 id) :
    CreatePairingSession obs2 w2 id owner2 mc2 = (.error .duplicatePending, w2) := by
  obtain ⟨_, _, h3, h4⟩ := create_ok_registers obs1 w id owner1 mc1 code hfirst
  rw [h3] at hkeepA
  rw [h4] at hkeepP
  unfold CreatePairingSession
  simp only [isActive, isPending] at hkeepA hkeepP
  simp [hkeepA, hkeepP]

/-- Pairing `samplePhone` twice in a row. -/
theorem second_create_sample :
    (CreatePairingSession okCreate restartWorld samplePhone "owner@s.whatsapp.net" (some ⟨0⟩)).1
      = .ok "ABCD-1234" ∧
    CreatePairingSession okCreate pairingStartedWorld samplePhone "other" none
      = (.error .duplicatePending, pairingStartedWorld) :=
  ⟨rfl,
    second_create_is_duplicatePending okCreate okCreate restartWorld pairingStartedWorld
      samplePhone "owner@s.whatsapp.net" "other" (some ⟨0⟩) none "ABCD-1234" rfl rfl rfl⟩

/-- C2 (evaluation at the failing input): after a restart `samplePhone` is neither
active nor pending and `CreatePairingSession(samplePhone)` succeeds.  Then
`LoadExistingSessions` runs and registers `samplePhone` as active; there has been no
promotion, timeout or removal, and the pending entry is the one the first call made.
A second `CreatePairingSession(samplePhone)` now fails with the duplicate-active
error, not with the duplicate-pending error. -/
theorem c2_second_create_after_loader :
    isActive restartWorld samplePhone = false ∧ isPending restartWorld samplePhone = false ∧
    (CreatePairingSession okCreate restartWorld samplePhone "owner@s.whatsapp.net" (some ⟨0⟩)).1
      = .ok "ABCD-1234" ∧
    loadedWhilePairingWorld.jm.pending.lookup samplePhone =
      pairingStartedWorld.jm.pending.lookup samplePhone ∧
    isPending loadedWhilePairingWorld samplePhone = true ∧
    CreatePairingSession okCreate loadedWhilePairingWorld samplePhone "other" none =
      (.error .duplicateActive, loadedWhilePairingWorld) :=
  ⟨by decide, by decide, rfl, by decide, by decide, rfl⟩

/-- C3: if `id` is in the active map `CreatePairingSession` returns the
duplicate-active error, if it is only in the pending map it returns the
duplicate-pending error; in both cases the world (both maps, `mainClient`, the file
system, the effect log) is exactly as before the call. -/
theorem c3_duplicate_has_no_effect (obs : CreateObs) (w : World) (id owner : String)
    (mc : Option Client) :
    (isActive w id = true →
      CreatePairingSession obs w id owner mc = (.error .duplicateActive, w)) ∧
    (isActive w id = false → isPending w id = true →
      CreatePairingSession obs w id owner mc = (.error .duplicatePending, w)) := by
  constructor
  · intro h
    unfold CreatePairingSession
    simp only [isActive] at h
    simp [h]
  · intro h1 h2
    unfold CreatePairingSession
    simp only [isActive, isPending] at h1 h2
    simp [h1, h2]

/-- C3, witness: one call on an active and one on a pending identifier. -/
theorem c3_witness :
    (isActive loadedWhilePairingWorld samplePhone = true ∧
      CreatePairingSession okCreate loadedWhilePairingWorld samplePhone "o" none
        = (.error .duplicateActive, loadedWhilePairingWorld)) ∧
    (isActive pairingStartedWorld samplePhone = false ∧
      isPending pairingStartedWorld samplePhone = true ∧
      CreatePairingSession okCreate pairingStartedWorld samplePhone "o" none
        = (.error .duplicatePending, pairingStartedWorld)) :=
  ⟨⟨by decide, (c3_duplicate_has_no_effect okCreate loadedWhilePairingWorld samplePhone "o" none).1
      (by decide)⟩,
   ⟨by decide, by decide,
    (c3_duplicate_has_no_effect okCreate pairingStartedWorld samplePhone "o" none).2
      (by decide) (by decide)⟩⟩

/-- C4 (evaluation at the failing input): from a state with an empty registry,
`CreatePairingSession(samplePhone)` succeeds and a following `LoadExistingSessions`
that finds a stored identity in the folder of `samplePhone` registers it as active
without looking at the pending map: the identifier is then a key of both maps. -/
theorem c4_loader_breaks_uniqueness :
    isActive restartWorld samplePhone = false ∧ isPending restartWorld samplePhone = false ∧
    (CreatePairingSession okCreate restartWorld samplePhone "owner@s.whatsapp.net" (some ⟨0⟩)).1
      = .ok "ABCD-1234" ∧
    isActive loadedWhilePairingWorld samplePhone = true ∧
    isPending loadedWhilePairingWorld samplePhone = true :=
  ⟨by decide, by decide, rfl, by decide, by decide⟩

theorem updateSession_lookup (w : World) (id j : String) (f : JadibotSession → JadibotSession) :
    (w.updateSession id f).jm.sessions.lookup j =
      if j = id then (w.jm.sessions.lookup id).map f else w.jm.sessions.lookup j := by
  unfold World.updateSession
  cases h : w.jm.sessions.lookup id with
  | none =>
    by_cases hj : j = id
    · subst hj; simp [h]
    · simp [hj]
  | some s =>
    by_cases hj : j = id
    · subst hj; simp [World.setSession]
    · simp [hj, World.setSession, AList.lookup_insert_ne hj]

@[simp] theorem updateSession_fs (w : World) (id : String) (f : JadibotSession → JadibotSession) :
    (w.updateSession id f).fs = w.fs := by
  unfold World.updateSession
  cases w.jm.sessions.lookup id <;> rfl

@[simp] theorem updateSession_pending (w : World) (id : String)
    (f : JadibotSession → JadibotSession) :
    (w.updateSession id f).jm.pending = w.jm.pending := by
  unfold World.updateSession
  cases w.jm.sessions.lookup id <;> rfl

@[simp] theorem updateSession_log (w : World) (id : String) (f : JadibotSession → JadibotSession) :
    (w.updateSession id f).log = w.log := by
  unfold World.updateSession
  cases w.jm.sessions.lookup id <;> rfl

theorem retryDelay_isRetryWait (attempt : Nat) : isRetryWait (.sleep (retryDelay attempt)) = true := by
  unfold retryDelay
  by_cases h : attempt ≤ retryDelays.length
  · have h5 : attempt ≤ 5 := h
    simp only [h, if_true]
    interval_cases attempt <;> decide
  · simp only [h, if_false]
    decide

theorem reconnectLoop_append (obs : Nat → AttemptObs) (id : String) (l1 l2 : List Nat) (w : World) :
    reconnectLoop obs id (l1 ++ l2) w =
      if (reconnectLoop obs id l1 w).2 = .next then
        reconnectLoop obs id l2 (reconnectLoop obs id l1 w).1
      else reconnectLoop obs id l1 w := by
  induction l1 generalizing w with
  | nil => simp [reconnectLoop]
  | cons a rest ih =>
    simp only [List.cons_append, reconnectLoop]
    rcases h : reconnectAttempt (obs a) w id a with ⟨w1, e⟩
    cases e with
    | next => exact ih w1
    | done => simp
    | nilDereference => simp

theorem attemptsUpTo_succ (k : Nat) : attemptsUpTo (k + 1) = attemptsUpTo k ++ [k + 1] := by
  unfold attemptsUpTo
  rw [List.range'_concat]
  simp [Nat.add_comm]

theorem RemoveSession_connectCalls (w : World) (id j : String) :
    connectCalls (RemoveSession w id).2.log j = connectCalls w.log j := by
  unfold RemoveSession
  cases hs : w.jm.sessions.lookup id with
  | none =>
    cases hp : w.jm.pending.lookup id with
    | none => rfl
    | some ps =>
      cases hc : ps.Container <;>
        simp [deleteJadibotFiles, cleanupJadibotFiles, World.deletePending, closeIfOpen, World.emit,
          connectCalls, hc]
  | some s =>
    cases hc : s.Container <;> cases hcl : s.Client <;>
      simp [cleanupJadibotFiles, World.deleteSession, closeIfOpen, disconnectIfClient, World.emit,
        connectCalls, hc, hcl]

theorem RemoveSession_retryWaits (w : World) (id : String) :
    retryWaits (RemoveSession w id).2.log = retryWaits w.log := by
  unfold RemoveSession
  cases hs : w.jm.sessions.lookup id with
  | none =>
    cases hp : w.jm.pending.lookup id with
    | none => rfl
    | some ps =>
      cases hc : ps.Container <;>
        simp [deleteJadibotFiles, cleanupJadibotFiles, World.deletePending, closeIfOpen, World.emit,
          retryWaits, isRetryWait, hc]
  | some s =>
    cases hc : s.Container <;> cases hcl : s.Client <;>
      simp [cleanupJadibotFiles, World.deleteSession, closeIfOpen, disconnectIfClient, World.emit,
        retryWaits, isRetryWait, hc, hcl]

theorem three_seconds_not_retryWait : isRetryWait (.sleep (3 * second)) = false := by decide

theorem failsToConnect_iff (o : AttemptObs) :
    o.failsToConnect = true ↔
      o.connectedBefore = false ∧ o.hasStoreID = true ∧
        (o.connectErr = true ∨ o.connectedAfter = false) := by
  unfold AttemptObs.failsToConnect
  cases o.connectedBefore <;> cases o.hasStoreID <;> cases o.connectErr <;>
    cases o.connectedAfter <;> simp

theorem recordFailedAttempt_next (now : Time) (w : World) (id : String) (a : Nat)
    (sk : JadibotSession) (hl : w.jm.sessions.lookup id = some sk) (ha : a ≠ maxRetries) :
    (recordFailedAttempt now w id a).2 = .next ∧
    (recordFailedAttempt now w id a).1.jm.sessions.lookup id =
      some { sk with FailCount := sk.FailCount + 1, LastFailTime := now } ∧
    (recordFailedAttempt now w id a).1.fs = w.fs ∧
    (recordFailedAttempt now w id a).1.jm.pending = w.jm.pending ∧
    (recordFailedAttempt now w id a).1.log = w.log := by
  unfold recordFailedAttempt
  simp [ha, updateSession_lookup, hl]

theorem recordFailedAttempt_last (now : Time) (w : World) (id : String)
    (sk : JadibotSession) (hl : w.jm.sessions.lookup id = some sk) :
    (recordFailedAttempt now w id maxRetries).2 = .done ∧
    (recordFailedAttempt now w id maxRetries).1.jm.sessions.lookup id = none ∧
    (recordFailedAttempt now w id maxRetries).1.fs = w.fs.removeAll (getJadibotFolder id) ∧
    (recordFailedAttempt now w id maxRetries).1.jm.pending = w.jm.pending ∧
    connectCalls (recordFailedAttempt now w id maxRetries).1.log id = connectCalls w.log id ∧
    retryWaits (recordFailedAttempt now w id maxRetries).1.log = retryWaits w.log := by
  unfold recordFailedAttempt
  have hl2 : (w.updateSession id
      (fun s => { s with FailCount := s.FailCount + 1, LastFailTime := now })).jm.sessions.lookup id
      = some { sk with FailCount := sk.FailCount + 1, LastFailTime := now } := by
    simp [updateSession_lookup, hl]
  obtain ⟨_, h2, h3, _, h5⟩ := RemoveSession_of_active _ id _ hl2
  rw [if_pos rfl]
  refine ⟨rfl, ?_, ?_, ?_, ?_, ?_⟩
  · rw [h2]; simp
  · rw [h5]; simp
  · rw [h3]; simp
  · rw [RemoveSession_connectCalls]; simp
  · rw [RemoveSession_retryWaits]; simp


theorem reconnectAttempt_fails (o : AttemptObs) (w : World) (id : String) (a : Nat)
    (sk : JadibotSession) (c : Client)
    (hl : w.jm.sessions.lookup id = some sk) (hc : sk.Client = some c)
    (hf : o.failsToConnect = true) (ha : a ≠ maxRetries) :
    (reconnectAttempt o w id a).2 = .next ∧
    (reconnectAttempt o w id a).1.jm.sessions.lookup id =
      some { sk with FailCount := sk.FailCount + 1, LastFailTime := o.now } ∧
    (reconnectAttempt o w id a).1.fs = w.fs ∧
    (reconnectAttempt o w id a).1.jm.pending = w.jm.pending ∧
    connectCalls (reconnectAttempt o w id a).1.log id = connectCalls w.log id + 1 ∧
    retryWaits (reconnectAttempt o w id a).1.log = retryWaits w.log + 1 := by
  obtain ⟨h1, h2, h3⟩ := (failsToConnect_iff o).1 hf
  unfold reconnectAttempt
  simp only [emit_jm, hl, hc, h1, h2, Bool.false_eq_true, if_false, Bool.not_true]
  by_cases he : o.connectErr = true
  · simp only [he, if_true]
    obtain ⟨r1, r2, r3, r4, r5⟩ := recordFailedAttempt_next o.now
      ((w.emit (.sleep (retryDelay a))).emit (.connect id)) id a sk (by simpa using hl) ha
    refine ⟨r1, by rw [r2, hc], by rw [r3]; rfl, by rw [r4]; rfl, ?_, ?_⟩
    · rw [r5]; simp [connectCalls]
    · rw [r5]
      have hw := retryDelay_isRetryWait a
      have hcn : isRetryWait (.connect id) = false := rfl
      simp [retryWaits, List.countP_cons, hw, hcn]
  · have h4 : o.connectedAfter = false := by
      rcases h3 with h3 | h3
      · exact absurd h3 he
      · exact h3
    simp only [he, h4, Bool.false_eq_true, if_false, Bool.not_false, if_true]
    obtain ⟨r1, r2, r3, r4, r5⟩ := recordFailedAttempt_next o.now
      (((w.emit (.sleep (retryDelay a))).emit (.connect id)).emit (.sleep (3 * second))) id a sk
      (by simpa using hl) ha
    refine ⟨r1, by rw [r2, hc], by rw [r3]; rfl, by rw [r4]; rfl, ?_, ?_⟩
    · rw [r5]; simp [connectCalls]
    · rw [r5]
      have h3s := three_seconds_not_retryWait
      have hw := retryDelay_isRetryWait a
      have hcn : isRetryWait (.connect id) = false := rfl
      simp [retryWaits, List.countP_cons, hw, hcn, h3s]

theorem reconnectAttempt_fails_last (o : AttemptObs) (w : World) (id : String)
    (sk : JadibotSession) (c : Client)
    (hl : w.jm.sessions.lookup id = some sk) (hc : sk.Client = some c)
    (hf : o.failsToConnect = true) :
    (reconnectAttempt o w id maxRetries).2 = .done ∧
    (reconnectAttempt o w id maxRetries).1.jm.sessions.lookup id = none ∧
    (reconnectAttempt o w id maxRetries).1.fs = w.fs.removeAll (getJadibotFolder id) ∧
    (reconnectAttempt o w id maxRetries).1.jm.pending = w.jm.pending ∧
    connectCalls (reconnectAttempt o w id maxRetries).1.log id = connectCalls w.log id + 1 ∧
    retryWaits (reconnectAttempt o w id maxRetries).1.log = retryWaits w.log + 1 := by
  obtain ⟨h1, h2, h3⟩ := (failsToConnect_iff o).1 hf
  unfold reconnectAttempt
  simp only [emit_jm, hl, hc, h1, h2, Bool.false_eq_true, if_false, Bool.not_true]
  have hw := retryDelay_isRetryWait maxRetries
  have hcn : isRetryWait (.connect id) = false := rfl
  have h3s := three_seconds_not_retryWait
  by_cases he : o.connectErr = true
  · simp only [he, if_true]
    obtain ⟨r1, r2, r3, r4, r5, r6⟩ := recordFailedAttempt_last o.now
      ((w.emit (.sleep (retryDelay maxRetries))).emit (.connect id)) id sk (by simpa using hl)
    refine ⟨r1, r2, by rw [r3]; rfl, by rw [r4]; rfl, ?_, ?_⟩
    · rw [r5]; simp [connectCalls]
    · rw [r6]; simp [retryWaits, List.countP_cons, hw, hcn]
  · have h4 : o.connectedAfter = false := by
      rcases h3 with h3 | h3
      · exact absurd h3 he
      · exact h3
    simp only [he, h4, Bool.false_eq_true, if_false, Bool.not_false, if_true]
    obtain ⟨r1, r2, r3, r4, r5, r6⟩ := recordFailedAttempt_last o.now
      (((w.emit (.sleep (retryDelay maxRetries))).emit (.connect id)).emit (.sleep (3 * second)))
      id sk (by simpa using hl)
    refine ⟨r1, r2, by rw [r3]; rfl, by rw [r4]; rfl, ?_, ?_⟩
    · rw [r5]; simp [connectCalls]
    · rw [r6]; simp [retryWaits, List.countP_cons, hw, hcn, h3s]

theorem reconnectAttempt_noIdentity (o : AttemptObs) (w : World) (id : String) (a : Nat)
    (sk : JadibotSession) (c : Client)
    (hl : w.jm.sessions.lookup id = some sk) (hc : sk.Client = some c)
    (h1 : o.connectedBefore = false) (h2 : o.hasStoreID = false) :
    (reconnectAttempt o w id a).2 = .done ∧
    (reconnectAttempt o w id a).1.jm.sessions.lookup id = none ∧
    (reconnectAttempt o w id a).1.fs = w.fs.removeAll (getJadibotFolder id) ∧
    (reconnectAttempt o w id a).1.jm.pending = w.jm.pending ∧
    connectCalls (reconnectAttempt o w id a).1.log id = connectCalls w.log id ∧
    retryWaits (reconnectAttempt o w id a).1.log = retryWaits w.log + 1 := by
  unfold reconnectAttempt
  simp only [emit_jm, hl, hc, h1, h2, Bool.false_eq_true, if_false, Bool.not_false, if_true]
  have hl2 : (w.emit (.sleep (retryDelay a))).jm.sessions.lookup id = some sk := by simpa using hl
  obtain ⟨_, r2, r3, _, r5⟩ := RemoveSession_of_active _ id sk hl2
  have hw := retryDelay_isRetryWait a
  refine ⟨trivial, ?_, ?_, ?_, ?_, ?_⟩
  · rw [r2]; simp
  · rw [r5]; rfl
  · rw [r3]; rfl
  · rw [RemoveSession_connectCalls]; simp [connectCalls]
  · rw [RemoveSession_retryWaits]; simp [retryWaits, List.countP_cons, hw]

theorem reconnectLoop_singleton (obs : Nat → AttemptObs) (id : String) (a : Nat) (w : World) :
    reconnectLoop obs id [a] w = reconnectAttempt (obs a) w id a := by
  unfold reconnectLoop
  rcases h : reconnectAttempt (obs a) w id a with ⟨w1, e⟩
  cases e <;> simp [reconnectLoop]

theorem reconnectProgress_succ (obs : Nat → AttemptObs) (w : World) (id : String) (k : Nat)
    (h : (reconnectProgress obs w id k).2 = .next) :
    reconnectProgress obs w id (k + 1) =
      reconnectAttempt (obs (k + 1)) (reconnectProgress obs w id k).1 id (k + 1) := by
  unfold reconnectProgress at h ⊢
  rw [attemptsUpTo_succ, reconnectLoop_append, if_pos h, reconnectLoop_singleton]

theorem reconnectProgress_fails (obs : Nat → AttemptObs) (w : World) (id : String)
    (s : JadibotSession) (c : Client)
    (hs : w.jm.sessions.lookup id = some s) (hc : s.Client = some c)
    (k : Nat) (hk : k < maxRetries)
    (hfail : ∀ n, 1 ≤ n → n ≤ k → (obs n).failsToConnect = true) :
    (reconnectProgress obs w id k).2 = .next ∧
    (∃ sk, (reconnectProgress obs w id k).1.jm.sessions.lookup id = some sk ∧
      sk.FailCount = s.FailCount + k ∧ sk.Client = some c ∧ sk.Reconnecting = true) ∧
    (reconnectProgress obs w id k).1.fs = w.fs ∧
    (reconnectProgress obs w id k).1.jm.pending = w.jm.pending ∧
    connectCalls (reconnectProgress obs w id k).1.log id = connectCalls w.log id + k ∧
    retryWaits (reconnectProgress obs w id k).1.log = retryWaits w.log + k := by
  induction k with
  | zero =>
    simp only [reconnectProgress, attemptsUpTo, List.range'_zero, reconnectLoop, markReconnecting]
    refine ⟨trivial, ⟨{ s with Reconnecting := true }, ?_, by simp, hc, rfl⟩, by simp, by simp,
      by simp, by simp⟩
    simp [updateSession_lookup, hs]
  | succ k ih =>
    obtain ⟨i1, ⟨sk, i2, i3, i4, i5⟩, i6, i7, i8, i9⟩ :=
      ih (Nat.lt_of_succ_lt hk) (fun n h1 h2 => hfail n h1 (Nat.le_succ_of_le h2))
    rw [reconnectProgress_succ obs w id k i1]
    have hne : k + 1 ≠ maxRetries := Nat.ne_of_lt hk
    obtain ⟨r1, r2, r3, r4, r5, r6⟩ := reconnectAttempt_fails (obs (k + 1))
      (reconnectProgress obs w id k).1 id (k + 1) sk c i2 i4
      (hfail (k + 1) (Nat.succ_le_succ (Nat.zero_le k)) (Nat.le_refl _)) hne
    refine ⟨r1, ⟨_, r2, ?_, i4, i5⟩, by rw [r3, i6], by rw [r4, i7], ?_, ?_⟩
    · rw [i3]; exact Nat.add_assoc _ _ _
    · rw [r5, i8]; ring
    · rw [r6, i9]; ring

theorem reconnectProgress_stops (obs : Nat → AttemptObs) (w : World) (id : String) (k j : Nat)
    (h : (reconnectProgress obs w id k).2 ≠ .next) :
    reconnectProgress obs w id (k + j) = reconnectProgress obs w id k := by
  unfold reconnectProgress at h ⊢
  have : attemptsUpTo (k + j) = attemptsUpTo k ++ List.range' (1 + k) j := by
    unfold attemptsUpTo
    rw [List.range'_append_1, Nat.add_comm]
  rw [this, reconnectLoop_append, if_neg h]

theorem reconnectSession_of_guard (obs : Nat → AttemptObs) (w : World) (id : String)
    (s : JadibotSession) (hs : w.jm.sessions.lookup id = some s) (hr : s.Reconnecting = false) :
    reconnectSession obs w id =
      releaseReconnecting (reconnectProgress obs w id maxRetries).1 id := by
  unfold reconnectSession
  simp [hs, hr]

theorem releaseReconnecting_of_removed (w : World) (id : String)
    (h : w.jm.sessions.lookup id = none) : releaseReconnecting w id = w := by
  unfold releaseReconnecting World.updateSession
  simp [h]

/-- C5: for an active session with a client and a stored identity whose client is
never connected and whose every `Connect` fails (or succeeds but the client is still
not connected after the 3 s wait), a run of `reconnectSession` that has passed the
entry guard keeps `id` active after each of the attempts 1 to 4, with `FailCount`
raised by one per attempt and the folder untouched, and the 5th attempt ends the loop
with `id` removed from the active map and its folder deleted; so it is when the call
returns. -/
theorem c5_removed_after_fifth_failed_attempt (obs : Nat → AttemptObs) (w : World) (id : String)
    (s : JadibotSession) (c : Client)
    (hs : w.jm.sessions.lookup id = some s) (hc : s.Client = some c)
    (hr : s.Reconnecting = false)
    (hfail : ∀ n, 1 ≤ n → n ≤ maxRetries → (obs n).failsToConnect = true) :
    (∀ k, 1 ≤ k → k ≤ 4 →
      (reconnectProgress obs w id k).2 = .next ∧
      (∃ sk, (reconnectProgress obs w id k).1.jm.sessions.lookup id = some sk ∧
        sk.FailCount = s.FailCount + k) ∧
      (reconnectProgress obs w id k).1.fs = w.fs) ∧
    ((reconnectProgress obs w id 5).2 = .done ∧
      isActive (reconnectProgress obs w id 5).1 id = false ∧
      (reconnectProgress obs w id 5).1.fs = w.fs.removeAll (getJadibotFolder id)) ∧
    (isActive (reconnectSession obs w id) id = false ∧
      (reconnectSession obs w id).fs.present (getJadibotFolder id) = false) := by
  have hprog : ∀ k, k ≤ 4 →
      (reconnectProgress obs w id k).2 = .next ∧
      (∃ sk, (reconnectProgress obs w id k).1.jm.sessions.lookup id = some sk ∧
        sk.FailCount = s.FailCount + k ∧ sk.Client = some c ∧ sk.Reconnecting = true) ∧
      (reconnectProgress obs w id k).1.fs = w.fs := by
    intro k hk
    obtain ⟨p1, p2, p3, _⟩ := reconnectProgress_fails obs w id s c hs hc k
      (Nat.lt_succ_of_le hk) (fun n h1 h2 => hfail n h1 (Nat.le_trans h2 (Nat.le_succ_of_le hk)))
    exact ⟨p1, p2, p3⟩
  obtain ⟨q1, ⟨s4, q2, _, q4, _⟩, q3⟩ := hprog 4 (Nat.le_refl 4)
  have h5 : reconnectProgress obs w id 5 =
      reconnectAttempt (obs 5) (reconnectProgress obs w id 4).1 id 5 :=
    reconnectProgress_succ obs w id 4 q1
  obtain ⟨r1, r2, r3, _⟩ := reconnectAttempt_fails_last (obs 5)
    (reconnectProgress obs w id 4).1 id s4 c q2 q4 (hfail 5 (by decide) (Nat.le_refl _))
  have r1' : (reconnectProgress obs w id 5).2 = .done := by rw [h5]; exact r1
  have r2' : (reconnectProgress obs w id 5).1.jm.sessions.lookup id = none := by
    rw [h5]; exact r2
  have r3' : (reconnectProgress obs w id 5).1.fs = w.fs.removeAll (getJadibotFolder id) := by
    rw [h5]; exact r3.trans (by rw [q3])
  refine ⟨?_, ⟨r1', by simp [isActive, r2'], r3'⟩, ?_⟩
  · intro k _ hk
    obtain ⟨p1, ⟨sk, p2, p3, _⟩, p4⟩ := hprog k hk
    exact ⟨p1, ⟨sk, p2, p3⟩, p4⟩
  · rw [reconnectSession_of_guard obs w id s hs hr]
    have : maxRetries = 5 := rfl
    rw [this, releaseReconnecting_of_removed _ id r2']
    exact ⟨by simp [isActive, r2'], by rw [r3']; exact present_removeAll_self _ _⟩

/-- C5, witness: the loaded session of `samplePhone` with a client that always fails. -/
theorem c5_witness :
    (activeWorld.jm.sessions.lookup samplePhone = some loadedSession ∧
      loadedSession.Client = some ⟨2⟩ ∧ loadedSession.Reconnecting = false ∧
      (∀ n, 1 ≤ n → n ≤ maxRetries → (alwaysFailing n).failsToConnect = true)) ∧
    ((∀ k, 1 ≤ k → k ≤ 4 →
      (reconnectProgress alwaysFailing activeWorld samplePhone k).2 = .next ∧
      (∃ sk, (reconnectProgress alwaysFailing activeWorld samplePhone k).1.jm.sessions.lookup
          samplePhone = some sk ∧ sk.FailCount = loadedSession.FailCount + k) ∧
      (reconnectProgress alwaysFailing activeWorld samplePhone k).1.fs = activeWorld.fs) ∧
    ((reconnectProgress alwaysFailing activeWorld samplePhone 5).2 = .done ∧
      isActive (reconnectProgress alwaysFailing activeWorld samplePhone 5).1 samplePhone = false ∧
      (reconnectProgress alwaysFailing activeWorld samplePhone 5).1.fs =
        activeWorld.fs.removeAll (getJadibotFolder samplePhone)) ∧
    (isActive (reconnectSession alwaysFailing activeWorld samplePhone) samplePhone = false ∧
      (reconnectSession alwaysFailing activeWorld samplePhone).fs.present
        (getJadibotFolder samplePhone) = false)) :=
  ⟨⟨by decide, rfl, rfl, fun _ _ _ => rfl⟩,
    c5_removed_after_fifth_failed_attempt alwaysFailing activeWorld samplePhone loadedSession ⟨2⟩
      (by decide) rfl rfl (fun _ _ _ => rfl)⟩

theorem reconnectAttempt_noStoreID (o : AttemptObs) (w : World) (id : String) (a : Nat)
    (h : o.hasStoreID = false) :
    (reconnectAttempt o w id a).2 ≠ .next ∧
    connectCalls (reconnectAttempt o w id a).1.log id = connectCalls w.log id ∧
    retryWaits (reconnectAttempt o w id a).1.log = retryWaits w.log + 1 := by
  have hw := retryDelay_isRetryWait a
  unfold reconnectAttempt
  simp only [emit_jm]
  cases hl : w.jm.sessions.lookup id with
  | none => simp [connectCalls, retryWaits, List.countP_cons, hw]
  | some sk =>
    cases hc : sk.Client with
    | none => simp [hc, connectCalls, retryWaits, List.countP_cons, hw]
    | some c =>
      by_cases hb : o.connectedBefore = true
      · simp [hc, hb, connectCalls, retryWaits, List.countP_cons, hw]
      · simp only [hc, hb, h, Bool.false_eq_true, if_false, Bool.not_false, if_true]
        refine ⟨by simp, ?_, ?_⟩
        · rw [RemoveSession_connectCalls]; simp [connectCalls]
        · rw [RemoveSession_retryWaits]; simp [retryWaits, List.countP_cons, hw]

theorem reconnectProgress_one (obs : Nat → AttemptObs) (w : World) (id : String) :
    reconnectProgress obs w id 1 = reconnectAttempt (obs 1) (markReconnecting w id) id 1 := by
  unfold reconnectProgress attemptsUpTo
  exact reconnectLoop_singleton obs id 1 _

/-- C6: `reconnectSession` never calls `Connect` on a session whose store reports no
identity, and removes it on first observation.  First part: when no attempt sees a
stored identity, the run records no `Connect` call and starts at most one attempt.
Second part: when attempt `n` of a run that has passed the entry guard is the first
to find the store without identity (the earlier attempts found an identity and failed
to connect, the client is not connected at attempt `n`), then on return the session is
removed from the active map and its folder deleted, `Connect` was called only by the
`n - 1` earlier attempts, and exactly `n` attempts were started. -/
theorem c6_no_identity_removed_without_connect (obs : Nat → AttemptObs) (w : World)
    (id : String) :
    ((∀ m, (obs m).hasStoreID = false) →
      connectCalls (reconnectSession obs w id).log id = connectCalls w.log id ∧
      retryWaits (reconnectSession obs w id).log ≤ retryWaits w.log + 1) ∧
    (∀ (s : JadibotSession) (c : Client) (n : Nat),
      w.jm.sessions.lookup id = some s → s.Client = some c → s.Reconnecting = false →
      1 ≤ n → n ≤ maxRetries →
      (∀ m, 1 ≤ m → m < n → (obs m).failsToConnect = true) →
      (obs n).connectedBefore = false → (obs n).hasStoreID = false →
      isActive (reconnectSession obs w id) id = false ∧
      (reconnectSession obs w id).fs.present (getJadibotFolder id) = false ∧
      connectCalls (reconnectSession obs w id).log id = connectCalls w.log id + (n - 1) ∧
      retryWaits (reconnectSession obs w id).log = retryWaits w.log + n) := by
  constructor
  · intro hno
    unfold reconnectSession
    cases hs : w.jm.sessions.lookup id with
    | none => simp
    | some s =>
      by_cases hr : s.Reconnecting = true
      · simp [hr]
      · simp only [hr, Bool.false_eq_true, if_false]
        obtain ⟨a1, a2, a3⟩ := reconnectAttempt_noStoreID (obs 1) (markReconnecting w id) id 1
          (hno 1)
        rw [← reconnectProgress_one] at a1 a2 a3
        have hstop := reconnectProgress_stops obs w id 1 4 a1
        have h5 : maxRetries = 1 + 4 := rfl
        rw [h5, hstop]
        simp only [releaseReconnecting, updateSession_log, a2, a3, markReconnecting]
        exact ⟨trivial, Nat.le_refl _⟩
  · intro s c n hs hc hr hn1 hn5 hbefore hdisc hnoid
    obtain ⟨k, rfl⟩ : ∃ k, n = k + 1 := ⟨n - 1, by omega⟩
    obtain ⟨p1, ⟨sk, p2, _, p4, _⟩, p6, _, p8, p9⟩ := reconnectProgress_fails obs w id s c hs hc k
      (by omega) (fun m h1 h2 => hbefore m h1 (by omega))
    obtain ⟨r1, r2, r3, _, r5, r6⟩ := reconnectAttempt_noIdentity (obs (k + 1))
      (reconnectProgress obs w id k).1 id (k + 1) sk c p2 p4 hdisc hnoid
    rw [← reconnectProgress_succ obs w id k p1] at r1 r2 r3 r5 r6
    have hstop := reconnectProgress_stops obs w id (k + 1) (maxRetries - (k + 1))
      (by rw [r1]; simp)
    have hsum : k + 1 + (maxRetries - (k + 1)) = maxRetries := by omega
    rw [hsum] at hstop
    rw [reconnectSession_of_guard obs w id s hs hr, hstop,
      releaseReconnecting_of_removed _ id r2]
    refine ⟨by simp [isActive, r2], ?_, ?_, ?_⟩
    · rw [r3, p6]; exact present_removeAll_self _ _
    · rw [r5, p8]; rfl
    · rw [r6, p9]; ring

/-- C6, witness: the loaded session of `samplePhone`, whose store has lost its identity
when the first attempt looks. -/
theorem c6_witness :
    (connectCalls (reconnectSession noIdentityObs activeWorld samplePhone).log samplePhone
        = connectCalls activeWorld.log samplePhone ∧
      retryWaits (reconnectSession noIdentityObs activeWorld samplePhone).log
        ≤ retryWaits activeWorld.log + 1) ∧
    (isActive (reconnectSession noIdentityObs activeWorld samplePhone) samplePhone = false ∧
      (reconnectSession noIdentityObs activeWorld samplePhone).fs.present
        (getJadibotFolder samplePhone) = false ∧
      connectCalls (reconnectSession noIdentityObs activeWorld samplePhone).log samplePhone
        = connectCalls activeWorld.log samplePhone + (1 - 1) ∧
      retryWaits (reconnectSession noIdentityObs activeWorld samplePhone).log
        = retryWaits activeWorld.log + 1) :=
  ⟨(c6_no_identity_removed_without_connect noIdentityObs activeWorld samplePhone).1
      (fun _ => rfl),
   (c6_no_identity_removed_without_connect noIdentityObs activeWorld samplePhone).2
      loadedSession ⟨2⟩ 1 (by decide) rfl rfl (Nat.le_refl 1) (by decide)
      (fun m h1 h2 => absurd h1 (Nat.not_le_of_lt h2)) rfl rfl⟩

theorem setSession_lookup (w : World) (id j : String) (s : JadibotSession) :
    (w.setSession id s).jm.sessions.lookup j =
      if j = id then some s else w.jm.sessions.lookup j := by
  by_cases hj : j = id
  · subst hj; simp [World.setSession]
  · simp [hj, World.setSession, AList.lookup_insert_ne hj]

@[simp] theorem setSession_fs (w : World) (id : String) (s : JadibotSession) :
    (w.setSession id s).fs = w.fs := rfl

@[simp] theorem setSession_pending (w : World) (id : String) (s : JadibotSession) :
    (w.setSession id s).jm.pending = w.jm.pending := rfl

theorem resetStaleFailCount_frame (obs : SweepObs) (w : World) (snap : sessionSnapshot) :
    (resetStaleFailCount obs w snap).fs = w.fs ∧
    (resetStaleFailCount obs w snap).jm.pending = w.jm.pending := by
  unfold resetStaleFailCount
  split <;> simp

theorem countDisconnected_frame (obs : SweepObs) (w : World) (inv : List String)
    (snap : sessionSnapshot) :
    (countDisconnected obs w inv snap).w.fs = w.fs ∧
    (countDisconnected obs w inv snap).w.jm.pending = w.jm.pending := by
  unfold countDisconnected
  cases hl : w.jm.sessions.lookup snap.phoneNumber with
  | none => simp
  | some session =>
    by_cases hge : session.FailCount + 1 ≥ maxConsecutiveFails <;> simp [hge]

theorem countDisconnected_other (obs : SweepObs) (w : World) (inv : List String)
    (snap : sessionSnapshot) (id : String) (h : id ≠ snap.phoneNumber) :
    (countDisconnected obs w inv snap).w.jm.sessions.lookup id = w.jm.sessions.lookup id ∧
    (id ∈ (countDisconnected obs w inv snap).invalidSessions ↔ id ∈ inv) := by
  unfold countDisconnected
  cases hl : w.jm.sessions.lookup snap.phoneNumber with
  | none => simp
  | some session =>
    by_cases hge : session.FailCount + 1 ≥ maxConsecutiveFails <;>
      simp [hge, setSession_lookup, h]

theorem clearFailCount_other (w : World) (snap : sessionSnapshot) (id : String)
    (h : id ≠ snap.phoneNumber) :
    (clearFailCount w snap).jm.sessions.lookup id = w.jm.sessions.lookup id := by
  unfold clearFailCount
  cases hl : w.jm.sessions.lookup snap.phoneNumber with
  | none => simp
  | some s =>
    by_cases hpos : s.FailCount > 0 <;> simp [hpos, setSession_lookup, h]

theorem resetStaleFailCount_other (obs : SweepObs) (w : World) (snap : sessionSnapshot)
    (id : String) (h : id ≠ snap.phoneNumber) :
    (resetStaleFailCount obs w snap).jm.sessions.lookup id = w.jm.sessions.lookup id := by
  unfold resetStaleFailCount
  split
  · rw [updateSession_lookup, if_neg h]
  · rfl

theorem clearFailCount_frame (w : World) (snap : sessionSnapshot) :
    (clearFailCount w snap).fs = w.fs ∧
    (clearFailCount w snap).jm.pending = w.jm.pending := by
  unfold clearFailCount
  split
  · split <;> simp
  · simp

theorem processSnapshot_frame (obs : SweepObs) (st : SweepState) (snap : sessionSnapshot) :
    (processSnapshot obs st snap).w.fs = st.w.fs ∧
    (processSnapshot obs st snap).w.jm.pending = st.w.jm.pending := by
  unfold processSnapshot
  split
  · exact ⟨rfl, rfl⟩
  · split
    · exact ⟨rfl, rfl⟩
    · split
      · exact ⟨rfl, rfl⟩
      · split
        · obtain ⟨a, b⟩ := countDisconnected_frame obs (resetStaleFailCount obs st.w snap)
            st.invalidSessions snap
          obtain ⟨c, d⟩ := resetStaleFailCount_frame obs st.w snap
          exact ⟨a.trans c, b.trans d⟩
        · obtain ⟨a, b⟩ := clearFailCount_frame (resetStaleFailCount obs st.w snap) snap
          obtain ⟨c, d⟩ := resetStaleFailCount_frame obs st.w snap
          exact ⟨a.trans c, b.trans d⟩

theorem processSnapshot_other (obs : SweepObs) (st : SweepState) (snap : sessionSnapshot)
    (id : String) (h : id ≠ snap.phoneNumber) :
    (processSnapshot obs st snap).w.jm.sessions.lookup id = st.w.jm.sessions.lookup id ∧
    (id ∈ (processSnapshot obs st snap).invalidSessions ↔ id ∈ st.invalidSessions) := by
  have hreset := resetStaleFailCount_other obs st.w snap id h
  unfold processSnapshot
  split
  · simp [h]
  · split
    · simp [h]
    · split
      · simp
      · split
        · obtain ⟨a, b⟩ := countDisconnected_other obs (resetStaleFailCount obs st.w snap)
            st.invalidSessions snap id h
          exact ⟨a.trans hreset, b⟩
        · exact ⟨(clearFailCount_other _ snap id h).trans hreset, Iff.rfl⟩

theorem resetStaleFailCount_self (obs : SweepObs) (w : World) (snap : sessionSnapshot)
    (s : JadibotSession) (hs : w.jm.sessions.lookup snap.phoneNumber = some s) :
    (resetStaleFailCount obs w snap).jm.sessions.lookup snap.phoneNumber =
      some (if timeSince (obs.sinceNow snap.phoneNumber) snap.lastFailTime > failResetDuration
          ∧ snap.failCount > 0 then { s with FailCount := 0 } else s) := by
  unfold resetStaleFailCount
  split
  · simp [updateSession_lookup, hs]
  · exact hs

theorem countDisconnected_self (obs : SweepObs) (w : World) (inv : List String)
    (snap : sessionSnapshot) (s : JadibotSession)
    (hs : w.jm.sessions.lookup snap.phoneNumber = some s) :
    (countDisconnected obs w inv snap).w.jm.sessions.lookup snap.phoneNumber =
      some { s with FailCount := s.FailCount + 1, LastFailTime := obs.stampNow snap.phoneNumber } ∧
    (countDisconnected obs w inv snap).invalidSessions =
      inv ++ (if decide (s.FailCount + 1 ≥ maxConsecutiveFails) = true then [snap.phoneNumber]
        else []) := by
  unfold countDisconnected
  rw [hs]
  by_cases hge : s.FailCount + 1 ≥ maxConsecutiveFails <;> simp [hge, setSession_lookup]

theorem clearFailCount_self (w : World) (snap : sessionSnapshot) (s : JadibotSession)
    (hs : w.jm.sessions.lookup snap.phoneNumber = some s) :
    (clearFailCount w snap).jm.sessions.lookup snap.phoneNumber =
      some (if s.FailCount > 0 then { s with FailCount := 0 } else s) := by
  unfold clearFailCount
  rw [hs]
  by_cases hpos : s.FailCount > 0 <;> simp [hpos, setSession_lookup, hs]

theorem processSnapshot_at (obs : SweepObs) (st : SweepState) (snap : sessionSnapshot)
    (s : JadibotSession) (hs : st.w.jm.sessions.lookup snap.phoneNumber = some s) :
    (processSnapshot obs st snap).w.jm.sessions.lookup snap.phoneNumber
      = some (sweepSnapshot obs snap s).1 ∧
    (processSnapshot obs st snap).invalidSessions
      = st.invalidSessions ++ (if (sweepSnapshot obs snap s).2 = true then [snap.phoneNumber]
          else []) := by
  unfold processSnapshot sweepSnapshot
  by_cases h1 : (!snap.hasClient) = true
  · simp [h1, hs]
  · by_cases h2 : (!snap.hasDeviceID) = true
    · simp [h1, h2, hs]
    · by_cases h3 : snap.isReconnecting = true
      · simp [h1, h2, h3, hs]
      · have hl1 := resetStaleFailCount_self obs st.w snap s hs
        by_cases h4 : (!snap.isConnected) = true
        · simp only [h1, h2, h3, h4, if_false, if_true, Bool.false_eq_true]
          exact countDisconnected_self obs _ st.invalidSessions snap _ hl1
        · simp only [h1, h2, h3, h4, if_false, if_true, Bool.false_eq_true]
          exact ⟨clearFailCount_self _ snap _ hl1, by simp⟩

theorem processSnapshot_self (obs : SweepObs) (st : SweepState) (id : String)
    (s : JadibotSession) (hs : st.w.jm.sessions.lookup id = some s) :
    (processSnapshot obs st (takeSnapshot obs id s)).w.jm.sessions.lookup id
      = some (sweepSession obs id s).1 ∧
    (processSnapshot obs st (takeSnapshot obs id s)).invalidSessions
      = st.invalidSessions ++ (if (sweepSession obs id s).2 = true then [id] else []) :=
  processSnapshot_at obs st (takeSnapshot obs id s) s hs

/-- The snapshot loop of `validateAllSessions` over a list of map entries. -/
theorem snapshotLoop_other (obs : SweepObs) (id : String)
    (l : List (Sigma fun _ : String => JadibotSession)) (st : SweepState)
    (h : id ∉ l.keys) :
    ((l.map (fun e => takeSnapshot obs e.1 e.2)).foldl (processSnapshot obs) st).w.jm.sessions.lookup id
      = st.w.jm.sessions.lookup id ∧
    (id ∈ ((l.map (fun e => takeSnapshot obs e.1 e.2)).foldl (processSnapshot obs) st).invalidSessions
      ↔ id ∈ st.invalidSessions) := by
  induction l generalizing st with
  | nil => exact ⟨rfl, Iff.rfl⟩
  | cons e t ih =>
    simp only [List.keys_cons, List.mem_cons, not_or] at h
    obtain ⟨a, b⟩ := processSnapshot_other obs st (takeSnapshot obs e.1 e.2) id h.1
    obtain ⟨c, d⟩ := ih (processSnapshot obs st (takeSnapshot obs e.1 e.2)) h.2
    simp only [List.map_cons, List.foldl_cons]
    exact ⟨c.trans a, d.trans b⟩

theorem snapshotLoop_self (obs : SweepObs) (id : String) (s : JadibotSession)
    (l : List (Sigma fun _ : String => JadibotSession)) (st : SweepState)
    (hnd : l.NodupKeys) (hmem : (⟨id, s⟩ : Sigma fun _ : String => JadibotSession) ∈ l)
    (hs : st.w.jm.sessions.lookup id = some s) :
    ((l.map (fun e => takeSnapshot obs e.1 e.2)).foldl (processSnapshot obs) st).w.jm.sessions.lookup id
      = some (sweepSession obs id s).1 ∧
    (id ∈ ((l.map (fun e => takeSnapshot obs e.1 e.2)).foldl (processSnapshot obs) st).invalidSessions
      ↔ id ∈ st.invalidSessions ∨ (sweepSession obs id s).2 = true) := by
  induction l generalizing st with
  | nil => simp at hmem
  | cons e t ih =>
    rw [List.nodupKeys_cons] at hnd
    simp only [List.map_cons, List.foldl_cons]
    rcases List.mem_cons.1 hmem with heq | hin
    · subst heq
      obtain ⟨a, b⟩ := processSnapshot_self obs st id s hs
      obtain ⟨c, d⟩ := snapshotLoop_other obs id t
        (processSnapshot obs st (takeSnapshot obs id s)) hnd.1
      refine ⟨c.trans a, d.trans ?_⟩
      rw [b]
      by_cases hv : (sweepSession obs id s).2 = true <;> simp [hv]
    · have hne : id ≠ e.1 := by
        intro h
        apply hnd.1
        rw [← h]
        exact List.mem_keys_of_mem hin
      obtain ⟨a, b⟩ := processSnapshot_other obs st (takeSnapshot obs e.1 e.2) id hne
      obtain ⟨c, d⟩ := ih (processSnapshot obs st (takeSnapshot obs e.1 e.2)) hnd.2 hin
        (a.trans hs)
      exact ⟨c, d.trans (by rw [b])⟩

theorem snapshotLoop_frame (obs : SweepObs) (l : List sessionSnapshot) (st : SweepState) :
    (l.foldl (processSnapshot obs) st).w.fs = st.w.fs ∧
    (l.foldl (processSnapshot obs) st).w.jm.pending = st.w.jm.pending := by
  induction l generalizing st with
  | nil => exact ⟨rfl, rfl⟩
  | cons e t ih =>
    obtain ⟨a, b⟩ := processSnapshot_frame obs st e
    obtain ⟨c, d⟩ := ih (processSnapshot obs st e)
    exact ⟨c.trans a, d.trans b⟩

theorem RemoveSession_lookup_sessions (w : World) (id j : String) :
    (RemoveSession w id).2.jm.sessions.lookup j =
      if j = id then none else w.jm.sessions.lookup j := by
  cases hs : w.jm.sessions.lookup id with
  | some s =>
    obtain ⟨_, h2, _⟩ := RemoveSession_of_active w id s hs
    rw [h2]
    by_cases hj : j = id
    · subst hj; simp
    · simp [hj, AList.lookup_erase_ne hj]
  | none =>
    cases hp : w.jm.pending.lookup id with
    | some s =>
      obtain ⟨_, h2, _⟩ := RemoveSession_of_pending w id s hs hp
      rw [h2]
      by_cases hj : j = id
      · subst hj; simp [hs]
      · simp [hj]
    | none =>
      rw [RemoveSession_of_absent w id hs hp]
      by_cases hj : j = id
      · subst hj; simp [hs]
      · simp [hj]

theorem RemoveSession_absent_stays (w : World) (id : String) (q : Path)
    (h : w.fs.present q = false) : (RemoveSession w id).2.fs.present q = false := by
  cases hs : w.jm.sessions.lookup id with
  | some s =>
    obtain ⟨_, _, _, _, h5⟩ := RemoveSession_of_active w id s hs
    rw [h5]; exact present_removeAll_of_absent _ _ _ h
  | none =>
    cases hp : w.jm.pending.lookup id with
    | some s =>
      obtain ⟨_, _, _, _, h5⟩ := RemoveSession_of_pending w id s hs hp
      rw [h5]; exact present_removeAll_of_absent _ _ _ h
    | none =>
      rw [RemoveSession_of_absent w id hs hp]; exact h

theorem removeInvalid_absent_stays (l : List String) (w : World) (q : Path)
    (h : w.fs.present q = false) : (removeInvalid w l).fs.present q = false := by
  induction l generalizing w with
  | nil => exact h
  | cons j t ih =>
    simp only [removeInvalid, List.foldl_cons]
    exact ih _ (RemoveSession_absent_stays w j q h)

theorem removeInvalid_lookup (l : List String) (w : World) (id : String) :
    (removeInvalid w l).jm.sessions.lookup id =
      if id ∈ l then none else w.jm.sessions.lookup id := by
  induction l generalizing w with
  | nil => simp [removeInvalid]
  | cons j t ih =>
    simp only [removeInvalid, List.foldl_cons] at ih ⊢
    rw [ih, RemoveSession_lookup_sessions]
    by_cases hj : id = j
    · subst hj; simp
    · by_cases ht : id ∈ t <;> simp [hj, ht]

theorem removeInvalid_folder_gone (l : List String) (w : World) (id : String)
    (hin : id ∈ l) (hact : (w.jm.sessions.lookup id).isSome = true) :
    (removeInvalid w l).fs.present (getJadibotFolder id) = false := by
  induction l generalizing w with
  | nil => simp at hin
  | cons j t ih =>
    simp only [removeInvalid, List.foldl_cons]
    by_cases hj : id = j
    · subst hj
      obtain ⟨s, hs⟩ := Option.isSome_iff_exists.1 hact
      obtain ⟨_, _, _, _, h5⟩ := RemoveSession_of_active w id s hs
      exact removeInvalid_absent_stays t _ _ (by rw [h5]; exact present_removeAll_self _ _)
    · have hin2 : id ∈ t := by
        rcases List.mem_cons.1 hin with h | h
        · exact absurd h hj
        · exact h
      apply ih _ hin2
      rw [RemoveSession_lookup_sessions, if_neg hj]
      exact hact

theorem cleanupOrphanEntry_jm (obs : SweepObs) (tracked : List String) (w : World)
    (file : DirEntry) : (cleanupOrphanEntry obs tracked w file).jm = w.jm := by
  unfold cleanupOrphanEntry
  split
  · rfl
  · split
    · rfl
    · dsimp only
      split
      · split <;> rfl
      · rfl

theorem cleanupOrphanEntry_absent_stays (obs : SweepObs) (tracked : List String) (w : World)
    (file : DirEntry) (q : Path) (h : w.fs.present q = false) :
    (cleanupOrphanEntry obs tracked w file).fs.present q = false := by
  unfold cleanupOrphanEntry
  split
  · exact h
  · split
    · exact h
    · dsimp only
      split
      · split
        · exact present_removeAll_of_absent _ _ _ h
        · exact present_removeAll_of_absent _ _ _ h
        · exact present_removeAll_of_absent _ _ _ h
        · exact h
      · exact h

theorem cleanupOrphanedFiles_jm (obs : SweepObs) (w : World) :
    (cleanupOrphanedFiles obs w).jm = w.jm := by
  unfold cleanupOrphanedFiles
  cases w.fs.readDir JadibotFolder with
  | none => rfl
  | some files =>
    simp only
    generalize w.jm.sessions.keys ++ w.jm.pending.keys = tracked
    have : ∀ (l : List DirEntry) (w1 : World),
        (l.foldl (cleanupOrphanEntry obs tracked) w1).jm = w1.jm := by
      intro l
      induction l with
      | nil => intro w1; rfl
      | cons f t ih =>
        intro w1
        simp only [List.foldl_cons]
        rw [ih, cleanupOrphanEntry_jm]
    exact this files w

theorem cleanupOrphanedFiles_absent_stays (obs : SweepObs) (w : World) (q : Path)
    (h : w.fs.present q = false) : (cleanupOrphanedFiles obs w).fs.present q = false := by
  unfold cleanupOrphanedFiles
  cases w.fs.readDir JadibotFolder with
  | none => exact h
  | some files =>
    simp only
    generalize w.jm.sessions.keys ++ w.jm.pending.keys = tracked
    have : ∀ (l : List DirEntry) (w1 : World), w1.fs.present q = false →
        (l.foldl (cleanupOrphanEntry obs tracked) w1).fs.present q = false := by
      intro l
      induction l with
      | nil => intro w1 h1; exact h1
      | cons f t ih =>
        intro w1 h1
        simp only [List.foldl_cons]
        exact ih _ (cleanupOrphanEntry_absent_stays obs tracked w1 f q h1)
    exact this files w h

/-- The effect of one health sweep on a registered session: it is removed, with its
folder, when the snapshot loop marks it invalid, and otherwise left in the map as the
snapshot loop leaves it. -/
theorem validateAllSessions_session (obs : SweepObs) (w : World) (id : String)
    (s : JadibotSession) (hs : w.jm.sessions.lookup id = some s) :
    (validateAllSessions obs w).jm.sessions.lookup id =
      (if (sweepSession obs id s).2 = true then none else some (sweepSession obs id s).1) ∧
    ((sweepSession obs id s).2 = true →
      (validateAllSessions obs w).fs.present (getJadibotFolder id) = false) := by
  have hmem : (⟨id, s⟩ : Sigma fun _ : String => JadibotSession) ∈ w.jm.sessions.entries :=
    AList.mem_lookup_iff.1 (by rw [hs]; rfl)
  obtain ⟨a, b⟩ := snapshotLoop_self obs id s w.jm.sessions.entries
    { w := w, invalidSessions := [] } w.jm.sessions.nodupKeys hmem hs
  simp only [List.not_mem_nil, false_or] at b
  unfold validateAllSessions
  simp only
  constructor
  · rw [cleanupOrphanedFiles_jm, removeInvalid_lookup, a]
    by_cases hv : (sweepSession obs id s).2 = true
    · simp [hv, b.2 hv]
    · have : ¬ id ∈ ((w.jm.sessions.entries.map (fun e => takeSnapshot obs e.1 e.2)).foldl
          (processSnapshot obs) { w := w, invalidSessions := [] }).invalidSessions :=
        fun h => hv (b.1 h)
      simp [hv, this]
  · intro hv
    apply cleanupOrphanedFiles_absent_stays
    apply removeInvalid_folder_gone _ _ _ (b.2 hv)
    rw [a]; rfl

theorem sweepSession_disconnected (obs : SweepObs) (id : String) (s : JadibotSession)
    (c : Client) (hc : s.Client = some c) (hr : s.Reconnecting = false)
    (h1 : (obs.client id).hasStore = true) (h2 : (obs.client id).hasStoreID = true)
    (h3 : (obs.client id).isConnected = false)
    (hfresh : ¬ (timeSince (obs.sinceNow id) s.LastFailTime > failResetDuration
      ∧ s.FailCount > 0)) :
    sweepSession obs id s =
      ({ s with FailCount := s.FailCount + 1, LastFailTime := obs.stampNow id },
        decide (s.FailCount + 1 ≥ maxConsecutiveFails)) := by
  unfold sweepSession sweepSnapshot takeSnapshot
  simp only [hc, hr, h1, h2, h3, Option.isSome_some, Bool.not_true, Bool.false_eq_true,
    if_false, Bool.and_self, Bool.and_false, Bool.not_false, if_true, hfresh]

theorem sweepSession_stale (obs : SweepObs) (id : String) (s : JadibotSession)
    (c : Client) (hc : s.Client = some c) (hr : s.Reconnecting = false)
    (h1 : (obs.client id).hasStore = true) (h2 : (obs.client id).hasStoreID = true)
    (hpos : s.FailCount > 0)
    (hstale : timeSince (obs.sinceNow id) s.LastFailTime > failResetDuration) :
    sweepSession obs id s =
      (if (obs.client id).isConnected = true then { s with FailCount := 0 }
        else { s with FailCount := 1, LastFailTime := obs.stampNow id }, false) := by
  have hst : timeSince (obs.sinceNow id) s.LastFailTime > failResetDuration
      ∧ s.FailCount > 0 := ⟨hstale, hpos⟩
  unfold sweepSession sweepSnapshot takeSnapshot
  by_cases h3 : (obs.client id).isConnected = true
  · simp [hc, hr, h1, h2, h3, hst]
  · simp [hc, hr, h1, h2, h3, hst, maxConsecutiveFails]

theorem sweepSession_connected (obs : SweepObs) (id : String) (s : JadibotSession)
    (c : Client) (hc : s.Client = some c) (hr : s.Reconnecting = false)
    (h1 : (obs.client id).hasStore = true) (h2 : (obs.client id).hasStoreID = true)
    (h3 : (obs.client id).isConnected = true) :
    (sweepSession obs id s).2 = false ∧ (sweepSession obs id s).1.FailCount = 0 ∧
    (sweepSession obs id s).1 = { s with FailCount := 0 } := by
  unfold sweepSession sweepSnapshot takeSnapshot
  by_cases hpos : s.FailCount > 0
  · by_cases hA : timeSince (obs.sinceNow id) s.LastFailTime > failResetDuration
    · simp [hc, hr, h1, h2, h3, hA, hpos]
    · simp [hc, hr, h1, h2, h3, hA, hpos]
  · have h0 : s.FailCount = 0 := Nat.eq_zero_of_not_pos hpos
    simp [hc, hr, h1, h2, h3, h0]
    cases s
    simp_all

theorem sweepSession_noIdentity (obs : SweepObs) (id : String) (s : JadibotSession)
    (h : ((obs.client id).hasStore && (obs.client id).hasStoreID) = false) :
    (sweepSession obs id s).2 = true := by
  unfold sweepSession sweepSnapshot takeSnapshot
  cases hc : s.Client with
  | none => simp
  | some c => simp [h]

/-- C7 (amended): for every active session that is not mid-reconnection
(`Reconnecting` false at the snapshot) and that a health sweep finds connected,
whatever its `FailCount` before the sweep: if the session is still registered after
the sweep its `FailCount` is zero, and it is still registered when its client has a
stored identity. -/
theorem c7_connected_sweep_resets_failCount (obs : SweepObs) (w : World) (id : String)
    (s : JadibotSession) (c : Client)
    (hs : w.jm.sessions.lookup id = some s) (hc : s.Client = some c)
    (hr : s.Reconnecting = false) (hcon : (obs.client id).isConnected = true) :
    (∀ s1, (validateAllSessions obs w).jm.sessions.lookup id = some s1 → s1.FailCount = 0) ∧
    ((obs.client id).hasStore = true → (obs.client id).hasStoreID = true →
      ∃ s1, (validateAllSessions obs w).jm.sessions.lookup id = some s1 ∧ s1.FailCount = 0) := by
  obtain ⟨hl, _⟩ := validateAllSessions_session obs w id s hs
  by_cases hid : ((obs.client id).hasStore && (obs.client id).hasStoreID) = true
  · simp only [Bool.and_eq_true] at hid
    obtain ⟨a, b, _⟩ := sweepSession_connected obs id s c hc hr hid.1 hid.2 hcon
    rw [a] at hl
    simp only [Bool.false_eq_true, if_false] at hl
    refine ⟨?_, fun _ _ => ⟨_, hl, b⟩⟩
    intro s1 h1
    rw [hl] at h1
    rw [← Option.some.inj h1]
    exact b
  · have hv := sweepSession_noIdentity obs id s (by simpa using hid)
    rw [hv] at hl
    simp only [if_true] at hl
    refine ⟨?_, ?_⟩
    · intro s1 h1
      rw [hl] at h1
      exact absurd h1 (by simp)
    · intro h1 h2
      exact absurd (by simp [h1, h2]) hid

/-- C7, witness: the loaded session of `samplePhone`, after three failed sweeps, found
connected. -/
theorem c7_witness :
    ((sweeps (fun _ => disconnectedSweep) 3 activeWorld).jm.sessions.lookup samplePhone
        = some { loadedSession with FailCount := 3, LastFailTime := 1000 } ∧
      (connectedSweep.client samplePhone).isConnected = true) ∧
    ((∀ s1, (validateAllSessions connectedSweep
          (sweeps (fun _ => disconnectedSweep) 3 activeWorld)).jm.sessions.lookup samplePhone
          = some s1 → s1.FailCount = 0) ∧
      ((connectedSweep.client samplePhone).hasStore = true →
        (connectedSweep.client samplePhone).hasStoreID = true →
        ∃ s1, (validateAllSessions connectedSweep
          (sweeps (fun _ => disconnectedSweep) 3 activeWorld)).jm.sessions.lookup samplePhone
          = some s1 ∧ s1.FailCount = 0)) :=
  ⟨⟨by decide, rfl⟩,
    c7_connected_sweep_resets_failCount connectedSweep
      (sweeps (fun _ => disconnectedSweep) 3 activeWorld) samplePhone
      { loadedSession with FailCount := 3, LastFailTime := 1000 } ⟨2⟩ (by decide) rfl rfl rfl⟩

/-- C7, counterexample: a session that is mid-reconnection (three sweeps found it
disconnected, the reconnection they started is waiting for its first attempt) and
whose client has come back is found connected by the next sweep, which skips it and
leaves its `FailCount` at 3. -/
theorem c7_counterexample :
    isActive midReconnectWorld samplePhone = true ∧
    (connectedSweep.client samplePhone).isConnected = true ∧
    ((validateAllSessions connectedSweep midReconnectWorld).jm.sessions.lookup samplePhone).map
      (fun s => s.FailCount) = some 3 := by
  decide

theorem sweeps_disconnected_invariant (obs : Nat → SweepObs) (w : World) (id : String)
    (s : JadibotSession) (c : Client)
    (hs : w.jm.sessions.lookup id = some s) (hc : s.Client = some c)
    (hr : s.Reconnecting = false) (hf : s.FailCount = 0)
    (hdisc : ∀ k, 1 ≤ k → k ≤ 10 → ((obs k).client id).hasStore = true ∧
      ((obs k).client id).hasStoreID = true ∧ ((obs k).client id).isConnected = false)
    (hclose : ∀ k, 1 ≤ k → k < 10 →
      timeSince ((obs (k + 1)).sinceNow id) ((obs k).stampNow id) ≤ failResetDuration)
    (k : Nat) (hk : k < 10) :
    ∃ sk, (sweeps obs k w).jm.sessions.lookup id = some sk ∧ sk.FailCount = k ∧
      sk.Client = some c ∧ sk.Reconnecting = false ∧
      (1 ≤ k → sk.LastFailTime = (obs k).stampNow id) := by
  induction k with
  | zero => exact ⟨s, hs, hf, hc, hr, fun h => absurd h (by decide)⟩
  | succ k ih =>
    obtain ⟨sk, i1, i2, i3, i4, i5⟩ := ih (Nat.lt_of_succ_lt hk)
    obtain ⟨d1, d2, d3⟩ := hdisc (k + 1) (Nat.succ_le_succ (Nat.zero_le k)) (Nat.le_of_lt hk)
    have hfresh : ¬ (timeSince ((obs (k + 1)).sinceNow id) sk.LastFailTime > failResetDuration
        ∧ sk.FailCount > 0) := by
      rintro ⟨ha, hb⟩
      have hk1 : 1 ≤ k := by omega
      rw [i5 hk1] at ha
      exact absurd (hclose k hk1 (Nat.lt_of_succ_lt hk)) (not_le.2 ha)
    have hsw := sweepSession_disconnected (obs (k + 1)) id sk c i3 i4 d1 d2 d3 hfresh
    obtain ⟨hl, _⟩ := validateAllSessions_session (obs (k + 1)) (sweeps obs k w) id sk i1
    rw [hsw] at hl
    have hlt : ¬ (sk.FailCount + 1 ≥ maxConsecutiveFails) := by
      unfold maxConsecutiveFails; omega
    simp only [hlt, decide_False, Bool.false_eq_true, if_false] at hl
    exact ⟨_, hl, by simp [i2], i3, i4, fun _ => rfl⟩

/-- C8: for an active session with a client handle and a stored identity, not
reconnecting and with `FailCount` 0, that ten consecutive health sweeps each find
disconnected, each sweep starting at most 5 minutes after the failure stamp of the
one before: after sweep `k`, for `k < 10`, the session is still active with
`FailCount = k`, and the 10th sweep removes it from the active map and deletes its
folder. -/
theorem c8_ten_disconnected_sweeps_remove (obs : Nat → SweepObs) (w : World) (id : String)
    (s : JadibotSession) (c : Client)
    (hs : w.jm.sessions.lookup id = some s) (hc : s.Client = some c)
    (hr : s.Reconnecting = false) (hf : s.FailCount = 0)
    (hdisc : ∀ k, 1 ≤ k → k ≤ 10 → ((obs k).client id).hasStore = true ∧
      ((obs k).client id).hasStoreID = true ∧ ((obs k).client id).isConnected = false)
    (hclose : ∀ k, 1 ≤ k → k < 10 →
      timeSince ((obs (k + 1)).sinceNow id) ((obs k).stampNow id) ≤ failResetDuration) :
    (∀ k, k < 10 →
      ∃ sk, (sweeps obs k w).jm.sessions.lookup id = some sk ∧ sk.FailCount = k) ∧
    isActive (sweeps obs 10 w) id = false ∧
    (sweeps obs 10 w).fs.present (getJadibotFolder id) = false := by
  constructor
  · intro k hk
    obtain ⟨sk, i1, i2, _⟩ := sweeps_disconnected_invariant obs w id s c hs hc hr hf hdisc
      hclose k hk
    exact ⟨sk, i1, i2⟩
  · obtain ⟨sk, i1, i2, i3, i4, i5⟩ := sweeps_disconnected_invariant obs w id s c hs hc hr hf
      hdisc hclose 9 (by decide)
    obtain ⟨d1, d2, d3⟩ := hdisc 10 (by decide) (Nat.le_refl _)
    have hfresh : ¬ (timeSince ((obs 10).sinceNow id) sk.LastFailTime > failResetDuration
        ∧ sk.FailCount > 0) := by
      rintro ⟨ha, _⟩
      rw [i5 (by decide)] at ha
      exact absurd (hclose 9 (by decide) (by decide)) (not_le.2 ha)
    have hsw := sweepSession_disconnected (obs 10) id sk c i3 i4 d1 d2 d3 hfresh
    obtain ⟨hl, hfs⟩ := validateAllSessions_session (obs 10) (sweeps obs 9 w) id sk i1
    have hge : sk.FailCount + 1 ≥ maxConsecutiveFails := by
      unfold maxConsecutiveFails; omega
    have h2 : (sweepSession (obs 10) id sk).2 = true := by rw [hsw]; simp [hge]
    rw [h2] at hl
    simp only [if_true] at hl
    have hstep : sweeps obs 10 w = validateAllSessions (obs 10) (sweeps obs 9 w) := rfl
    rw [hstep]
    exact ⟨by simp [isActive, hl], hfs h2⟩

/-- C8, witness: ten sweeps in a row find the loaded session of `samplePhone`
disconnected. -/
theorem c8_witness :
    (activeWorld.jm.sessions.lookup samplePhone = some loadedSession ∧
      loadedSession.Reconnecting = false ∧ loadedSession.FailCount = 0) ∧
    ((∀ k, k < 10 →
      ∃ sk, (sweeps (fun _ => disconnectedSweep) k activeWorld).jm.sessions.lookup samplePhone
        = some sk ∧ sk.FailCount = k) ∧
    isActive (sweeps (fun _ => disconnectedSweep) 10 activeWorld) samplePhone = false ∧
    (sweeps (fun _ => disconnectedSweep) 10 activeWorld).fs.present
      (getJadibotFolder samplePhone) = false) :=
  ⟨⟨by decide, rfl, rfl⟩,
    c8_ten_disconnected_sweeps_remove (fun _ => disconnectedSweep) activeWorld samplePhone
      loadedSession ⟨2⟩ (by decide) rfl rfl rfl (fun _ _ _ => ⟨rfl, rfl, rfl⟩)
      (fun _ _ _ => (by decide : timeSince (disconnectedSweep.sinceNow samplePhone)
        (disconnectedSweep.stampNow samplePhone) ≤ failResetDuration))⟩

/-- C9: for an active session with a client handle and a stored identity, not
reconnecting, with `FailCount > 0` and a `LastFailTime` more than 5 minutes before the
sweep: after the sweep the session is still active, whatever its earlier count, with
`FailCount` 1 if it was found disconnected and 0 if it was found connected. -/
theorem c9_stale_failures_reset_first (obs : SweepObs) (w : World) (id : String)
    (s : JadibotSession) (c : Client)
    (hs : w.jm.sessions.lookup id = some s) (hc : s.Client = some c)
    (hr : s.Reconnecting = false)
    (h1 : (obs.client id).hasStore = true) (h2 : (obs.client id).hasStoreID = true)
    (hpos : s.FailCount > 0)
    (hstale : timeSince (obs.sinceNow id) s.LastFailTime > failResetDuration) :
    ∃ s1, (validateAllSessions obs w).jm.sessions.lookup id = some s1 ∧
      s1.FailCount = (if (obs.client id).isConnected = true then 0 else 1) := by
  obtain ⟨hl, _⟩ := validateAllSessions_session obs w id s hs
  rw [sweepSession_stale obs id s c hc hr h1 h2 hpos hstale] at hl
  simp only [Bool.false_eq_true, if_false] at hl
  refine ⟨_, hl, ?_⟩
  by_cases h3 : (obs.client id).isConnected = true <;> simp [h3]

/-- C9, witness: a session with nine failures, the last one ten minutes old, is found
disconnected once more and is kept with a count of 1. -/
theorem c9_witness :
    (staleWorld.jm.sessions.lookup samplePhone = some staleSession ∧
      staleSession.FailCount > 0 ∧
      timeSince (lateSweep.sinceNow samplePhone) staleSession.LastFailTime > failResetDuration) ∧
    (∃ s1, (validateAllSessions lateSweep staleWorld).jm.sessions.lookup samplePhone = some s1 ∧
      s1.FailCount = (if (lateSweep.client samplePhone).isConnected = true then 0 else 1)) :=
  ⟨⟨by decide, by decide, by decide⟩,
    c9_stale_failures_reset_first lateSweep staleWorld samplePhone staleSession ⟨2⟩
      (by decide) rfl rfl rfl rfl (by decide) (by decide)⟩

theorem cleanupOrphanEntry_of_dir (obs : SweepObs) (tracked : List String) (w : World)
    (file : DirEntry) (h : file.isDir = true) : cleanupOrphanEntry obs tracked w file = w := by
  unfold cleanupOrphanEntry
  simp [h]

/-- C10 (what the code does instead): `cleanupOrphanedFiles` skips every directory entry
of `Wilykun/jadibot`.  When that folder holds only sub-folders, as in the persisted
layout `Wilykun/jadibot/{id}/{id}.db`, the orphan sweep opens no store and changes
nothing, whatever the stores hold: the artifacts of an untracked identifier without
stored identity are not deleted. -/
theorem c10_orphan_sweep_skips_session_folders (obs : SweepObs) (w : World)
    (hlayout : ∀ files, w.fs.readDir JadibotFolder = some files → ∀ f ∈ files, f.isDir = true) :
    cleanupOrphanedFiles obs w = w := by
  unfold cleanupOrphanedFiles
  cases hrd : w.fs.readDir JadibotFolder with
  | none => rfl
  | some files =>
    have hall := hlayout files hrd
    simp only
    generalize w.jm.sessions.keys ++ w.jm.pending.keys = tracked
    clear hrd hlayout
    induction files with
    | nil => rfl
    | cons f t ih =>
      simp only [List.foldl_cons]
      rw [cleanupOrphanEntry_of_dir obs tracked w f (hall f (List.mem_cons_self _ _))]
      exact ih (fun g hg => hall g (List.mem_cons_of_mem _ hg))

/-- C10, failing input: after a restart the disk holds `Wilykun/jadibot/{id}/{id}.db`
for `samplePhone`, which is in neither map, and its store has no identity; the orphan
sweep leaves the world as it is, the database file included. -/
theorem c10_witness :
    (∀ files, restartWorld.fs.readDir JadibotFolder = some files →
      ∀ f ∈ files, f.isDir = true) ∧
    (isActive restartWorld samplePhone = false ∧ isPending restartWorld samplePhone = false ∧
      restartWorld.fs.isFile (getJadibotDBPath samplePhone) = true ∧
      orphanSweep.store samplePhone = .noIdentity) ∧
    cleanupOrphanedFiles orphanSweep restartWorld = restartWorld ∧
    (cleanupOrphanedFiles orphanSweep restartWorld).fs.isFile (getJadibotDBPath samplePhone)
      = true :=
  ⟨by decide, ⟨by decide, by decide, by decide, rfl⟩,
    c10_orphan_sweep_skips_session_folders orphanSweep restartWorld (by decide), by decide⟩

theorem isSome_eq_false_iff_none {α : Type} (o : Option α) : o.isSome = false ↔ o = none := by
  cases o <;> simp

/-- C12: `RemoveSession(id)` returns the not-found error if and only if `id` is in
neither map, and then the world (both maps, the file system) is unchanged; when `id` is
active it returns nil and deletes `id` from the active map, when `id` is pending and
not active it returns nil and deletes `id` from the pending map; in both cases every
other entry of either map is unchanged. -/
theorem c12_removeSession_result (w : World) (id : String) :
    ((RemoveSession w id).1 = some .notFound ↔
      (isActive w id = false ∧ isPending w id = false)) ∧
    ((RemoveSession w id).1 = some .notFound → (RemoveSession w id).2 = w) ∧
    (isActive w id = true →
      (RemoveSession w id).1 = none ∧
      isActive (RemoveSession w id).2 id = false ∧
      (∀ j, j ≠ id →
        (RemoveSession w id).2.jm.sessions.lookup j = w.jm.sessions.lookup j) ∧
      (RemoveSession w id).2.jm.pending = w.jm.pending) ∧
    (isActive w id = false → isPending w id = true →
      (RemoveSession w id).1 = none ∧
      isPending (RemoveSession w id).2 id = false ∧
      (∀ j, j ≠ id →
        (RemoveSession w id).2.jm.pending.lookup j = w.jm.pending.lookup j) ∧
      (RemoveSession w id).2.jm.sessions = w.jm.sessions) := by
  cases hs : w.jm.sessions.lookup id with
  | some s =>
    obtain ⟨h1, h2, h3, _, _⟩ := RemoveSession_of_active w id s hs
    refine ⟨?_, ?_, ?_, ?_⟩
    · simp [h1, isActive, hs]
    · intro h; rw [h1] at h; exact absurd h (by simp)
    · intro _
      refine ⟨h1, by simp [isActive, h2], ?_, h3⟩
      intro j hj
      rw [h2, AList.lookup_erase_ne hj]
    · intro h; simp [isActive, hs] at h
  | none =>
    cases hp : w.jm.pending.lookup id with
    | some s =>
      obtain ⟨h1, h2, h3, _, _⟩ := RemoveSession_of_pending w id s hs hp
      refine ⟨?_, ?_, ?_, ?_⟩
      · simp [h1, isPending, hp]
      · intro h; rw [h1] at h; exact absurd h (by simp)
      · intro h; simp [isActive, hs] at h
      · intro _ _
        refine ⟨h1, by simp [isPending, h3], ?_, h2⟩
        intro j hj
        rw [h3, AList.lookup_erase_ne hj]
    | none =>
      have h := RemoveSession_of_absent w id hs hp
      refine ⟨?_, ?_, ?_, ?_⟩
      · simp [h, isActive, isPending, hs, hp]
      · intro _; rw [h]
      · intro h; simp [isActive, hs] at h
      · intro _ h; simp [isPending, hp] at h

/-- C12, witness: an identifier in neither map, then the pending `samplePhone`. -/
theorem c12_witness :
    ((RemoveSession restartWorld samplePhone).1 = some .notFound ∧
      (RemoveSession restartWorld samplePhone).2 = restartWorld) ∧
    ((RemoveSession pairingStartedWorld samplePhone).1 = none ∧
      isPending (RemoveSession pairingStartedWorld samplePhone).2 samplePhone = false ∧
      (∀ j, j ≠ samplePhone →
        (RemoveSession pairingStartedWorld samplePhone).2.jm.pending.lookup j
          = pairingStartedWorld.jm.pending.lookup j) ∧
      (RemoveSession pairingStartedWorld samplePhone).2.jm.sessions
        = pairingStartedWorld.jm.sessions) :=
  ⟨⟨(c12_removeSession_result restartWorld samplePhone).1.2 ⟨by decide, by decide⟩,
      (c12_removeSession_result restartWorld samplePhone).2.1
        ((c12_removeSession_result restartWorld samplePhone).1.2 ⟨by decide, by decide⟩)⟩,
    (c12_removeSession_result pairingStartedWorld samplePhone).2.2.2 (by decide) (by decide)⟩

theorem reconnectEnter_spec (obs : Nat → AttemptObs) (w : World) (id : String) :
    reconnectSession obs w id =
      if (reconnectEnter w id).1 = true then
        releaseReconnecting
          (reconnectLoop obs id (attemptsUpTo maxRetries) (reconnectEnter w id).2).1 id
      else w := by
  unfold reconnectSession reconnectEnter reconnectProgress
  cases hs : w.jm.sessions.lookup id with
  | none => simp
  | some s =>
    by_cases hr : s.Reconnecting = true <;> simp [hr]

/-- C13: if `id` has no active session, or its session's `Reconnecting` flag is already
true, `reconnectSession(id)` returns at the entry guard: the world is exactly as
before, so no wait, no `Connect` call, no change of a session field or of either
map. -/
theorem c13_entry_guard_returns (obs : Nat → AttemptObs) (w : World) (id : String)
    (h : w.jm.sessions.lookup id = none ∨
      ∃ s, w.jm.sessions.lookup id = some s ∧ s.Reconnecting = true) :
    reconnectSession obs w id = w ∧ reconnectEnter w id = (false, w) := by
  unfold reconnectSession reconnectEnter
  rcases h with h | ⟨s, hs, hr⟩
  · simp [h]
  · simp [hs, hr]

/-- C13, witness: no session at all, and a session that is already reconnecting. -/
theorem c13_witness :
    (restartWorld.jm.sessions.lookup samplePhone = none ∧
      reconnectSession alwaysFailing restartWorld samplePhone = restartWorld ∧
      reconnectEnter restartWorld samplePhone = (false, restartWorld)) ∧
    ((∃ s, midReconnectWorld.jm.sessions.lookup samplePhone = some s ∧ s.Reconnecting = true) ∧
      reconnectSession alwaysFailing midReconnectWorld samplePhone = midReconnectWorld ∧
      reconnectEnter midReconnectWorld samplePhone = (false, midReconnectWorld)) :=
  ⟨⟨by decide, c13_entry_guard_returns alwaysFailing restartWorld samplePhone
      (Or.inl (by decide))⟩,
   ⟨⟨{ loadedSession with FailCount := 3, LastFailTime := 1000, Reconnecting := true },
      by decide, rfl⟩,
    c13_entry_guard_returns alwaysFailing midReconnectWorld samplePhone
      (Or.inr ⟨{ loadedSession with FailCount := 3, LastFailTime := 1000, Reconnecting := true },
        by decide, rfl⟩)⟩⟩

theorem releaseReconnecting_clears (w : World) (id : String) (s1 : JadibotSession)
    (h : (releaseReconnecting w id).jm.sessions.lookup id = some s1) :
    s1.Reconnecting = false := by
  unfold releaseReconnecting at h
  rw [updateSession_lookup, if_pos rfl] at h
  cases hl : w.jm.sessions.lookup id with
  | none => rw [hl] at h; simp at h
  | some s =>
    rw [hl] at h
    simp only [Option.map_some'] at h
    rw [← Option.some.inj h]

/-- C15: a run of `reconnectSession(id)` that passes the entry guard clears the flag on
every exit path: whatever the client answers during the attempts, a session registered
as active under `id` when the call returns has `Reconnecting = false`.  The deferred
release does so from any state the retry loop may end in. -/
theorem c15_flag_cleared_on_exit (obs : Nat → AttemptObs) (w : World) (id : String)
    (s : JadibotSession) (hs : w.jm.sessions.lookup id = some s)
    (hr : s.Reconnecting = false) :
    (reconnectEnter w id).1 = true ∧
    (∀ s1, (reconnectSession obs w id).jm.sessions.lookup id = some s1 →
      s1.Reconnecting = false) ∧
    (∀ (w1 : World) (s1 : JadibotSession),
      (releaseReconnecting w1 id).jm.sessions.lookup id = some s1 → s1.Reconnecting = false) := by
  refine ⟨by simp [reconnectEnter, hs, hr], ?_, fun w1 s1 h => releaseReconnecting_clears w1 id s1 h⟩
  intro s1 h
  rw [reconnectSession_of_guard obs w id s hs hr] at h
  exact releaseReconnecting_clears _ id s1 h

/-- C15, witness: the loaded session of `samplePhone`, found connected at the first
attempt. -/
theorem c15_witness :
    (activeWorld.jm.sessions.lookup samplePhone = some loadedSession ∧
      loadedSession.Reconnecting = false) ∧
    ((reconnectEnter activeWorld samplePhone).1 = true ∧
    (∀ s1, (reconnectSession recoveredObs activeWorld samplePhone).jm.sessions.lookup samplePhone
      = some s1 → s1.Reconnecting = false) ∧
    (∀ (w1 : World) (s1 : JadibotSession),
      (releaseReconnecting w1 samplePhone).jm.sessions.lookup samplePhone = some s1 →
      s1.Reconnecting = false)) :=
  ⟨⟨by decide, rfl⟩,
    c15_flag_cleared_on_exit recoveredObs activeWorld samplePhone loadedSession (by decide) rfl⟩

theorem sweepSession_noClient (obs : SweepObs) (id : String) (s : JadibotSession)
    (h : s.Client = none) : (sweepSession obs id s).2 = true := by
  unfold sweepSession sweepSnapshot takeSnapshot
  simp [h]

/-- C17: a health sweep removes every active session that lacks a client handle or
whose client lacks a stored identity at the snapshot (registry entry and folder),
whatever its connected state, its `Reconnecting` flag, its `FailCount` and its
`LastFailTime`. -/
theorem c17_invalid_sessions_removed (obs : SweepObs) (w : World) (id : String)
    (s : JadibotSession) (hs : w.jm.sessions.lookup id = some s)
    (hinv : s.Client = none ∨ (obs.client id).hasStore = false ∨
      (obs.client id).hasStoreID = false) :
    isActive (validateAllSessions obs w) id = false ∧
    (validateAllSessions obs w).fs.present (getJadibotFolder id) = false := by
  have hv : (sweepSession obs id s).2 = true := by
    rcases hinv with h | h | h
    · exact sweepSession_noClient obs id s h
    · exact sweepSession_noIdentity obs id s (by simp [h])
    · exact sweepSession_noIdentity obs id s (by simp [h])
  obtain ⟨hl, hfs⟩ := validateAllSessions_session obs w id s hs
  rw [hv] at hl
  simp only [if_true] at hl
  exact ⟨by simp [isActive, hl], hfs hv⟩

/-- C17, witness: the loaded session of `samplePhone`, connected but without stored
identity at the snapshot. -/
theorem c17_witness :
    (activeWorld.jm.sessions.lookup samplePhone = some loadedSession ∧
      (loadedSession.Client = none ∨ (noIdentitySweep.client samplePhone).hasStore = false ∨
        (noIdentitySweep.client samplePhone).hasStoreID = false)) ∧
    (isActive (validateAllSessions noIdentitySweep activeWorld) samplePhone = false ∧
      (validateAllSessions noIdentitySweep activeWorld).fs.present
        (getJadibotFolder samplePhone) = false) :=
  ⟨⟨by decide, Or.inr (Or.inr rfl)⟩,
    c17_invalid_sessions_removed noIdentitySweep activeWorld samplePhone loadedSession
      (by decide) (Or.inr (Or.inr rfl))⟩

/-- C18: for an identifier that is neither active nor pending, when the folder and
the credential store are set up and then `Connect` fails, or `Connect` succeeds and
the pairing-code request fails, `CreatePairingSession` returns the corresponding error
and on return the identifier is in neither map and its folder is deleted. -/
theorem c18_connect_or_pairing_failure_tears_down (obs : CreateObs) (w : World)
    (id owner : String) (mc : Option Client) (fs1 : FileSys)
    (hA : isActive w id = false) (hP : isPending w id = false)
    (hm : w.fs.mkdirAll (getJadibotFolder id) obs.mkdirRefused = some fs1)
    (hd : obs.databaseErr = false)
    (hfail : obs.connectErr = true ∨ obs.pairingCode = none) :
    (CreatePairingSession obs w id owner mc).1 =
      .error (if obs.connectErr = true then .connectFailed else .pairingCodeFailed) ∧
    isActive (CreatePairingSession obs w id owner mc).2 id = false ∧
    isPending (CreatePairingSession obs w id owner mc).2 id = false ∧
    (CreatePairingSession obs w id owner mc).2.fs.present (getJadibotFolder id) = false := by
  unfold CreatePairingSession
  simp only [isActive, isPending] at hA hP
  simp only [hA, hP, hm, hd, Bool.false_eq_true, if_false]
  by_cases hc : obs.connectErr = true
  · simp only [hc, if_true]
    refine ⟨trivial, ?_, ?_, ?_⟩
    · simpa [isActive, deleteJadibotFiles, cleanupJadibotFiles, World.deletePending,
        World.setPending, World.emit] using hA
    · simp [isPending, deleteJadibotFiles, cleanupJadibotFiles, World.deletePending,
        World.setPending, World.emit]
    · simp only [deleteJadibotFiles, cleanupJadibotFiles]
      exact present_removeAll_self _ _
  · have hpc : obs.pairingCode = none := by
      rcases hfail with h | h
      · exact absurd h hc
      · exact h
    simp only [hc, hpc, if_false]
    refine ⟨rfl, ?_, ?_, ?_⟩
    · simpa [isActive, deleteJadibotFiles, cleanupJadibotFiles, World.deletePending,
        World.setPending, World.emit] using hA
    · simp [isPending, deleteJadibotFiles, cleanupJadibotFiles, World.deletePending,
        World.setPending, World.emit]
    · simp only [deleteJadibotFiles, cleanupJadibotFiles]
      exact present_removeAll_self _ _

/-- C18, witness: pairing `samplePhone` on a fresh disk with a `Connect` that fails. -/
theorem c18_witness :
    (isActive initialWorld samplePhone = false ∧ isPending initialWorld samplePhone = false ∧
      connectFailsCreate.databaseErr = false ∧
      (connectFailsCreate.connectErr = true ∨ connectFailsCreate.pairingCode = none)) ∧
    ((CreatePairingSession connectFailsCreate initialWorld samplePhone "o" none).1 =
      .error (if connectFailsCreate.connectErr = true then .connectFailed
        else .pairingCodeFailed) ∧
    isActive (CreatePairingSession connectFailsCreate initialWorld samplePhone "o" none).2
      samplePhone = false ∧
    isPending (CreatePairingSession connectFailsCreate initialWorld samplePhone "o" none).2
      samplePhone = false ∧
    (CreatePairingSession connectFailsCreate initialWorld samplePhone "o" none).2.fs.present
      (getJadibotFolder samplePhone) = false) :=
  ⟨⟨by decide, by decide, rfl, Or.inl rfl⟩,
    c18_connect_or_pairing_failure_tears_down connectFailsCreate initialWorld samplePhone "o"
      none _ (by decide) (by decide) rfl rfl (Or.inl rfl)⟩

@[simp] theorem saveJadibotMetadata_jm (now : Time) (w : World) (id : String) (t : Time) :
    (saveJadibotMetadata now w id t).jm = w.jm := by
  unfold saveJadibotMetadata
  dsimp only
  split <;> rfl

theorem deletePending_lookup (w : World) (id j : String) :
    (w.deletePending id).jm.pending.lookup j =
      if j = id then none else w.jm.pending.lookup j := by
  by_cases hj : j = id
  · subst hj; simp [World.deletePending]
  · simp [hj, World.deletePending, AList.lookup_erase_ne hj]

@[simp] theorem deletePending_sessions (w : World) (id : String) :
    (w.deletePending id).jm.sessions = w.jm.sessions := rfl

theorem promote_lookups (w : World) (id : String) (s : JadibotSession) :
    ((w.setSession id s).deletePending id).jm.sessions.lookup id = some s ∧
    ((w.setSession id s).deletePending id).jm.pending.lookup id = none ∧
    (∀ j, j ≠ id →
      ((w.setSession id s).deletePending id).jm.sessions.lookup j = w.jm.sessions.lookup j ∧
      ((w.setSession id s).deletePending id).jm.pending.lookup j = w.jm.pending.lookup j) := by
  refine ⟨?_, ?_, ?_⟩
  · rw [deletePending_sessions, setSession_lookup, if_pos rfl]
  · rw [deletePending_lookup, if_pos rfl]
  · intro j hj
    constructor
    · rw [deletePending_sessions, setSession_lookup, if_neg hj]
    · rw [deletePending_lookup, if_neg hj]; rfl

/-- C20: for a pending identifier, handling a `PairSuccess` event, or a `Connected`
event while the client has a stored identity, moves the session from pending to
active: afterwards the active map holds under `id` the same session (all fields as
before, so the same `StartTime` and `OwnerChat`) with `Connected = true`, `id` is not in
the pending map, and the entries of all other identifiers in both maps are
unchanged. -/
theorem c20_event_promotes_pending (obs : EventObs) (w : World) (id : String)
    (s : JadibotSession) (evt : Event)
    (hp : w.jm.pending.lookup id = some s)
    (hevt : evt = .pairSuccess ∨ (evt = .connected ∧ obs.clientHasStoreID = true)) :
    (handleJadibotEvent obs w id evt).jm.sessions.lookup id = some { s with Connected := true } ∧
    isPending (handleJadibotEvent obs w id evt) id = false ∧
    (∀ j, j ≠ id →
      (handleJadibotEvent obs w id evt).jm.sessions.lookup j = w.jm.sessions.lookup j ∧
      (handleJadibotEvent obs w id evt).jm.pending.lookup j = w.jm.pending.lookup j) := by
  obtain ⟨a, b, c⟩ := promote_lookups w id { s with Connected := true }
  rcases hevt with h | ⟨h, hid⟩
  · subst h
    have hjm : (handleJadibotEvent obs w id .pairSuccess).jm =
        ((w.setSession id { s with Connected := true }).deletePending id).jm := by
      unfold handleJadibotEvent
      simp only [hp]
      split <;> simp
    unfold isPending
    rw [hjm]
    exact ⟨a, by simp [b], c⟩
  · subst h
    have hjm : (handleJadibotEvent obs w id .connected).jm =
        ((w.setSession id { s with Connected := true }).deletePending id).jm := by
      unfold handleJadibotEvent
      simp [hp, hid]
    unfold isPending
    rw [hjm]
    exact ⟨a, by simp [b], c⟩

/-- C20, witness: the pending `samplePhone` receives `PairSuccess`. -/
theorem c20_witness :
    (pairingStartedWorld.jm.pending.lookup samplePhone = some pairingSession ∧
      (Event.pairSuccess = .pairSuccess ∨
        (Event.pairSuccess = .connected ∧ okEvent.clientHasStoreID = true))) ∧
    ((handleJadibotEvent okEvent pairingStartedWorld samplePhone .pairSuccess).jm.sessions.lookup
        samplePhone = some { pairingSession with Connected := true } ∧
    isPending (handleJadibotEvent okEvent pairingStartedWorld samplePhone .pairSuccess)
      samplePhone = false ∧
    (∀ j, j ≠ samplePhone →
      (handleJadibotEvent okEvent pairingStartedWorld samplePhone .pairSuccess).jm.sessions.lookup j
        = pairingStartedWorld.jm.sessions.lookup j ∧
      (handleJadibotEvent okEvent pairingStartedWorld samplePhone .pairSuccess).jm.pending.lookup j
        = pairingStartedWorld.jm.pending.lookup j)) :=
  ⟨⟨by decide, Or.inl rfl⟩,
    c20_event_promotes_pending okEvent pairingStartedWorld samplePhone pairingSession
      .pairSuccess (by decide) (Or.inl rfl)⟩

theorem create_ok_pending (obs : CreateObs) (w : World) (id owner : String)
    (mc : Option Client) (code : String)
    (h : (CreatePairingSession obs w id owner mc).1 = .ok code) :
    (∃ s, (CreatePairingSession obs w id owner mc).2.jm.pending.lookup id = some s ∧
      s.Connected = false) ∧
    (CreatePairingSession obs w id owner mc).2.log.head? =
      some (.goWaitForPairing id (180 * second)) := by
  unfold CreatePairingSession at h ⊢
  by_cases hA : (w.jm.sessions.lookup id).isSome = true
  · simp [hA] at h
  · by_cases hP : (w.jm.pending.lookup id).isSome = true
    · simp [hA, hP] at h
    · simp only [hA, hP, if_false] at h ⊢
      cases hm : w.fs.mkdirAll (getJadibotFolder id) obs.mkdirRefused with
      | none => simp [hm] at h
      | some fs1 =>
        simp only [hm] at h ⊢
        by_cases hd : obs.databaseErr = true
        · simp [hd] at h
        · by_cases hc : obs.connectErr = true
          · simp [hd, hc] at h
          · cases hpc : obs.pairingCode with
            | none => simp [hd, hc, hpc] at h
            | some c => simp [hd, hc, hpc, World.setPending]

theorem pairingTimeout_of_pending (mainConnected : Bool) (w : World) (id : String)
    (s : JadibotSession) (hp : w.jm.pending.lookup id = some s) (hc : s.Connected = false) :
    (pairingTimeout mainConnected w id).jm.sessions = w.jm.sessions ∧
    (pairingTimeout mainConnected w id).jm.pending = w.jm.pending.erase id ∧
    (pairingTimeout mainConnected w id).fs = w.fs.removeAll (getJadibotFolder id) := by
  unfold pairingTimeout
  simp only [hp, hc, Bool.not_false, if_true]
  split <;> simp [deleteJadibotFiles, cleanupJadibotFiles, World.deletePending]

/-- When `CreatePairingSession(X)` succeeds, the last thing it does is start
`waitForPairing(X)` with a timeout of 180 seconds.  When the timer fires in a state in
which `X` is registered as that call left it (still pending with the same session, not
active), `X` is afterwards in neither map and its folder is deleted.  When the timer
fires and `X` is no longer pending, the world is left unchanged. -/
theorem pairingTimeout_after_create (obs : CreateObs) (w : World) (id owner : String)
    (mc : Option Client) (code : String)
    (hok : (CreatePairingSession obs w id owner mc).1 = .ok code) :
    (CreatePairingSession obs w id owner mc).2.log.head? =
      some (.goWaitForPairing id (180 * second)) ∧
    (∀ (mainConnected : Bool) (w2 : World),
      w2.jm.pending.lookup id = (CreatePairingSession obs w id owner mc).2.jm.pending.lookup id →
      isActive w2 id = isActive (CreatePairingSession obs w id owner mc).2 id →
      isPending w2 id = true ∧
      isActive (pairingTimeout mainConnected w2 id) id = false ∧
      isPending (pairingTimeout mainConnected w2 id) id = false ∧
      (pairingTimeout mainConnected w2 id).fs.present (getJadibotFolder id) = false) ∧
    (∀ (mainConnected : Bool) (w2 : World),
      isPending w2 id = false → pairingTimeout mainConnected w2 id = w2) := by
  obtain ⟨⟨s, hs, hcn⟩, hlog⟩ := create_ok_pending obs w id owner mc code hok
  obtain ⟨_, _, hact, _⟩ := create_ok_registers obs w id owner mc code hok
  refine ⟨hlog, ?_, ?_⟩
  · intro mainConnected w2 h1 h2
    rw [hs] at h1
    rw [hact] at h2
    obtain ⟨a, b, c⟩ := pairingTimeout_of_pending mainConnected w2 id s h1 hcn
    refine ⟨by simp [isPending, h1], ?_, ?_, ?_⟩
    · simpa [isActive, a] using h2
    · simp [isPending, b]
    · rw [c]; exact present_removeAll_self _ _
  · intro mainConnected w2 h
    unfold pairingTimeout
    have hn : w2.jm.pending.lookup id = none := by
      simpa [isPending] using h
    simp [hn]

/-- The timer of `samplePhone` fires when it was paired after a restart and nothing
else has happened. -/
theorem pairingTimeout_sample :
    (CreatePairingSession okCreate restartWorld samplePhone "owner@s.whatsapp.net" (some ⟨0⟩)).1
      = .ok "ABCD-1234" ∧
    (pairingStartedWorld.log.head? = some (.goWaitForPairing samplePhone (180 * second)) ∧
      isActive (pairingTimeout true pairingStartedWorld samplePhone) samplePhone = false ∧
      isPending (pairingTimeout true pairingStartedWorld samplePhone) samplePhone = false ∧
      (pairingTimeout true pairingStartedWorld samplePhone).fs.present
        (getJadibotFolder samplePhone) = false ∧
      pairingTimeout true restartWorld samplePhone = restartWorld) :=
  ⟨rfl,
    (pairingTimeout_after_create okCreate restartWorld samplePhone "owner@s.whatsapp.net"
      (some ⟨0⟩) "ABCD-1234" rfl).1,
    ((pairingTimeout_after_create okCreate restartWorld samplePhone "owner@s.whatsapp.net"
      (some ⟨0⟩) "ABCD-1234" rfl).2.1 true pairingStartedWorld rfl rfl).2.1,
    ((pairingTimeout_after_create okCreate restartWorld samplePhone "owner@s.whatsapp.net"
      (some ⟨0⟩) "ABCD-1234" rfl).2.1 true pairingStartedWorld rfl rfl).2.2.1,
    ((pairingTimeout_after_create okCreate restartWorld samplePhone "owner@s.whatsapp.net"
      (some ⟨0⟩) "ABCD-1234" rfl).2.1 true pairingStartedWorld rfl rfl).2.2.2,
    (pairingTimeout_after_create okCreate restartWorld samplePhone "owner@s.whatsapp.net"
      (some ⟨0⟩) "ABCD-1234" rfl).2.2 true restartWorld (by decide)⟩

/-- C11 (evaluation at the failing input): after a restart
`CreatePairingSession(samplePhone)` succeeds and starts the pairing wait with a
180-second timeout.  No pairing event arrives; `LoadExistingSessions` runs meanwhile
and registers `samplePhone` as active.  When the timer fires, `samplePhone` is still
pending with the session the call made (`Connected = false`): the timeout branch
deletes the pending entry and the folder, and `samplePhone` stays in the active map,
without storage. -/
theorem c11_timeout_after_loader :
    (CreatePairingSession okCreate restartWorld samplePhone "owner@s.whatsapp.net" (some ⟨0⟩)).1
      = .ok "ABCD-1234" ∧
    pairingStartedWorld.log.head? = some (.goWaitForPairing samplePhone (180 * second)) ∧
    loadedWhilePairingWorld.jm.pending.lookup samplePhone = some pairingSession ∧
    pairingSession.Connected = false ∧
    isPending (pairingTimeout true loadedWhilePairingWorld samplePhone) samplePhone = false ∧
    isActive (pairingTimeout true loadedWhilePairingWorld samplePhone) samplePhone = true ∧
    (pairingTimeout true loadedWhilePairingWorld samplePhone).fs.present
      (getJadibotFolder samplePhone) = false :=
  ⟨rfl, by decide, by decide, rfl, by decide, by decide, by decide⟩

theorem mem_ancestors_self (p : Path) (h : p ≠ []) : p ∈ ancestors p := by
  induction p with
  | nil => exact absurd rfl h
  | cons c rest ih =>
    unfold ancestors
    cases rest with
    | nil => simp
    | cons d t =>
      right
      exact List.mem_map.2 ⟨d :: t, ih (by simp), rfl⟩

theorem mkdirAll_creates (fs fs1 : FileSys) (p : Path) (r : Bool) (hne : p ≠ [])
    (h : fs.mkdirAll p r = some fs1) : fs1.present p = true := by
  unfold FileSys.mkdirAll at h
  split at h
  · exact absurd h (by simp)
  · have h1 := Option.some.inj h
    rw [← h1]
    by_cases hp : fs.present p = true
    · simp only [FileSys.present, List.any_append, Bool.or_eq_true]
      left
      exact hp
    · simp only [FileSys.present, List.any_append, Bool.or_eq_true]
      right
      rw [List.any_eq_true]
      refine ⟨⟨p, true⟩, ?_, by simp⟩
      apply List.mem_map.2
      refine ⟨p, ?_, rfl⟩
      rw [List.mem_filter]
      have hq : (!fs.present p) = true := by
        cases hq : fs.present p with
        | true => exact absurd hq hp
        | false => rfl
      exact ⟨mem_ancestors_self p hne, hq⟩

/-- C19 (what the code does instead): for an identifier that is neither active nor
pending, when `os.MkdirAll` succeeds and opening the credential store fails,
`CreatePairingSession` returns the database error right away: the identifier is in
neither map, but nothing is torn down and the folder it has just made sure exists is
still on disk.  (When `os.MkdirAll` itself fails the world is unchanged.) -/
theorem c19_database_failure_leaves_folder (obs : CreateObs) (w : World) (id owner : String)
    (mc : Option Client)
    (hA : isActive w id = false) (hP : isPending w id = false) :
    (w.fs.mkdirAll (getJadibotFolder id) obs.mkdirRefused = none →
      CreatePairingSession obs w id owner mc = (.error .mkdirFailed, w)) ∧
    (∀ fs1, w.fs.mkdirAll (getJadibotFolder id) obs.mkdirRefused = some fs1 →
      obs.databaseErr = true →
      CreatePairingSession obs w id owner mc = (.error .databaseFailed, { w with fs := fs1 }) ∧
      (CreatePairingSession obs w id owner mc).2.fs.present (getJadibotFolder id) = true) := by
  simp only [isActive, isPending] at hA hP
  constructor
  · intro hm
    unfold CreatePairingSession
    simp [hA, hP, hm]
  · intro fs1 hm hd
    have hres : CreatePairingSession obs w id owner mc =
        (.error .databaseFailed, { w with fs := fs1 }) := by
      unfold CreatePairingSession
      simp [hA, hP, hm, hd]
    refine ⟨hres, ?_⟩
    rw [hres]
    exact mkdirAll_creates w.fs fs1 (getJadibotFolder id) obs.mkdirRefused
      (getJadibotFolder_ne_nil id) hm

/-- C19, failing input: on a fresh disk, pairing `samplePhone` with a credential store
that cannot be opened returns the database error and leaves the new folder behind. -/
theorem c19_witness :
    (isActive initialWorld samplePhone = false ∧ isPending initialWorld samplePhone = false ∧
      initialWorld.fs.present (getJadibotFolder samplePhone) = false ∧
      databaseFailsCreate.databaseErr = true) ∧
    (CreatePairingSession databaseFailsCreate initialWorld samplePhone "o" none).1
      = .error .databaseFailed ∧
    (CreatePairingSession databaseFailsCreate initialWorld samplePhone "o" none).2.fs.present
      (getJadibotFolder samplePhone) = true :=
  ⟨⟨by decide, by decide, by decide, rfl⟩, rfl,
    ((c19_database_failure_leaves_folder databaseFailsCreate initialWorld samplePhone "o" none
      (by decide) (by decide)).2 _ rfl rfl).2⟩

theorem retryWaitSequence_cons (e : Effect) (log : List Effect) :
    retryWaitSequence (e :: log) = retryWaitSequence log ++ (retryWaitOf e).toList := by
  unfold retryWaitSequence
  rw [List.reverse_cons, List.filterMap_append]
  cases h : retryWaitOf e <;> simp [List.filterMap, h]

theorem retryWaitOf_retryDelay (a : Nat) : retryWaitOf (.sleep (retryDelay a)) = some (retryDelay a) := by
  have h := retryDelay_isRetryWait a
  simp only [isRetryWait] at h
  simp only [retryWaitOf, h, if_true]

theorem retryWaitOf_three_seconds : retryWaitOf (.sleep (3 * second)) = none := by decide

theorem RemoveSession_retryWaitSequence (w : World) (id : String) :
    retryWaitSequence (RemoveSession w id).2.log = retryWaitSequence w.log := by
  unfold RemoveSession
  cases hs : w.jm.sessions.lookup id with
  | none =>
    cases hp : w.jm.pending.lookup id with
    | none => rfl
    | some ps =>
      cases hc : ps.Container <;>
        simp [deleteJadibotFiles, cleanupJadibotFiles, World.deletePending, closeIfOpen, World.emit,
          retryWaitSequence_cons, retryWaitOf, hc]
  | some s =>
    cases hc : s.Container <;> cases hcl : s.Client <;>
      simp [cleanupJadibotFiles, World.deleteSession, closeIfOpen, disconnectIfClient, World.emit,
        retryWaitSequence_cons, retryWaitOf, hc, hcl]

theorem recordFailedAttempt_log (now : Time) (w : World) (id : String) (a : Nat) :
    retryWaitSequence (recordFailedAttempt now w id a).1.log = retryWaitSequence w.log ∧
    connectCalls (recordFailedAttempt now w id a).1.log id = connectCalls w.log id := by
  unfold recordFailedAttempt
  by_cases ha : a = maxRetries
  · simp only [ha, if_true]
    rw [RemoveSession_retryWaitSequence, RemoveSession_connectCalls]
    simp
  · simp [ha]

theorem reconnectAttempt_log (o : AttemptObs) (w : World) (id : String) (a : Nat) :
    retryWaitSequence (reconnectAttempt o w id a).1.log = retryWaitSequence w.log ++ [retryDelay a] ∧
    connectCalls (reconnectAttempt o w id a).1.log id ≤ connectCalls w.log id + 1 := by
  have hw := retryWaitOf_retryDelay a
  have h3 := retryWaitOf_three_seconds
  have hcn : retryWaitOf (.connect id) = none := rfl
  have hsp : retryWaitOf (.sendPresence id) = none := rfl
  have hbase : retryWaitSequence (Effect.sleep (retryDelay a) :: w.log)
      = retryWaitSequence w.log ++ [retryDelay a] := by
    simp [retryWaitSequence_cons, hw]
  unfold reconnectAttempt
  simp only [emit_jm]
  cases hl : w.jm.sessions.lookup id with
  | none => simp [hbase, connectCalls]
  | some sk =>
    cases hc : sk.Client with
    | none => simp [hc, hbase, connectCalls]
    | some c =>
      simp only [hc]
      by_cases hb : o.connectedBefore = true
      · simp [hb, hbase, connectCalls]
      · by_cases hid : o.hasStoreID = true
        · simp only [hb, hid, Bool.not_true, Bool.false_eq_true, if_false]
          by_cases he : o.connectErr = true
          · simp only [he, if_true]
            obtain ⟨r1, r2⟩ := recordFailedAttempt_log o.now
              ((w.emit (.sleep (retryDelay a))).emit (.connect id)) id a
            rw [r1, r2]
            simp [retryWaitSequence_cons, hw, hcn, connectCalls]
          · by_cases hca : o.connectedAfter = true
            · simp [he, hca, retryWaitSequence_cons, hw, h3, hcn, hsp, connectCalls]
            · simp only [he, hca, Bool.not_false, Bool.false_eq_true, if_false, if_true]
              obtain ⟨r1, r2⟩ := recordFailedAttempt_log o.now
                (((w.emit (.sleep (retryDelay a))).emit (.connect id)).emit (.sleep (3 * second)))
                id a
              rw [r1, r2]
              simp [retryWaitSequence_cons, hw, h3, hcn, connectCalls]
        · simp only [hb, hid, Bool.not_false, Bool.false_eq_true, if_false, if_true]
          rw [RemoveSession_retryWaitSequence, RemoveSession_connectCalls]
          simp [hbase, connectCalls]

theorem reconnectLoop_log (obs : Nat → AttemptObs) (id : String) (l : List Nat) (w : World) :
    ∃ k, k ≤ l.length ∧
      retryWaitSequence (reconnectLoop obs id l w).1.log
        = retryWaitSequence w.log ++ (l.take k).map retryDelay ∧
      connectCalls (reconnectLoop obs id l w).1.log id ≤ connectCalls w.log id + k := by
  induction l generalizing w with
  | nil => exact ⟨0, Nat.le_refl _, by simp [reconnectLoop], by simp [reconnectLoop]⟩
  | cons a rest ih =>
    obtain ⟨a1, a2⟩ := reconnectAttempt_log (obs a) w id a
    unfold reconnectLoop
    rcases h : reconnectAttempt (obs a) w id a with ⟨w1, e⟩
    rw [h] at a1 a2
    cases e with
    | next =>
      obtain ⟨k, hk, b1, b2⟩ := ih w1
      refine ⟨k + 1, by simpa using hk, ?_, ?_⟩
      · simp only [b1, a1, List.take_succ_cons, List.map_cons, List.append_assoc,
          List.singleton_append]
      · simp only at a2 b2 ⊢
        omega
    | done =>
      exact ⟨1, by simp, by simpa using a1, by simpa using a2⟩
    | nilDereference =>
      exact ⟨1, by simp, by simpa using a1, by simpa using a2⟩

/-- C16: the wait before attempt `n` is 5, 10, 20, 30, 60 seconds for `n = 1, .., 5`
and 60 seconds for any `n` beyond 5; and for every behaviour of the client, a run of
`reconnectSession` waits a leading part of that schedule, in order, makes at most 5
attempts and calls `Connect` at most once per attempt, hence at most 5 times, before
it returns. -/
theorem c16_retry_schedule_bounded (obs : Nat → AttemptObs) (w : World) (id : String) :
    (retryDelay 1 = 5 * second ∧ retryDelay 2 = 10 * second ∧ retryDelay 3 = 20 * second ∧
      retryDelay 4 = 30 * second ∧ retryDelay 5 = 60 * second ∧
      ∀ n, 5 < n → retryDelay n = 60 * second) ∧
    (∃ k, k ≤ 5 ∧
      retryWaitSequence (reconnectSession obs w id).log
        = retryWaitSequence w.log ++ retryDelays.take k ∧
      connectCalls (reconnectSession obs w id).log id ≤ connectCalls w.log id + k) := by
  constructor
  · refine ⟨by decide, by decide, by decide, by decide, by decide, ?_⟩
    intro n hn
    unfold retryDelay
    have : ¬ n ≤ retryDelays.length := by
      have : retryDelays.length = 5 := rfl
      omega
    simp [this]
  · rw [reconnectEnter_spec]
    by_cases hg : (reconnectEnter w id).1 = true
    · simp only [hg, if_true]
      obtain ⟨k, hk, b1, b2⟩ := reconnectLoop_log obs id (attemptsUpTo maxRetries)
        (reconnectEnter w id).2
      have hlog : (reconnectEnter w id).2.log = w.log := by
        unfold reconnectEnter
        cases hs : w.jm.sessions.lookup id with
        | none => rfl
        | some s => by_cases hr : s.Reconnecting = true <;> simp [hr, markReconnecting]
      have hmap : (attemptsUpTo maxRetries).map retryDelay = retryDelays := by decide
      refine ⟨k, hk, ?_, ?_⟩
      · simp only [releaseReconnecting, updateSession_log, b1, hlog]
        rw [← hmap, List.map_take]
      · simp only [releaseReconnecting, updateSession_log]
        rw [hlog] at b2
        exact b2
    · simp only [hg, if_false]
      exact ⟨0, by decide, by simp, by simp⟩

/-- C14 (evaluation at the failing interleaving): a first run of
`reconnectSession(samplePhone)` passes the entry guard and is still in its retry loop
after four failed attempts; while it waits, the session is removed, paired again and
promoted; a second run for the same identifier then passes the entry guard as well,
because the flag of the new session is false.  The first run wakes up, finds a session
registered under the identifier, calls `Connect` on it and, its fifth attempt having
failed, removes the session the second run is working on. -/
theorem c14_two_runs_in_flight :
    (reconnectEnter activeWorld samplePhone).1 = true ∧
    (reconnectProgress alwaysFailing activeWorld samplePhone 4).2 = .next ∧
    (firstRunWaitingWorld.jm.sessions.lookup samplePhone).map (fun s => s.Reconnecting)
      = some true ∧
    (reconnectEnter rePairedWorld samplePhone).1 = true ∧
    connectCalls (reconnectAttempt (alwaysFailing 5) secondRunEnteredWorld samplePhone 5).1.log
      samplePhone = connectCalls secondRunEnteredWorld.log samplePhone + 1 ∧
    isActive secondRunEnteredWorld samplePhone = true ∧
    isActive (reconnectAttempt (alwaysFailing 5) secondRunEnteredWorld samplePhone 5).1
      samplePhone = false := by
  decide

/-! ## Event dispatch: frame and persistence -/

/-- C21: handling a `PairSuccess` or `Connected` event for an identifier that is not in
the pending map (active or absent), or a `Connected` event for a pending identifier
whose client has no stored identity, leaves the manager as it was: the active map, the
pending map (hence every field of every session) and the main client are unchanged,
and so is the disk. -/
theorem c21_promotion_noop_unless_pending (obs : EventObs) (w : World) (id : String)
    (evt : Event)
    (h : (isPending w id = false ∧ (evt = .pairSuccess ∨ evt = .connected)) ∨
      (evt = .connected ∧ obs.clientHasStoreID = false)) :
    (handleJadibotEvent obs w id evt).jm = w.jm ∧
    (handleJadibotEvent obs w id evt).fs = w.fs := by
  rcases h with ⟨hp, hevt⟩ | ⟨hevt, hid⟩
  · have hn : w.jm.pending.lookup id = none := by
      unfold isPending at hp
      cases hl : w.jm.pending.lookup id with
      | none => rfl
      | some s => rw [hl] at hp; cases hp
    rcases hevt with hevt | hevt
    · subst hevt
      unfold handleJadibotEvent
      simp [hn]
    · subst hevt
      unfold handleJadibotEvent
      simp [hn]
  · subst hevt
    unfold handleJadibotEvent
    cases hl : w.jm.pending.lookup id with
    | none => simp [hid]
    | some s => simp [hid]

/-- C21, witness: the active `samplePhone` (not pending) receives a `Connected` event. -/
theorem c21_witness :
    ((isPending activeWorld samplePhone = false ∧
        (Event.connected = .pairSuccess ∨ Event.connected = .connected)) ∨
      (Event.connected = .connected ∧ okEvent.clientHasStoreID = false)) ∧
    ((handleJadibotEvent okEvent activeWorld samplePhone .connected).jm = activeWorld.jm ∧
    (handleJadibotEvent okEvent activeWorld samplePhone .connected).fs = activeWorld.fs) :=
  ⟨Or.inl ⟨by decide, Or.inr rfl⟩,
    c21_promotion_noop_unless_pending okEvent activeWorld samplePhone .connected
      (Or.inl ⟨by decide, Or.inr rfl⟩)⟩

/-- C22: the two promotions of a pending identifier differ.  A `PairSuccess` event
calls `saveJadibotMetadata` with the `StartTime` of the session.  A `Connected` event
with a stored identity promotes the session as well, but writes nothing: the disk is
unchanged and the only effects it adds to the log are three presence updates, two
300 ms waits and the start of the group cache. -/
theorem c22_connected_promotion_saves_no_metadata (obs : EventObs) (w : World) (id : String)
    (s : JadibotSession) (hp : w.jm.pending.lookup id = some s)
    (hid : obs.clientHasStoreID = true) :
    Effect.writeMetadata id (unixSeconds s.StartTime) (unixSeconds obs.now) ∈
      (handleJadibotEvent obs w id .pairSuccess).log ∧
    isActive (handleJadibotEvent obs w id .connected) id = true ∧
    (handleJadibotEvent obs w id .connected).fs = w.fs ∧
    (handleJadibotEvent obs w id .connected).log =
      [.goCacheGroups id, .sendPresence id, .sleep (300 * millisecond), .sendPresence id,
        .sleep (300 * millisecond), .sendPresence id] ++ w.log := by
  refine ⟨?_, ?_, ?_, ?_⟩
  · unfold handleJadibotEvent saveJadibotMetadata
    simp only [hp]
    split <;> split <;> simp
  · unfold isActive handleJadibotEvent
    simp [hp, hid, World.setSession]
  · unfold handleJadibotEvent
    simp [hp, hid]
    rfl
  · unfold handleJadibotEvent
    simp [hp, hid]
    rfl

/-- C22, witness: the pending `samplePhone` receives a `Connected` event while its
client has a stored identity. -/
theorem c22_witness :
    (pairingStartedWorld.jm.pending.lookup samplePhone = some pairingSession ∧
      okEvent.clientHasStoreID = true) ∧
    (Effect.writeMetadata samplePhone (unixSeconds pairingSession.StartTime)
        (unixSeconds okEvent.now) ∈
      (handleJadibotEvent okEvent pairingStartedWorld samplePhone .pairSuccess).log ∧
    isActive (handleJadibotEvent okEvent pairingStartedWorld samplePhone .connected)
      samplePhone = true ∧
    (handleJadibotEvent okEvent pairingStartedWorld samplePhone .connected).fs =
      pairingStartedWorld.fs ∧
    (handleJadibotEvent okEvent pairingStartedWorld samplePhone .connected).log =
      [.goCacheGroups samplePhone, .sendPresence samplePhone, .sleep (300 * millisecond),
        .sendPresence samplePhone, .sleep (300 * millisecond), .sendPresence samplePhone] ++
        pairingStartedWorld.log) :=
  ⟨⟨by decide, rfl⟩,
    c22_connected_promotion_saves_no_metadata okEvent pairingStartedWorld samplePhone
      pairingSession (by decide) rfl⟩

/-! ## Sessions the sweep skips -/

theorem RemoveSession_reconnectsStarted (w : World) (id j : String) :
    reconnectsStarted (RemoveSession w id).2.log j = reconnectsStarted w.log j := by
  unfold RemoveSession
  cases hs : w.jm.sessions.lookup id with
  | none =>
    cases hp : w.jm.pending.lookup id with
    | none => rfl
    | some ps =>
      cases hc : ps.Container <;>
        simp [deleteJadibotFiles, cleanupJadibotFiles, World.deletePending, closeIfOpen, World.emit,
          reconnectsStarted, hc]
  | some s =>
    cases hc : s.Container <;> cases hcl : s.Client <;>
      simp [cleanupJadibotFiles, World.deleteSession, closeIfOpen, disconnectIfClient, World.emit,
        reconnectsStarted, hc, hcl]

theorem removeInvalid_reconnectsStarted (l : List String) (w : World) (id : String) :
    reconnectsStarted (removeInvalid w l).log id = reconnectsStarted w.log id := by
  induction l generalizing w with
  | nil => rfl
  | cons j t ih =>
    simp only [removeInvalid, List.foldl_cons] at ih ⊢
    exact (ih (RemoveSession w j).2).trans (RemoveSession_reconnectsStarted w j id)

theorem cleanupOrphanEntry_reconnectsStarted (obs : SweepObs) (tracked : List String)
    (w : World) (file : DirEntry) (id : String) :
    reconnectsStarted (cleanupOrphanEntry obs tracked w file).log id =
      reconnectsStarted w.log id := by
  unfold cleanupOrphanEntry
  split
  · rfl
  · split
    · rfl
    · dsimp only
      split
      · split
        · rfl
        · simp [deleteJadibotFiles, cleanupJadibotFiles, reconnectsStarted]
        · simp [deleteJadibotFiles, cleanupJadibotFiles, reconnectsStarted]
        · simp [reconnectsStarted]
      · rfl

theorem cleanupOrphanedFiles_reconnectsStarted (obs : SweepObs) (w : World) (id : String) :
    reconnectsStarted (cleanupOrphanedFiles obs w).log id = reconnectsStarted w.log id := by
  unfold cleanupOrphanedFiles
  cases w.fs.readDir JadibotFolder with
  | none => rfl
  | some files =>
    simp only
    generalize w.jm.sessions.keys ++ w.jm.pending.keys = tracked
    have : ∀ (l : List DirEntry) (w1 : World),
        reconnectsStarted (l.foldl (cleanupOrphanEntry obs tracked) w1).log id =
          reconnectsStarted w1.log id := by
      intro l
      induction l with
      | nil => intro w1; rfl
      | cons f t ih =>
        intro w1
        simp only [List.foldl_cons]
        exact (ih (cleanupOrphanEntry obs tracked w1 f)).trans
          (cleanupOrphanEntry_reconnectsStarted obs tracked w1 f id)
    exact this files w

theorem processSnapshot_reconnectsStarted (obs : SweepObs) (st : SweepState)
    (snap : sessionSnapshot) (id : String)
    (h : id ≠ snap.phoneNumber ∨ snap.isReconnecting = true) :
    reconnectsStarted (processSnapshot obs st snap).w.log id = reconnectsStarted st.w.log id := by
  have hreset : (resetStaleFailCount obs st.w snap).log = st.w.log := by
    unfold resetStaleFailCount
    split
    · rw [updateSession_log]
    · rfl
  unfold processSnapshot
  split
  · rfl
  · split
    · rfl
    · split
      · rfl
      · rename_i hr
        have hne : id ≠ snap.phoneNumber := by
          rcases h with h | h
          · exact h
          · exact absurd h hr
        split
        · unfold countDisconnected
          cases hl : (resetStaleFailCount obs st.w snap).jm.sessions.lookup snap.phoneNumber with
          | none => simp only [hl]; rw [hreset]
          | some session =>
            simp only [hl]
            by_cases hge : session.FailCount + 1 ≥ maxConsecutiveFails
            · rw [if_pos hge]
              show reconnectsStarted (resetStaleFailCount obs st.w snap).log id = _
              rw [hreset]
            · rw [if_neg hge]
              show reconnectsStarted
                (Effect.goReconnectSession snap.phoneNumber ::
                  (resetStaleFailCount obs st.w snap).log) id = _
              rw [hreset]
              unfold reconnectsStarted
              rw [List.count_cons_of_ne]
              intro he
              injection he with he
              exact hne he
        · show reconnectsStarted (clearFailCount (resetStaleFailCount obs st.w snap) snap).log id = _
          have : (clearFailCount (resetStaleFailCount obs st.w snap) snap).log =
              (resetStaleFailCount obs st.w snap).log := by
            unfold clearFailCount
            split
            · split <;> rfl
            · rfl
          rw [this, hreset]

theorem snapshotLoop_reconnectsStarted (obs : SweepObs) (id : String)
    (l : List (Sigma fun _ : String => JadibotSession)) (st : SweepState)
    (h : ∀ e ∈ l, e.1 = id → e.2.Reconnecting = true) :
    reconnectsStarted
      ((l.map (fun e => takeSnapshot obs e.1 e.2)).foldl (processSnapshot obs) st).w.log id =
      reconnectsStarted st.w.log id := by
  induction l generalizing st with
  | nil => rfl
  | cons e t ih =>
    simp only [List.map_cons, List.foldl_cons]
    rw [ih _ (fun e1 he1 => h e1 (List.mem_cons_of_mem _ he1))]
    apply processSnapshot_reconnectsStarted
    by_cases he : e.1 = id
    · right
      exact h e (List.mem_cons_self _ _) he
    · left
      exact fun hh => he hh.symm

theorem sweepSession_reconnecting (obs : SweepObs) (id : String) (s : JadibotSession)
    (c : Client) (hc : s.Client = some c) (hr : s.Reconnecting = true)
    (hst : (obs.client id).hasStore = true) (hid : (obs.client id).hasStoreID = true) :
    sweepSession obs id s = (s, false) := by
  unfold sweepSession sweepSnapshot takeSnapshot
  simp [hc, hr, hst, hid]

/-- C25: an active session that has a client handle and a stored identity and whose
`Reconnecting` flag is set when the sweep takes its snapshot is skipped by
`validateAllSessions`, whether its client is connected or not: after the whole sweep
(snapshot loop, removal loop and orphan sweep) the active map holds the very same
session under `id` (same `FailCount`, same `LastFailTime`, every other field too), so
it has not been removed, and the sweep has started no reconnection for `id`. -/
theorem c25_sweep_skips_reconnecting (obs : SweepObs) (w : World) (id : String)
    (s : JadibotSession) (c : Client) (hs : w.jm.sessions.lookup id = some s)
    (hc : s.Client = some c) (hr : s.Reconnecting = true)
    (hst : (obs.client id).hasStore = true) (hid : (obs.client id).hasStoreID = true) :
    (validateAllSessions obs w).jm.sessions.lookup id = some s ∧
    reconnectsStarted (validateAllSessions obs w).log id = reconnectsStarted w.log id := by
  have hsw := sweepSession_reconnecting obs id s c hc hr hst hid
  obtain ⟨h1, _⟩ := validateAllSessions_session obs w id s hs
  rw [hsw] at h1
  simp only [Bool.false_eq_true, if_false] at h1
  refine ⟨h1, ?_⟩
  have hlog := snapshotLoop_reconnectsStarted obs id w.jm.sessions.entries
    { w := w, invalidSessions := [] } (by
      intro e he heq
      have : e = ⟨id, s⟩ := by
        have hl1 : AList.lookup e.1 w.jm.sessions = some e.2 :=
          AList.mem_lookup_iff.2 (by cases e; exact he)
        rw [heq, hs] at hl1
        cases e
        simp only at heq hl1
        subst heq
        injection hl1 with hl2
        rw [hl2]
      rw [this]
      exact hr)
  unfold validateAllSessions
  simp only
  rw [cleanupOrphanedFiles_reconnectsStarted, removeInvalid_reconnectsStarted, hlog]

/-- C25, witness: `samplePhone` is in the middle of a reconnection when a sweep finds
its client disconnected. -/
theorem c25_witness :
    (midReconnectWorld.jm.sessions.lookup samplePhone = some midReconnectSession ∧
      midReconnectSession.Client = some ⟨2⟩ ∧ midReconnectSession.Reconnecting = true ∧
      (disconnectedSweep.client samplePhone).hasStore = true ∧
      (disconnectedSweep.client samplePhone).hasStoreID = true) ∧
    ((validateAllSessions disconnectedSweep midReconnectWorld).jm.sessions.lookup samplePhone =
        some midReconnectSession ∧
    reconnectsStarted (validateAllSessions disconnectedSweep midReconnectWorld).log samplePhone =
      reconnectsStarted midReconnectWorld.log samplePhone) :=
  ⟨⟨by decide, rfl, rfl, rfl, rfl⟩,
    c25_sweep_skips_reconnecting disconnectedSweep midReconnectWorld samplePhone
      midReconnectSession ⟨2⟩ (by decide) rfl rfl rfl rfl⟩

/-- The orphan sweep that ends `validateAllSessions` works on the disk and does not
look at the `Reconnecting` flag.  A regular file named `.db` directly in
`Wilykun/jadibot` stands for the empty identifier, whose folder is `Wilykun/jadibot`
itself: the sweep then deletes the storage of every session, the skipped one included,
while the registry keeps the session. -/
theorem stray_store_file_empties_jadibot_folder :
    getJadibotFolder "" = JadibotFolder ∧
    strayFileWorld.fs.present (getJadibotFolder samplePhone) = true ∧
    (validateAllSessions disconnectedSweep strayFileWorld).jm.sessions.lookup samplePhone =
      some midReconnectSession ∧
    (validateAllSessions disconnectedSweep strayFileWorld).fs.present
      (getJadibotFolder samplePhone) = false := by
  decide

/-! ## Listing the active sessions -/

theorem foldl_append_singleton {α β : Type} (f : α → β) (l : List α) (init : List β) :
    l.foldl (fun acc e => acc ++ [f e]) init = init ++ l.map f := by
  induction l generalizing init with
  | nil => simp
  | cons a t ih => simp [ih]

theorem GetAllSessions_eq (w : World) :
    GetAllSessions w = w.jm.sessions.entries.map (fun e => e.2) := by
  unfold GetAllSessions
  rw [foldl_append_singleton (fun e : Sigma fun _ : String => JadibotSession => e.2)]
  rfl

theorem wellKeyed_lookup (m : SessionMap) (h : wellKeyed m = true) (id : String)
    (s : JadibotSession) (hs : m.lookup id = some s) : s.PhoneNumber = id := by
  have hmem : (⟨id, s⟩ : Sigma fun _ : String => JadibotSession) ∈ m.entries :=
    AList.mem_lookup_iff.1 (by rw [hs]; rfl)
  unfold wellKeyed at h
  rw [List.all_eq_true] at h
  simpa using h _ hmem

/-- C24: in a registry whose sessions are stored under their own `PhoneNumber`,
`GetAllSessions` returns a list with as many elements as there are active identifiers,
whose elements are exactly the sessions of the active map, each of them once, and which
holds no session that is registered only in the pending map.  (The method only reads
the manager: the registry after the call is the registry before it.) -/
theorem c24_getAllSessions_lists_active (w : World)
    (hA : wellKeyed w.jm.sessions = true) (hP : wellKeyed w.jm.pending = true) :
    (GetAllSessions w).length = w.jm.sessions.keys.length ∧
    (∀ s, s ∈ GetAllSessions w ↔ ∃ id, w.jm.sessions.lookup id = some s) ∧
    (GetAllSessions w).Nodup ∧
    (∀ id s, w.jm.pending.lookup id = some s → isActive w id = false →
      s ∉ GetAllSessions w) := by
  have hmem : ∀ s, s ∈ GetAllSessions w ↔ ∃ id, w.jm.sessions.lookup id = some s := by
    intro s
    rw [GetAllSessions_eq, List.mem_map]
    constructor
    · rintro ⟨e, he, rfl⟩
      refine ⟨e.1, ?_⟩
      have := (AList.mem_lookup_iff (s := w.jm.sessions) (a := e.1) (b := e.2)).2
        (by cases e; exact he)
      simpa using this
    · rintro ⟨id, hid⟩
      exact ⟨⟨id, s⟩, AList.mem_lookup_iff.1 (by rw [hid]; rfl), rfl⟩
  refine ⟨?_, hmem, ?_, ?_⟩
  · rw [GetAllSessions_eq, List.length_map, AList.keys, List.keys, List.length_map]
  · rw [GetAllSessions_eq]
    apply List.Nodup.map_on _ w.jm.sessions.nodupKeys.nodup
    intro x hx y hy hxy
    have kx : x.2.PhoneNumber = x.1 :=
      wellKeyed_lookup _ hA x.1 x.2 (by
        have := (AList.mem_lookup_iff (s := w.jm.sessions) (a := x.1) (b := x.2)).2
          (by cases x; exact hx)
        simpa using this)
    have ky : y.2.PhoneNumber = y.1 :=
      wellKeyed_lookup _ hA y.1 y.2 (by
        have := (AList.mem_lookup_iff (s := w.jm.sessions) (a := y.1) (b := y.2)).2
          (by cases y; exact hy)
        simpa using this)
    have hk : x.1 = y.1 := by rw [← kx, ← ky, hxy]
    exact List.NodupKeys.eq_of_fst_eq w.jm.sessions.nodupKeys hx hy hk
  · intro id s hp hna hin
    obtain ⟨j, hj⟩ := (hmem s).1 hin
    have h1 : s.PhoneNumber = j := wellKeyed_lookup _ hA j s hj
    have h2 : s.PhoneNumber = id := wellKeyed_lookup _ hP id s hp
    have : j = id := h1.symm.trans h2
    subst this
    unfold isActive at hna
    rw [hj] at hna
    cases hna

/-- C24, witness: `samplePhone` is active while `otherPhone` is being paired. -/
theorem c24_witness :
    (wellKeyed mixedWorld.jm.sessions = true ∧ wellKeyed mixedWorld.jm.pending = true) ∧
    ((GetAllSessions mixedWorld).length = mixedWorld.jm.sessions.keys.length ∧
    (∀ s, s ∈ GetAllSessions mixedWorld ↔ ∃ id, mixedWorld.jm.sessions.lookup id = some s) ∧
    (GetAllSessions mixedWorld).Nodup ∧
    (∀ id s, mixedWorld.jm.pending.lookup id = some s → isActive mixedWorld id = false →
      s ∉ GetAllSessions mixedWorld)) :=
  ⟨⟨by decide, by decide⟩, c24_getAllSessions_lists_active mixedWorld (by decide) (by decide)⟩

theorem mixedWorld_listing :
    GetAllSessions mixedWorld = [loadedSession] ∧ isPending mixedWorld otherPhone = true := by
  decide

/-! ## Every exit of the reconnection engine -/

theorem RemoveSession_settles (w : World) (id : String) (s : JadibotSession)
    (h : w.jm.sessions.lookup id = some s) : Settled (RemoveSession w id).2 id := by
  left
  obtain ⟨_, _, _, _, h5⟩ := RemoveSession_of_active w id s h
  refine ⟨?_, ?_⟩
  · rw [RemoveSession_lookup_sessions, if_pos rfl]
  · rw [h5]; exact present_removeAll_self _ _

theorem recordFailedAttempt_outcome (now : Time) (w : World) (id : String) (a : Nat)
    (sk : JadibotSession) (c : Client)
    (hl : w.jm.sessions.lookup id = some sk) (hc : sk.Client = some c) :
    ((recordFailedAttempt now w id a).2 = .next ∧ a ≠ maxRetries ∧
      ∃ sk1, (recordFailedAttempt now w id a).1.jm.sessions.lookup id = some sk1 ∧
        sk1.Client = some c) ∨
    ((recordFailedAttempt now w id a).2 = .done ∧ Settled (recordFailedAttempt now w id a).1 id) := by
  have hl2 : (w.updateSession id
      (fun s => { s with FailCount := s.FailCount + 1, LastFailTime := now })).jm.sessions.lookup id
      = some { sk with FailCount := sk.FailCount + 1, LastFailTime := now } := by
    simp [updateSession_lookup, hl]
  unfold recordFailedAttempt
  by_cases ha : a = maxRetries
  · right
    simp only [ha, if_true]
    exact ⟨trivial, RemoveSession_settles _ id _ hl2⟩
  · left
    simp only [ha, if_false]
    exact ⟨trivial, ha, _, hl2, hc⟩

theorem reconnectAttempt_outcome (o : AttemptObs) (w : World) (id : String) (a : Nat)
    (sk : JadibotSession) (c : Client)
    (hl : w.jm.sessions.lookup id = some sk) (hc : sk.Client = some c) :
    ((reconnectAttempt o w id a).2 = .next ∧ a ≠ maxRetries ∧
      ∃ sk1, (reconnectAttempt o w id a).1.jm.sessions.lookup id = some sk1 ∧
        sk1.Client = some c) ∨
    ((reconnectAttempt o w id a).2 = .done ∧ Settled (reconnectAttempt o w id a).1 id) := by
  unfold reconnectAttempt
  simp only [emit_jm, hl, hc]
  by_cases h1 : o.connectedBefore = true
  · right
    simp only [h1, if_true]
    refine ⟨trivial, Or.inr ⟨{ sk with FailCount := 0 }, ?_, rfl⟩⟩
    simp [updateSession_lookup, hl]
  · simp only [h1, if_false]
    by_cases h2 : o.hasStoreID = true
    · simp only [h2, Bool.not_true, Bool.false_eq_true, if_false]
      by_cases h3 : o.connectErr = true
      · simp only [h3, if_true]
        exact recordFailedAttempt_outcome o.now _ id a sk c (by simpa using hl) hc
      · simp only [h3, if_false]
        by_cases h4 : o.connectedAfter = true
        · right
          simp only [h4, Bool.not_true, Bool.false_eq_true, if_false]
          refine ⟨trivial, Or.inr ⟨{ sk with FailCount := 0, Connected := true }, ?_, rfl⟩⟩
          simp [updateSession_lookup, hl]
        · have h4f : o.connectedAfter = false := by simpa using h4
          simp only [h4f, Bool.not_false, if_true]
          exact recordFailedAttempt_outcome o.now _ id a sk c (by simpa using hl) hc
    · right
      have h2f : o.hasStoreID = false := by simpa using h2
      simp only [h2f, Bool.not_false, Bool.false_eq_true, if_false, if_true]
      exact ⟨trivial, RemoveSession_settles _ id sk (by simpa using hl)⟩

theorem reconnectLoop_outcome (obs : Nat → AttemptObs) (id : String) (c : Client)
    (l : List Nat) (w : World) (sk : JadibotSession)
    (hl : w.jm.sessions.lookup id = some sk) (hc : sk.Client = some c)
    (hmax : maxRetries ∈ l) :
    (reconnectLoop obs id l w).2 = .done ∧ Settled (reconnectLoop obs id l w).1 id := by
  induction l generalizing w sk with
  | nil => simp at hmax
  | cons a t ih =>
    rcases reconnectAttempt_outcome (obs a) w id a sk c hl hc with
      ⟨h1, h2, sk1, h3, h4⟩ | ⟨h1, h2⟩
    · have hin : maxRetries ∈ t := by
        rcases List.mem_cons.1 hmax with h | h
        · exact absurd h.symm h2
        · exact h
      have hstep : reconnectLoop obs id (a :: t) w =
          reconnectLoop obs id t (reconnectAttempt (obs a) w id a).1 := by
        rw [reconnectLoop]
        generalize reconnectAttempt (obs a) w id a = r at h1
        obtain ⟨r1, r2⟩ := r
        simp only at h1
        subst h1
        rfl
      rw [hstep]
      exact ih _ sk1 h3 h4 hin
    · have hstep : reconnectLoop obs id (a :: t) w = reconnectAttempt (obs a) w id a := by
        rw [reconnectLoop]
        generalize reconnectAttempt (obs a) w id a = r at h1
        obtain ⟨r1, r2⟩ := r
        simp only at h1
        subst h1
        rfl
      rw [hstep]
      exact ⟨h1, h2⟩

theorem releaseReconnecting_settled (w : World) (id : String) (h : Settled w id) :
    Settled (releaseReconnecting w id) id := by
  rcases h with ⟨h1, h2⟩ | ⟨s, h1, h2⟩
  · rw [releaseReconnecting_of_removed w id h1]
    exact Or.inl ⟨h1, h2⟩
  · right
    refine ⟨{ s with Reconnecting := false }, ?_, h2⟩
    unfold releaseReconnecting
    simp [updateSession_lookup, h1]

/-- C30: a run of `reconnectSession(id)` that passes the entry guard (the session is
active and not already reconnecting), for a session that has a client and with
nothing else acting in between, ends its retry loop by a `return` and leaves `id`
either removed from the active map with its folder deleted, or active with
`FailCount = 0`; whatever the client answers during the attempts. -/
theorem c30_run_ends_removed_or_reset (obs : Nat → AttemptObs) (w : World) (id : String)
    (s : JadibotSession) (c : Client) (hs : w.jm.sessions.lookup id = some s)
    (hr : s.Reconnecting = false) (hc : s.Client = some c) :
    (reconnectProgress obs w id maxRetries).2 = .done ∧
    ((isActive (reconnectSession obs w id) id = false ∧
        (reconnectSession obs w id).fs.present (getJadibotFolder id) = false) ∨
      ∃ s1, (reconnectSession obs w id).jm.sessions.lookup id = some s1 ∧ s1.FailCount = 0) := by
  have hm : (markReconnecting w id).jm.sessions.lookup id =
      some { s with Reconnecting := true } := by
    unfold markReconnecting
    simp [updateSession_lookup, hs]
  obtain ⟨h1, h2⟩ := reconnectLoop_outcome obs id c (attemptsUpTo maxRetries)
    (markReconnecting w id) _ hm hc (by decide)
  refine ⟨h1, ?_⟩
  have h3 := releaseReconnecting_settled _ id h2
  have hrun : reconnectSession obs w id =
      releaseReconnecting (reconnectProgress obs w id maxRetries).1 id := by
    unfold reconnectSession
    simp [hs, hr]
  rw [hrun]
  rcases h3 with ⟨a, b⟩ | ⟨s1, a, b⟩
  · left
    refine ⟨?_, b⟩
    unfold isActive
    rw [show (releaseReconnecting (reconnectProgress obs w id maxRetries).1 id).jm.sessions.lookup id
      = none from a]
    rfl
  · exact Or.inr ⟨s1, a, b⟩

/-- C30, witness: the client of `samplePhone` fails twice and connects at the third
attempt. -/
theorem c30_witness :
    (activeWorld.jm.sessions.lookup samplePhone = some loadedSession ∧
      loadedSession.Reconnecting = false ∧ loadedSession.Client = some ⟨2⟩) ∧
    ((reconnectProgress thirdTimeLucky activeWorld samplePhone maxRetries).2 = .done ∧
    ((isActive (reconnectSession thirdTimeLucky activeWorld samplePhone) samplePhone = false ∧
        (reconnectSession thirdTimeLucky activeWorld samplePhone).fs.present
          (getJadibotFolder samplePhone) = false) ∨
      ∃ s1, (reconnectSession thirdTimeLucky activeWorld samplePhone).jm.sessions.lookup
        samplePhone = some s1 ∧ s1.FailCount = 0)) :=
  ⟨⟨by decide, rfl, rfl⟩,
    c30_run_ends_removed_or_reset thirdTimeLucky activeWorld samplePhone loadedSession ⟨2⟩
      (by decide) rfl rfl⟩

theorem thirdTimeLucky_run :
    (reconnectSession thirdTimeLucky activeWorld samplePhone).jm.sessions.lookup samplePhone =
      some { loadedSession with LastFailTime := 7 } ∧
    connectCalls (reconnectSession thirdTimeLucky activeWorld samplePhone).log samplePhone =
      connectCalls activeWorld.log samplePhone + 3 := by
  decide

/-! ## Outcomes of the loader -/

@[simp] theorem setSession_log (w : World) (id : String) (s : JadibotSession) :
    (w.setSession id s).log = w.log := rfl

theorem loadSession_fails (o : LoadObs) (w : World) (id : String) (h : o.fails = true) :
    (loadSession o w id).fs = w.fs.removeAll (getJadibotFolder id) ∧
    (loadSession o w id).jm = w.jm ∧
    (o.store ≠ .identity → (loadSession o w id).log.count (.connect id) = w.log.count (.connect id))
    := by
  unfold LoadObs.fails at h
  unfold loadSession
  cases hst : o.store with
  | openError => simp [deleteJadibotFiles, cleanupJadibotFiles]
  | deviceError => simp [deleteJadibotFiles, cleanupJadibotFiles]
  | noIdentity => simp [deleteJadibotFiles, cleanupJadibotFiles]
  | identity =>
    simp only [hst, ne_eq, not_true_eq_false, false_implies, and_true]
    by_cases hc : o.connectErr = true
    · simp [hc, deleteJadibotFiles, cleanupJadibotFiles]
    · have hc2 : o.connectErr = false := by simpa using hc
      have h2 : (!o.hasStoreID || !o.isConnected) = true := by
        rw [hst, hc2] at h
        simpa using h
      simp only [hc2, Bool.false_eq_true, if_false, h2, if_true]
      simp [deleteJadibotFiles, cleanupJadibotFiles]

theorem loadSession_succeeds (o : LoadObs) (w : World) (id : String) (h : o.fails = false) :
    (loadSession o w id).jm.sessions.lookup id = some (loadedSessionOf o id) ∧
    (loadSession o w id).jm.pending = w.jm.pending ∧
    (loadSession o w id).fs = w.fs := by
  unfold LoadObs.fails at h
  simp only [Bool.or_eq_false_iff, bne_eq_false_iff_eq, Bool.not_eq_false'] at h
  obtain ⟨⟨⟨h1, h2⟩, h3⟩, h4⟩ := h
  unfold loadSession
  simp only [h1, h2, h3, h4, Bool.false_eq_true, if_false, Bool.not_true, Bool.or_self]
  refine ⟨?_, rfl, rfl⟩
  simp [setSession_lookup, loadedSessionOf]

theorem loadSession_other (o : LoadObs) (w : World) (id j : String) (h : j ≠ id)
    (hid : isFileName id = true) (hj : isFileName j = true) :
    (loadSession o w j).jm.sessions.lookup id = w.jm.sessions.lookup id ∧
    (loadSession o w j).fs.present (getJadibotFolder id) = w.fs.present (getJadibotFolder id) ∧
    (loadSession o w j).log.count (.connect id) = w.log.count (.connect id) := by
  have hp : (getJadibotFolder id).isPrefixOf (getJadibotFolder id) = true :=
    List.isPrefixOf_iff_prefix.2 (List.prefix_refl _)
  have hrm := present_removeAll_other w.fs id j (getJadibotFolder id) h hid hj hp
  have hne : Effect.connect j ≠ Effect.connect id := by
    intro he
    injection he with he
    exact h he
  have hne2 : ¬ (id = j) := fun he => h he.symm
  unfold loadSession
  cases hst : o.store with
  | openError => simpa [deleteJadibotFiles, cleanupJadibotFiles] using hrm
  | deviceError => simpa [deleteJadibotFiles, cleanupJadibotFiles] using hrm
  | noIdentity => simpa [deleteJadibotFiles, cleanupJadibotFiles] using hrm
  | identity =>
    simp only
    by_cases hc : o.connectErr = true
    · simpa [hc, deleteJadibotFiles, cleanupJadibotFiles, hne, hne2] using hrm
    · have hc2 : o.connectErr = false := by simpa using hc
      simp only [hc2, Bool.false_eq_true, if_false]
      by_cases h2 : (!o.hasStoreID || !o.isConnected) = true
      · simp only [h2, if_true]
        simpa [deleteJadibotFiles, cleanupJadibotFiles, hne, hne2] using hrm
      · simp only [h2, if_false]
        simp [setSession_lookup, hne2, hne, h]

theorem loadLoop_other (obs : String → LoadObs) (id : String) (l : List DirEntry) (w : World)
    (hid : isFileName id = true) (hl : ∀ f ∈ l, isFileName f.name = true)
    (h : ∀ f ∈ l, f.name ≠ id) :
    (l.foldl (fun w1 f => loadSession (obs f.name) w1 f.name) w).jm.sessions.lookup id =
      w.jm.sessions.lookup id ∧
    (l.foldl (fun w1 f => loadSession (obs f.name) w1 f.name) w).fs.present (getJadibotFolder id) =
      w.fs.present (getJadibotFolder id) ∧
    (l.foldl (fun w1 f => loadSession (obs f.name) w1 f.name) w).log.count (.connect id) =
      w.log.count (.connect id) := by
  induction l generalizing w with
  | nil => exact ⟨rfl, rfl, rfl⟩
  | cons f t ih =>
    simp only [List.foldl_cons]
    obtain ⟨a, b, c⟩ := loadSession_other (obs f.name) w id f.name (h f (List.mem_cons_self _ _))
      hid (hl f (List.mem_cons_self _ _))
    obtain ⟨a1, b1, c1⟩ := ih (loadSession (obs f.name) w f.name)
      (fun g hg => hl g (List.mem_cons_of_mem _ hg))
      (fun g hg => h g (List.mem_cons_of_mem _ hg))
    exact ⟨a1.trans a, b1.trans b, c1.trans c⟩

theorem loadLoop_outcome (obs : String → LoadObs) (id : String) (l : List DirEntry) (w : World)
    (hid : isFileName id = true) (hl : ∀ f ∈ l, isFileName f.name = true)
    (h : ∃ f ∈ l, f.name = id) :
    ((obs id).fails = true →
      (l.foldl (fun w1 f => loadSession (obs f.name) w1 f.name) w).fs.present
        (getJadibotFolder id) = false ∧
      (l.foldl (fun w1 f => loadSession (obs f.name) w1 f.name) w).jm.sessions.lookup id =
        w.jm.sessions.lookup id ∧
      ((obs id).store ≠ .identity →
        (l.foldl (fun w1 f => loadSession (obs f.name) w1 f.name) w).log.count (.connect id) =
          w.log.count (.connect id))) ∧
    ((obs id).fails = false →
      (l.foldl (fun w1 f => loadSession (obs f.name) w1 f.name) w).jm.sessions.lookup id =
        some (loadedSessionOf (obs id) id) ∧
      (l.foldl (fun w1 f => loadSession (obs f.name) w1 f.name) w).fs.present
        (getJadibotFolder id) = w.fs.present (getJadibotFolder id)) := by
  induction l generalizing w with
  | nil => obtain ⟨f, hf, _⟩ := h; simp at hf
  | cons f t ih =>
    simp only [List.foldl_cons]
    by_cases hrest : ∃ g ∈ t, g.name = id
    · obtain ⟨ih1, ih2⟩ := ih (loadSession (obs f.name) w f.name)
        (fun g hg => hl g (List.mem_cons_of_mem _ hg)) hrest
      by_cases hf : f.name = id
      · rw [hf] at ih1 ih2 ⊢
        constructor
        · intro hfail
          obtain ⟨a, b, c⟩ := ih1 hfail
          obtain ⟨x, y, z⟩ := loadSession_fails (obs id) w id hfail
          exact ⟨a, by rw [b, y], fun hs => (c hs).trans (z hs)⟩
        · intro hok
          obtain ⟨a, b⟩ := ih2 hok
          obtain ⟨_, _, z⟩ := loadSession_succeeds (obs id) w id hok
          exact ⟨a, by rw [b, z]⟩
      · obtain ⟨x, y, z⟩ := loadSession_other (obs f.name) w id f.name hf hid
          (hl f (List.mem_cons_self _ _))
        constructor
        · intro hfail
          obtain ⟨a, b, c⟩ := ih1 hfail
          exact ⟨a, b.trans x, fun hs => (c hs).trans z⟩
        · intro hok
          obtain ⟨a, b⟩ := ih2 hok
          exact ⟨a, b.trans y⟩
    · have hf : f.name = id := by
        obtain ⟨g, hg, hn⟩ := h
        rcases List.mem_cons.1 hg with he | he
        · rw [← he]; exact hn
        · exact absurd ⟨g, he, hn⟩ hrest
      have hnone : ∀ g ∈ t, g.name ≠ id := fun g hg hn => hrest ⟨g, hg, hn⟩
      rw [hf]
      obtain ⟨a, b, c⟩ := loadLoop_other obs id t (loadSession (obs id) w id) hid
        (fun g hg => hl g (List.mem_cons_of_mem _ hg)) hnone
      constructor
      · intro hfail
        obtain ⟨x, y, z⟩ := loadSession_fails (obs id) w id hfail
        refine ⟨?_, by rw [a, y], fun hs => c.trans (z hs)⟩
        rw [b, x]
        exact present_removeAll_self _ _
      · intro hok
        obtain ⟨x, _, z⟩ := loadSession_succeeds (obs id) w id hok
        exact ⟨a.trans x, by rw [b, z]⟩

theorem readDir_mem_present (fs : FileSys) (d : Path) (files : List DirEntry) (f : DirEntry)
    (h : fs.readDir d = some files) (hf : f ∈ files) :
    isFileName f.name = true ∧ fs.present (d ++ [f.name]) = true := by
  unfold FileSys.readDir at h
  split at h
  · injection h with h
    rw [← h, List.mem_filterMap] at hf
    obtain ⟨n, hn, hc⟩ := hf
    cases hch : childName d n.path with
    | none => rw [hch] at hc; simp at hc
    | some name =>
      rw [hch] at hc
      simp only [Option.some_bind] at hc
      by_cases hname : isFileName name = true
      · rw [if_pos hname] at hc
        injection hc with hc
        have hfn : f.name = name := by rw [← hc]
        refine ⟨by rw [hfn]; exact hname, ?_⟩
        unfold childName at hch
        split at hch
        · rename_i htake
          split at hch
          · rename_i nm hdrop
            injection hch with hch
            have hpath : n.path = d ++ [f.name] := by
              rw [← List.take_append_drop d.length n.path, hdrop]
              have : n.path.take d.length = d := by simpa using htake
              rw [this, hfn, ← hch]
            unfold FileSys.present
            rw [List.any_eq_true]
            exact ⟨n, hn, by simp [hpath]⟩
          · cases hch
        · cases hch
      · rw [if_neg hname] at hc
        cases hc
  · cases h

/-- C23: for every directory `id` that `LoadExistingSessions` finds in the jadibot
folder, exactly one of two things has happened when the loader returns.  If a step of
loading `id` failed (the store cannot be opened or read, it holds no identity,
`Connect` fails, or after the 500 ms wait the client is not connected with an
identity), the folder of `id` is gone and the active map holds under `id` what it held
before; when the failure is that no identity was found, no `Connect` call was made for
`id`.  Otherwise the active map holds under `id` a session with `Connected = true`
and the folder of `id` is still on disk. -/
theorem c23_loader_outcomes (obs : String → LoadObs) (w : World) (files : List DirEntry)
    (id : String) (hdir : w.fs.readDir JadibotFolder = some files)
    (hin : (⟨id, true⟩ : DirEntry) ∈ files) :
    ((obs id).fails = true →
      (LoadExistingSessions obs w).fs.present (getJadibotFolder id) = false ∧
      (LoadExistingSessions obs w).jm.sessions.lookup id = w.jm.sessions.lookup id ∧
      ((obs id).store ≠ .identity →
        connectCalls (LoadExistingSessions obs w).log id = connectCalls w.log id)) ∧
    ((obs id).fails = false →
      (LoadExistingSessions obs w).jm.sessions.lookup id = some (loadedSessionOf (obs id) id) ∧
      (loadedSessionOf (obs id) id).Connected = true ∧
      (LoadExistingSessions obs w).fs.present (getJadibotFolder id) = true) := by
  obtain ⟨hid, hpres0⟩ := readDir_mem_present w.fs JadibotFolder files ⟨id, true⟩ hdir hin
  have hpres : w.fs.present (getJadibotFolder id) = true := by
    rw [getJadibotFolder_of_fileName id hid]
    exact hpres0
  have hex : ∃ f ∈ files.filter (fun f => f.isDir), f.name = id :=
    ⟨⟨id, true⟩, List.mem_filter.2 ⟨hin, rfl⟩, rfl⟩
  have hall : ∀ f ∈ files.filter (fun f => f.isDir), isFileName f.name = true :=
    fun f hf => (readDir_mem_present w.fs JadibotFolder files f hdir (List.mem_filter.1 hf).1).1
  obtain ⟨h1, h2⟩ := loadLoop_outcome obs id (files.filter (fun f => f.isDir)) w hid hall hex
  unfold LoadExistingSessions
  simp only [hdir, emit_fs, emit_jm, emit_log]
  constructor
  · intro hfail
    obtain ⟨a, b, c⟩ := h1 hfail
    refine ⟨a, b, fun hs => ?_⟩
    have := c hs
    unfold connectCalls
    rw [List.count_cons_of_ne (by intro he; cases he)]
    exact this
  · intro hok
    obtain ⟨a, b⟩ := h2 hok
    exact ⟨a, rfl, b.trans hpres⟩

/-- C23, witness: after a restart the loader finds the folder of `samplePhone`; its
store holds no identity. -/
theorem c23_witness :
    (restartWorld.fs.readDir JadibotFolder = some [⟨samplePhone, true⟩] ∧
      (⟨samplePhone, true⟩ : DirEntry) ∈ [(⟨samplePhone, true⟩ : DirEntry)]) ∧
    ((noIdentityLoad.fails = true →
      (LoadExistingSessions (fun _ => noIdentityLoad) restartWorld).fs.present
        (getJadibotFolder samplePhone) = false ∧
      (LoadExistingSessions (fun _ => noIdentityLoad) restartWorld).jm.sessions.lookup samplePhone
        = restartWorld.jm.sessions.lookup samplePhone ∧
      (noIdentityLoad.store ≠ .identity →
        connectCalls (LoadExistingSessions (fun _ => noIdentityLoad) restartWorld).log samplePhone
          = connectCalls restartWorld.log samplePhone)) ∧
    (noIdentityLoad.fails = false →
      (LoadExistingSessions (fun _ => noIdentityLoad) restartWorld).jm.sessions.lookup samplePhone
        = some (loadedSessionOf noIdentityLoad samplePhone) ∧
      (loadedSessionOf noIdentityLoad samplePhone).Connected = true ∧
      (LoadExistingSessions (fun _ => noIdentityLoad) restartWorld).fs.present
        (getJadibotFolder samplePhone) = true)) :=
  ⟨⟨by decide, by decide⟩,
    c23_loader_outcomes (fun _ => noIdentityLoad) restartWorld [⟨samplePhone, true⟩] samplePhone
      (by decide) (by decide)⟩

theorem loader_samples :
    noIdentityLoad.fails = true ∧
    isActive (LoadExistingSessions (fun _ => noIdentityLoad) restartWorld) samplePhone = false ∧
    (LoadExistingSessions (fun _ => noIdentityLoad) restartWorld).fs.present
      (getJadibotFolder samplePhone) = false ∧
    okLoad.fails = false ∧
    activeWorld.jm.sessions.lookup samplePhone = some (loadedSessionOf okLoad samplePhone) ∧
    activeWorld.fs.present (getJadibotFolder samplePhone) = true := by
  decide

/-! ## Metadata round trip -/

theorem load_metadataRecord (id : String) (a b : Int) (now : Time)
    (ha : -(2 ^ 63) ≤ a ∧ a < 2 ^ 63) :
    loadJadibotMetadata (.object (metadataRecord id a b)) now = timeUnix a := by
  unfold loadJadibotMetadata unmarshalInt64Map metadataRecord
  simp only [List.foldl_cons, List.foldl_nil]
  rw [AList.lookup_insert]
  simp only [int64OfJson]
  rw [if_pos ha]

/-- C27: when `saveJadibotMetadata(id, t)` succeeds (the folder of `id` exists), the
call writes the metadata file with a record that holds the string-valued
`phoneNumber` next to the two numbers; and `loadJadibotMetadata`, reading that record
back, returns `time.Unix(t.Unix(), 0)`, the start time cut down to whole seconds,
whatever the clock reads at either call. -/
theorem c27_metadata_round_trip (now later : Time) (w : World) (id : String) (t : Time)
    (hdir : w.fs.isDirectory (getJadibotFolder id) = true)
    (hfit : -(2 ^ 63) ≤ unixSeconds t ∧ unixSeconds t < 2 ^ 63) :
    (saveJadibotMetadata now w id t).fs.present (getJadibotMetadataPath id) = true ∧
    ∃ o, (saveJadibotMetadata now w id t).log.head?.bind Effect.payload = some o ∧
      ("phoneNumber", JsonValue.str id) ∈ o ∧
      loadJadibotMetadata (.object o) later = timeUnix (unixSeconds t) ∧
      timeUnix (unixSeconds t) ≤ t ∧ t < timeUnix (unixSeconds t) + second := by
  have hlog : (saveJadibotMetadata now w id t).log =
      .writeMetadata id (unixSeconds t) (unixSeconds now) :: w.log := by
    unfold saveJadibotMetadata
    dsimp only
    split <;> rfl
  refine ⟨?_, metadataRecord id (unixSeconds t) (unixSeconds now), ?_, ?_, ?_, ?_, ?_⟩
  · unfold saveJadibotMetadata
    simp only [emit_fs, hdir, if_true]
    unfold FileSys.touch
    by_cases hp : w.fs.present (getJadibotMetadataPath id) = true
    · simp only [hp, if_true]
    · simp only [hp]
      simp [FileSys.present]
  · rw [hlog]; rfl
  · simp [metadataRecord]
  · exact load_metadataRecord id _ _ later hfit
  · unfold timeUnix unixSeconds
    have hs : (0 : Int) < second := by decide
    rw [Int.fdiv_eq_ediv t (le_of_lt hs)]
    exact Int.ediv_mul_le t (ne_of_gt hs)
  · unfold timeUnix unixSeconds
    have hs : (0 : Int) < second := by decide
    rw [Int.fdiv_eq_ediv t (le_of_lt hs)]
    have := Int.lt_ediv_add_one_mul_self t hs
    linarith

/-- C27, witness: the metadata of `samplePhone` is saved while it is being paired. -/
theorem c27_witness :
    (pairingStartedWorld.fs.isDirectory (getJadibotFolder samplePhone) = true ∧
      (-(2 ^ 63) ≤ unixSeconds sampleStart ∧ unixSeconds sampleStart < 2 ^ 63)) ∧
    ((saveJadibotMetadata 0 pairingStartedWorld samplePhone sampleStart).fs.present
        (getJadibotMetadataPath samplePhone) = true ∧
    ∃ o, (saveJadibotMetadata 0 pairingStartedWorld samplePhone sampleStart).log.head?.bind
        Effect.payload = some o ∧
      ("phoneNumber", JsonValue.str samplePhone) ∈ o ∧
      loadJadibotMetadata (.object o) 1 = timeUnix (unixSeconds sampleStart) ∧
      timeUnix (unixSeconds sampleStart) ≤ sampleStart ∧
      sampleStart < timeUnix (unixSeconds sampleStart) + second) :=
  ⟨⟨by decide, by decide⟩,
    c27_metadata_round_trip 0 1 pairingStartedWorld samplePhone sampleStart (by decide)
      (by decide)⟩

theorem metadata_samples :
    loadJadibotMetadata (.object (metadataRecord samplePhone (unixSeconds sampleStart) 5)) 1 =
      1700000000 * second ∧
    loadJadibotMetadata .unreadable 1 = 1 ∧
    loadJadibotMetadata (.object [("phoneNumber", .str samplePhone)]) 1 = 1 := by
  decide

/-! ## Command parser -/

theorem fieldsFrom_words (s cur : List Char) (hcur : ∀ c ∈ cur, isSpace c = false) :
    ∀ w ∈ fieldsFrom s cur, w ≠ [] ∧ ∀ c ∈ w, isSpace c = false := by
  induction s generalizing cur with
  | nil =>
    intro w hw
    unfold fieldsFrom at hw
    cases cur with
    | nil => simp at hw
    | cons a t =>
      simp only [List.isEmpty_cons, Bool.false_eq_true, if_false, List.mem_singleton] at hw
      subst hw
      refine ⟨by simp, fun c hc => hcur c (List.mem_reverse.1 hc)⟩
  | cons a t ih =>
    intro w hw
    unfold fieldsFrom at hw
    by_cases ha : isSpace a = true
    · simp only [ha, if_true] at hw
      cases cur with
      | nil =>
        simp only [List.isEmpty_nil, if_true] at hw
        exact ih [] (by simp) w hw
      | cons b u =>
        simp only [List.isEmpty_cons, Bool.false_eq_true, if_false, List.mem_cons] at hw
        rcases hw with hw | hw
        · subst hw
          refine ⟨by simp, fun c hc => hcur c (List.mem_reverse.1 hc)⟩
        · exact ih [] (by simp) w hw
    · simp only [ha, if_false] at hw
      apply ih (a :: cur) _ w hw
      intro c hc
      rcases List.mem_cons.1 hc with h | h
      · rw [h]; simpa using ha
      · exact hcur c h

theorem fieldsFrom_eq_nil (s cur : List Char) :
    fieldsFrom s cur = [] ↔ cur = [] ∧ s.all isSpace = true := by
  induction s generalizing cur with
  | nil =>
    unfold fieldsFrom
    cases cur <;> simp
  | cons a t ih =>
    unfold fieldsFrom
    by_cases ha : isSpace a = true
    · cases cur with
      | nil => simp [ha, ih]
      | cons b u => simp [ha]
    · have := ih (a :: cur)
      simp [ha, this]

theorem Fields_eq_nil (s : List Char) : Fields s = [] ↔ s.all isSpace = true := by
  unfold Fields
  rw [fieldsFrom_eq_nil]
  simp

theorem Fields_words (s : List Char) :
    ∀ w ∈ Fields s, w ≠ [] ∧ ∀ c ∈ w, isSpace c = false :=
  fieldsFrom_words s [] (by simp)

theorem Join_head (ws : List (List Char)) (sep : List Char) (hne : ws ≠ [])
    (hw : ∀ w ∈ ws, w ≠ [] ∧ ∀ c ∈ w, isSpace c = false) :
    ∃ c l, Join ws sep = c :: l ∧ isSpace c = false := by
  cases ws with
  | nil => exact absurd rfl hne
  | cons a t =>
    obtain ⟨ha, hc⟩ := hw a (List.mem_cons_self _ _)
    cases a with
    | nil => exact absurd rfl ha
    | cons c l =>
      cases t with
      | nil => exact ⟨c, l, rfl, hc c (List.mem_cons_self _ _)⟩
      | cons b u => exact ⟨c, _, rfl, hc c (List.mem_cons_self _ _)⟩

theorem Join_last (ws : List (List Char)) (sep : List Char) (hne : ws ≠ [])
    (hw : ∀ w ∈ ws, w ≠ [] ∧ ∀ c ∈ w, isSpace c = false) :
    ∃ l c, Join ws sep = l ++ [c] ∧ isSpace c = false := by
  induction ws with
  | nil => exact absurd rfl hne
  | cons a t ih =>
    cases t with
    | nil =>
      obtain ⟨ha, hc⟩ := hw a (List.mem_cons_self _ _)
      refine ⟨a.dropLast, a.getLast ha, ?_, hc _ (List.getLast_mem ha)⟩
      show a = _
      exact (List.dropLast_append_getLast ha).symm
    | cons b u =>
      obtain ⟨l, c, h1, h2⟩ := ih (by simp) (fun w hw1 => hw w (List.mem_cons_of_mem _ hw1))
      refine ⟨a ++ sep ++ l, c, ?_, h2⟩
      show a ++ sep ++ Join (b :: u) sep = _
      rw [h1, List.append_assoc (a ++ sep)]

theorem TrimSpace_of_tidy (s l1 l2 : List Char) (c d : Char) (h1 : s = c :: l1)
    (hc : isSpace c = false) (h2 : s = l2 ++ [d]) (hd : isSpace d = false) :
    TrimSpace s = s := by
  unfold TrimSpace
  have e1 : s.dropWhile isSpace = s := by
    rw [h1]
    exact List.dropWhile_cons_of_neg (by simp [hc])
  rw [e1]
  have e2 : s.reverse = d :: l2.reverse := by rw [h2]; simp
  rw [e2, List.dropWhile_cons_of_neg (by simp [hd]), ← e2, List.reverse_reverse]

theorem argsOf_words (more : List (List Char))
    (hw : ∀ w ∈ more, w ≠ [] ∧ ∀ c ∈ w, isSpace c = false) :
    argsOf more = String.mk (Join more " ".data) := by
  unfold argsOf
  cases more with
  | nil => rfl
  | cons a t =>
    simp only [List.length_cons, gt_iff_lt, Nat.zero_lt_succ, if_true]
    obtain ⟨c, l1, h1, hc⟩ := Join_head (a :: t) " ".data (by simp) hw
    obtain ⟨l2, d, h2, hd⟩ := Join_last (a :: t) " ".data (by simp) hw
    rw [TrimSpace_of_tidy _ l1 l2 c d h1 hc h2 hd]

theorem TrimSpace_of_blank (s : List Char) (h : s.all isSpace = true) : TrimSpace s = [] := by
  unfold TrimSpace
  have : s.dropWhile isSpace = [] := by
    rw [List.dropWhile_eq_nil_iff]
    intro x hx
    exact List.all_eq_true.1 h x hx
  rw [this]
  rfl

theorem parsePrefixed_of_mem (toLower : Char → Char) (pre : String) (rest : List Char)
    (hpre : pre ∈ CommandPrefixes) :
    parsePrefixed toLower (pre.data ++ rest) CommandPrefixes =
      match Fields rest with
      | [] => some ("", "", false)
      | first :: more => some (String.mk (ToLower toLower first), argsOf more, true) := by
  have d1 : ".".data = [Char.ofNat 46] := rfl
  have d2 : "!".data = [Char.ofNat 33] := rfl
  have d3 : "-".data = [Char.ofNat 45] := rfl
  have d4 : "/".data = [Char.ofNat 47] := rfl
  have n1 : ¬ (Char.ofNat 46 = Char.ofNat 33) := by decide
  have n2 : ¬ (Char.ofNat 46 = Char.ofNat 45) := by decide
  have n3 : ¬ (Char.ofNat 46 = Char.ofNat 47) := by decide
  have n4 : ¬ (Char.ofNat 33 = Char.ofNat 45) := by decide
  have n5 : ¬ (Char.ofNat 33 = Char.ofNat 47) := by decide
  have n6 : ¬ (Char.ofNat 45 = Char.ofNat 47) := by decide
  simp only [CommandPrefixes, List.mem_cons, List.mem_singleton, List.not_mem_nil, or_false]
    at hpre
  rcases hpre with h | h | h | h <;> subst h <;>
    simp [parsePrefixed, CommandPrefixes, HasPrefix, TrimPrefix, d1, d2, d3, d4, n1, n2, n3, n4,
      n5, n6, Ne.symm n1, Ne.symm n2, Ne.symm n3, Ne.symm n4, Ne.symm n5, Ne.symm n6]

/-- C26: `ParseCommand` on a text that is empty or all white space returns
`("", "", false)`.  On a text whose trimmed form is one of the prefixes `.`, `!`, `-`,
`/` followed by `rest`, it returns `("", "", false)` when `rest` is all white space;
otherwise `rest` has a first whitespace-separated word and the result is that word in
lower case, the remaining words joined by single spaces, and `true`. -/
theorem c26_parseCommand_prefixed (toLower : Char → Char) (text : String) :
    (text.data.all isSpace = true → ParseCommand toLower text = ("", "", false)) ∧
    (∀ pre ∈ CommandPrefixes, ∀ rest, TrimSpace text.data = pre.data ++ rest →
      (rest.all isSpace = true → ParseCommand toLower text = ("", "", false)) ∧
      (rest.all isSpace = false →
        ∃ word words, Fields rest = word :: words ∧
          ParseCommand toLower text =
            (String.mk (word.map toLower), String.mk (Join words " ".data), true))) := by
  constructor
  · intro h
    unfold ParseCommand
    simp [TrimSpace_of_blank _ h]
  · intro pre hpre rest ht
    have hne : (pre.data ++ rest).isEmpty = false := by
      simp only [CommandPrefixes, List.mem_cons, List.mem_singleton, List.not_mem_nil, or_false]
        at hpre
      rcases hpre with h | h | h | h <;> subst h <;> rfl
    have hp := parsePrefixed_of_mem toLower pre rest hpre
    constructor
    · intro hblank
      have hf := (Fields_eq_nil rest).2 hblank
      rw [hf] at hp
      unfold ParseCommand
      simp only [ht, hne, Bool.false_eq_true, if_false, hp]
    · intro hnb
      cases hf : Fields rest with
      | nil =>
        rw [(Fields_eq_nil rest).1 hf] at hnb
        cases hnb
      | cons word words =>
        refine ⟨word, words, rfl, ?_⟩
        rw [hf] at hp
        have hw : ∀ w ∈ words, w ≠ [] ∧ ∀ c ∈ w, isSpace c = false := by
          intro w hw1
          apply Fields_words rest
          rw [hf]
          exact List.mem_cons_of_mem _ hw1
        unfold ParseCommand
        simp only [ht, hne, Bool.false_eq_true, if_false, hp, argsOf_words words hw, ToLower]

/-- C26, witness: a command with a prefix, upper-case letters and irregular spacing. -/
theorem c26_witness :
    ∃ word words, Fields "JadiBot   6281234567890  now".data = word :: words ∧
      ParseCommand asciiToLower "  .JadiBot   6281234567890  now " =
        (String.mk (word.map asciiToLower), String.mk (Join words " ".data), true) :=
  ((c26_parseCommand_prefixed asciiToLower "  .JadiBot   6281234567890  now ").2 "."
    (by decide) "JadiBot   6281234567890  now".data (by decide)).2 (by decide)

theorem parse_samples :
    ParseCommand asciiToLower "  .JadiBot   6281234567890  now " =
      ("jadibot", "6281234567890 now", true) ∧
    ParseCommand asciiToLower " !  " = ("", "", false) ∧
    ParseCommand asciiToLower "   " = ("", "", false) ∧
    ParseCommand asciiToLower "Menu" = ("menu", "", true) ∧
    ParseCommand asciiToLower "hello there" = ("", "", false) := by
  decide

/-! ## The `jadibot` command -/

theorem handle_samples :
    (HandleJadibotCommand okCreate initialWorld (some ⟨0⟩) "o" " +62 812-3456-7890 ").1.pairedNumber
      = some "6281234567890" ∧
    (HandleJadibotCommand okCreate initialWorld (some ⟨0⟩) "o" "0812 3456 7890").1.pairedNumber
      = some "6281234567890" ∧
    (HandleJadibotCommand okCreate initialWorld (some ⟨0⟩) "o" "62812345").1.pairedNumber = none ∧
    (HandleJadibotCommand okCreate initialWorld (some ⟨0⟩) "o" "6284123456789").1.pairedNumber
      = none ∧
    (HandleJadibotCommand okCreate initialWorld (some ⟨0⟩) "o" "").1.pairedNumber = none := by
  decide

/-- What the guards of `HandleJadibotCommand` do establish about the number handed to
`CreatePairingSession`: its length in bytes is between 10 and 15 and it starts with one
of the accepted prefixes. -/
theorem paired_number_shape (obs : CreateObs) (w : World) (client : Option Client)
    (chat args n : String)
    (h : (HandleJadibotCommand obs w client chat args).1.pairedNumber = some n) :
    10 ≤ len n.data ∧ len n.data ≤ 15 ∧
    (∃ pre ∈ phonePrefixes, HasPrefix n.data pre.data = true) ∧
    (HandleJadibotCommand obs w client chat args).2 =
      (CreatePairingSession obs w n chat client).2 := by
  unfold HandleJadibotCommand at h ⊢
  by_cases h0 : args = ""
  · simp [h0, CommandReply.pairedNumber] at h
  · simp only [h0, if_false] at h ⊢
    generalize normalisedNumber args = pn at h ⊢
    by_cases hpre : (phonePrefixes.all fun pre => !HasPrefix pn pre.data) = true
    · simp [hpre, CommandReply.pairedNumber] at h
    · by_cases hlen : (decide (len pn < 10) || decide (len pn > 15)) = true
      · simp [hpre, hlen, CommandReply.pairedNumber] at h
      · by_cases hex : IsSessionExists w (String.mk pn) = true
        · simp [hpre, hlen, hex, CommandReply.pairedNumber] at h
        · simp only [hpre, hlen, hex, if_false, Bool.false_eq_true, CommandReply.pairedNumber,
            Option.some.injEq] at h ⊢
          subst h
          simp only [Bool.or_eq_true, decide_eq_true_eq, not_or, not_lt] at hlen
          refine ⟨hlen.1, hlen.2, ?_, rfl⟩
          simp only [List.all_eq_true, Bool.not_eq_true', not_forall] at hpre
          obtain ⟨pre, hin, hp⟩ := hpre
          exact ⟨pre, hin, by simpa using hp⟩

/-- The guards let a number with path components through: for `6281/../..` the folder
is `Wilykun`, and when `Connect` then fails the handler's clean-up removes `Wilykun`
with everything below it. -/
theorem handler_accepts_climbing_number :
    getJadibotFolder "6281/../.." = ["Wilykun"] ∧
    (HandleJadibotCommand connectFailsCreate initialWorld (some ⟨0⟩) "owner"
      "6281/../..").1.pairedNumber = some "6281/../.." ∧
    initialWorld.fs.present JadibotFolder = true ∧
    (HandleJadibotCommand connectFailsCreate initialWorld (some ⟨0⟩) "owner"
      "6281/../..").2.fs.present JadibotFolder = false := by
  decide

/-- C28: `HandleJadibotCommand` hands to `CreatePairingSession` numbers that are not
made of decimal digits.  The argument `6281abcdefgh` passes the prefix test and the
length test, so the handler starts a pairing for it and creates its folder.  The
length test counts bytes: `6281ééé` has seven characters in ten bytes and is accepted
as well. -/
theorem c28_non_digit_number_is_paired :
    (HandleJadibotCommand okCreate initialWorld (some ⟨0⟩) "owner" "6281abcdefgh").1.pairedNumber
      = some "6281abcdefgh" ∧
    "6281abcdefgh".data.all isDecimalDigit = false ∧
    isPending (HandleJadibotCommand okCreate initialWorld (some ⟨0⟩) "owner" "6281abcdefgh").2
      "6281abcdefgh" = true ∧
    (HandleJadibotCommand okCreate initialWorld (some ⟨0⟩) "owner" "6281abcdefgh").2.fs.isDirectory
      (getJadibotFolder "6281abcdefgh") = true ∧
    (HandleJadibotCommand okCreate initialWorld (some ⟨0⟩) "owner" "6281ééé").1.pairedNumber
      = some "6281ééé" ∧
    "6281ééé".data.length = 7 := by
  decide

/-! ## The Connected field follows the map -/

theorem lookup_insert_some (m : SessionMap) (k id : String) (v s : JadibotSession)
    (h : (m.insert k v).lookup id = some s) : (id = k ∧ s = v) ∨ m.lookup id = some s := by
  by_cases hk : id = k
  · subst hk
    rw [AList.lookup_insert] at h
    injection h with h
    exact Or.inl ⟨rfl, h.symm⟩
  · rw [AList.lookup_insert_ne hk] at h
    exact Or.inr h

theorem lookup_erase_some (m : SessionMap) (k id : String) (s : JadibotSession)
    (h : (m.erase k).lookup id = some s) : m.lookup id = some s := by
  by_cases hk : id = k
  · subst hk
    rw [AList.lookup_erase] at h
    cases h
  · rw [AList.lookup_erase_ne hk] at h
    exact h

theorem inv_of_maps (w w1 : World) (hs : w1.jm.sessions = w.jm.sessions)
    (hp : w1.jm.pending = w.jm.pending) (h : ConnectedByMap w) : ConnectedByMap w1 := by
  unfold ConnectedByMap at *
  rw [hs, hp]
  exact h

theorem inv_emit (w : World) (e : Effect) (h : ConnectedByMap w) : ConnectedByMap (w.emit e) :=
  inv_of_maps w _ rfl rfl h

theorem inv_setSession (w : World) (id : String) (s : JadibotSession) (hc : s.Connected = true)
    (h : ConnectedByMap w) : ConnectedByMap (w.setSession id s) := by
  refine ⟨h.1, ?_⟩
  intro j t ht
  rcases lookup_insert_some _ _ _ _ _ ht with ⟨_, h2⟩ | h2
  · rw [h2]; exact hc
  · exact h.2 j t h2

theorem inv_setPending (w : World) (id : String) (s : JadibotSession) (hc : s.Connected = false)
    (h : ConnectedByMap w) : ConnectedByMap (w.setPending id s) := by
  refine ⟨?_, h.2⟩
  intro j t ht
  rcases lookup_insert_some _ _ _ _ _ ht with ⟨_, h2⟩ | h2
  · rw [h2]; exact hc
  · exact h.1 j t h2

theorem inv_deleteSession (w : World) (id : String) (h : ConnectedByMap w) :
    ConnectedByMap (w.deleteSession id) :=
  ⟨h.1, fun j t ht => h.2 j t (lookup_erase_some _ _ _ _ ht)⟩

theorem inv_deletePending (w : World) (id : String) (h : ConnectedByMap w) :
    ConnectedByMap (w.deletePending id) :=
  ⟨fun j t ht => h.1 j t (lookup_erase_some _ _ _ _ ht), h.2⟩

theorem inv_updateSession (w : World) (id : String) (f : JadibotSession → JadibotSession)
    (hf : ∀ s, s.Connected = true → (f s).Connected = true) (h : ConnectedByMap w) :
    ConnectedByMap (w.updateSession id f) := by
  unfold World.updateSession
  cases hl : w.jm.sessions.lookup id with
  | none => exact h
  | some s => exact inv_setSession w id (f s) (hf s (h.2 id s hl)) h

theorem inv_RemoveSession (w : World) (id : String) (h : ConnectedByMap w) :
    ConnectedByMap (RemoveSession w id).2 := by
  cases hs : w.jm.sessions.lookup id with
  | some s =>
    obtain ⟨_, h2, h3, _, _⟩ := RemoveSession_of_active w id s hs
    refine ⟨?_, ?_⟩
    · rw [h3]; exact h.1
    · rw [h2]; exact fun j t ht => h.2 j t (lookup_erase_some _ _ _ _ ht)
  | none =>
    cases hp : w.jm.pending.lookup id with
    | some s =>
      obtain ⟨_, h2, h3, _, _⟩ := RemoveSession_of_pending w id s hs hp
      refine ⟨?_, ?_⟩
      · rw [h3]; exact fun j t ht => h.1 j t (lookup_erase_some _ _ _ _ ht)
      · rw [h2]; exact h.2
    | none =>
      rw [RemoveSession_of_absent w id hs hp]; exact h

theorem inv_deleteJadibotFiles (w : World) (id : String) (h : ConnectedByMap w) :
    ConnectedByMap (deleteJadibotFiles w id) :=
  inv_of_maps w _ rfl rfl h

theorem inv_closeIfOpen (w : World) (id : String) (c : Option Container)
    (h : ConnectedByMap w) : ConnectedByMap (closeIfOpen w id c) :=
  inv_of_maps w _ (by simp) (by simp) h

theorem inv_create (obs : CreateObs) (w : World) (id owner : String) (mc : Option Client)
    (h : ConnectedByMap w) : ConnectedByMap (CreatePairingSession obs w id owner mc).2 := by
  unfold CreatePairingSession
  split
  · exact h
  · split
    · exact h
    · split
      · exact h
      · rename_i fs1 _
        have h1 : ConnectedByMap ({ w with fs := fs1 } : World) := inv_of_maps w _ rfl rfl h
        dsimp only
        split
        · exact h1
        · have h3 := inv_setPending
            ({ w with fs := fs1.touch (getJadibotDBPath id) } : World) id
            { PhoneNumber := id, Client := some obs.client, Container := some obs.container
              Connected := false, StartTime := obs.now, OwnerChat := owner
              Reconnecting := false, FailCount := 0, LastFailTime := zeroTime } rfl
            (inv_of_maps w _ rfl rfl h)
          have h5 := inv_emit _ (.connect id) (inv_emit _ (.addEventHandler id)
            (inv_of_maps _ ({ (({ w with fs := fs1.touch (getJadibotDBPath id) } : World).setPending
              id { PhoneNumber := id, Client := some obs.client, Container := some obs.container
                   Connected := false, StartTime := obs.now, OwnerChat := owner
                   Reconnecting := false, FailCount := 0, LastFailTime := zeroTime }) with
              jm := { (({ w with fs := fs1.touch (getJadibotDBPath id) } : World).setPending
                id { PhoneNumber := id, Client := some obs.client, Container := some obs.container
                     Connected := false, StartTime := obs.now, OwnerChat := owner
                     Reconnecting := false, FailCount := 0, LastFailTime := zeroTime }).jm with
                mainClient := mc } } : World) rfl rfl h3))
          split
          · exact inv_deleteJadibotFiles _ id (inv_emit _ _ (inv_deletePending _ id h5))
          · split
            · exact inv_deleteJadibotFiles _ id
                (inv_emit _ _ (inv_emit _ _ (inv_deletePending _ id
                  (inv_emit _ _ (inv_emit _ _ h5)))))
            · exact inv_emit _ _ (inv_emit _ _ (inv_emit _ _ h5))

theorem inv_saveJadibotMetadata (now : Time) (w : World) (id : String) (t : Time)
    (h : ConnectedByMap w) : ConnectedByMap (saveJadibotMetadata now w id t) :=
  inv_of_maps w _ (by rw [saveJadibotMetadata_jm]) (by rw [saveJadibotMetadata_jm]) h

theorem inv_promote (w : World) (id : String) (s : JadibotSession) (h : ConnectedByMap w) :
    ConnectedByMap ((w.setSession id { s with Connected := true }).deletePending id) :=
  inv_deletePending _ id (inv_setSession w id _ rfl h)

theorem inv_event (obs : EventObs) (w : World) (id : String) (evt : Event)
    (h : ConnectedByMap w) : ConnectedByMap (handleJadibotEvent obs w id evt) := by
  cases evt with
  | pairSuccess =>
    unfold handleJadibotEvent
    simp only
    apply inv_emit; apply inv_emit; apply inv_emit
    cases hl : w.jm.pending.lookup id with
    | none =>
      simp only
      split
      · exact inv_emit _ _ h
      · exact h
    | some s =>
      simp only
      have := inv_saveJadibotMetadata obs.now _ id s.StartTime (inv_promote w id s h)
      split
      · exact inv_emit _ _ this
      · exact this
  | connected =>
    unfold handleJadibotEvent
    simp only
    apply inv_emit; apply inv_emit; apply inv_emit; apply inv_emit; apply inv_emit; apply inv_emit
    cases hl : w.jm.pending.lookup id with
    | none => exact h
    | some s =>
      simp only
      split
      · exact inv_promote w id s h
      · exact h
  | loggedOut => exact inv_RemoveSession w id h
  | disconnected => exact inv_emit _ _ h
  | message b =>
    unfold handleJadibotEvent
    simp only
    split
    · exact inv_emit _ _ h
    · exact h
  | other => exact h

theorem inv_timeout (mainConnected : Bool) (w : World) (id : String) (h : ConnectedByMap w) :
    ConnectedByMap (pairingTimeout mainConnected w id) := by
  unfold pairingTimeout
  cases hl : w.jm.pending.lookup id with
  | none => exact h
  | some s =>
    simp only
    split
    · apply inv_deleteJadibotFiles
      apply inv_deletePending
      apply inv_closeIfOpen
      apply inv_emit
      split
      · exact inv_emit _ _ (inv_emit _ _ h)
      · exact h
    · exact h

theorem inv_recordFailedAttempt (now : Time) (w : World) (id : String) (a : Nat)
    (h : ConnectedByMap w) : ConnectedByMap (recordFailedAttempt now w id a).1 := by
  have h1 := inv_updateSession w id
    (fun s => { s with FailCount := s.FailCount + 1, LastFailTime := now }) (fun _ hs => hs) h
  unfold recordFailedAttempt
  simp only
  split
  · exact inv_RemoveSession _ id h1
  · exact h1

theorem inv_reconnectAttempt (o : AttemptObs) (w : World) (id : String) (a : Nat)
    (h : ConnectedByMap w) : ConnectedByMap (reconnectAttempt o w id a).1 := by
  have h1 := inv_emit w (.sleep (retryDelay a)) h
  unfold reconnectAttempt
  simp only
  split
  · exact h1
  · split
    · exact h1
    · split
      · exact inv_updateSession _ id _ (fun _ hs => hs) h1
      · split
        · exact inv_RemoveSession _ id h1
        · split
          · exact inv_recordFailedAttempt _ _ id a (inv_emit _ _ h1)
          · split
            · exact inv_recordFailedAttempt _ _ id a (inv_emit _ _ (inv_emit _ _ h1))
            · exact inv_updateSession _ id _ (fun _ _ => rfl)
                (inv_emit _ _ (inv_emit _ _ (inv_emit _ _ h1)))

theorem inv_reconnectLoop (obs : Nat → AttemptObs) (id : String) (l : List Nat) (w : World)
    (h : ConnectedByMap w) : ConnectedByMap (reconnectLoop obs id l w).1 := by
  induction l generalizing w with
  | nil => exact h
  | cons a t ih =>
    have h1 := inv_reconnectAttempt (obs a) w id a h
    rw [reconnectLoop]
    generalize reconnectAttempt (obs a) w id a = r at h1
    obtain ⟨w1, e⟩ := r
    cases e with
    | next => exact ih w1 h1
    | done => exact h1
    | nilDereference => exact h1

theorem inv_markReconnecting (w : World) (id : String) (h : ConnectedByMap w) :
    ConnectedByMap (markReconnecting w id) :=
  inv_updateSession w id _ (fun _ hs => hs) h

theorem inv_releaseReconnecting (w : World) (id : String) (h : ConnectedByMap w) :
    ConnectedByMap (releaseReconnecting w id) :=
  inv_updateSession w id _ (fun _ hs => hs) h

theorem inv_reconnectSession (obs : Nat → AttemptObs) (w : World) (id : String)
    (h : ConnectedByMap w) : ConnectedByMap (reconnectSession obs w id) := by
  unfold reconnectSession
  split
  · exact h
  · split
    · exact h
    · exact inv_releaseReconnecting _ id
        (inv_reconnectLoop obs id _ _ (inv_markReconnecting w id h))

theorem inv_reconnectEnter (w : World) (id : String) (h : ConnectedByMap w) :
    ConnectedByMap (reconnectEnter w id).2 := by
  unfold reconnectEnter
  split
  · exact h
  · split
    · exact h
    · exact inv_markReconnecting w id h

theorem inv_processSnapshot (obs : SweepObs) (st : SweepState) (snap : sessionSnapshot)
    (h : ConnectedByMap st.w) : ConnectedByMap (processSnapshot obs st snap).w := by
  have hreset : ConnectedByMap (resetStaleFailCount obs st.w snap) := by
    unfold resetStaleFailCount
    split
    · exact inv_updateSession _ _ _ (fun _ hs => hs) h
    · exact h
  unfold processSnapshot
  split
  · exact h
  · split
    · exact h
    · split
      · exact h
      · simp only
        split
        · unfold countDisconnected
          cases hl : (resetStaleFailCount obs st.w snap).jm.sessions.lookup snap.phoneNumber with
          | none => exact hreset
          | some s =>
            have h2 := inv_setSession (resetStaleFailCount obs st.w snap) snap.phoneNumber
              { s with FailCount := s.FailCount + 1
                       LastFailTime := obs.stampNow snap.phoneNumber }
              (hreset.2 _ s hl) hreset
            simp only
            split
            · exact h2
            · exact inv_emit _ _ h2
        · show ConnectedByMap (clearFailCount (resetStaleFailCount obs st.w snap) snap)
          unfold clearFailCount
          cases hl : (resetStaleFailCount obs st.w snap).jm.sessions.lookup snap.phoneNumber with
          | none => exact hreset
          | some s =>
            simp only
            split
            · exact inv_setSession _ _ { s with FailCount := 0 } (hreset.2 _ s hl) hreset
            · exact hreset

theorem inv_snapshotLoop (obs : SweepObs) (l : List sessionSnapshot) (st : SweepState)
    (h : ConnectedByMap st.w) : ConnectedByMap (l.foldl (processSnapshot obs) st).w := by
  induction l generalizing st with
  | nil => exact h
  | cons e t ih => exact ih _ (inv_processSnapshot obs st e h)

theorem inv_removeInvalid (l : List String) (w : World) (h : ConnectedByMap w) :
    ConnectedByMap (removeInvalid w l) := by
  induction l generalizing w with
  | nil => exact h
  | cons j t ih =>
    simp only [removeInvalid, List.foldl_cons] at ih ⊢
    exact ih _ (inv_RemoveSession w j h)

theorem inv_validateAllSessions (obs : SweepObs) (w : World) (h : ConnectedByMap w) :
    ConnectedByMap (validateAllSessions obs w) := by
  unfold validateAllSessions
  simp only
  refine inv_of_maps (removeInvalid _ _) _ (by rw [cleanupOrphanedFiles_jm])
    (by rw [cleanupOrphanedFiles_jm]) ?_
  apply inv_removeInvalid
  exact inv_snapshotLoop obs _ _ h

theorem inv_loadSession (o : LoadObs) (w : World) (id : String) (h : ConnectedByMap w) :
    ConnectedByMap (loadSession o w id) := by
  unfold loadSession
  split
  · exact inv_deleteJadibotFiles _ _ h
  · exact inv_deleteJadibotFiles _ _ (inv_emit _ _ h)
  · exact inv_deleteJadibotFiles _ _ (inv_emit _ _ h)
  · simp only
    split
    · exact inv_deleteJadibotFiles _ _ (inv_emit _ _ (inv_emit _ _ (inv_emit _ _ h)))
    · split
      · exact inv_deleteJadibotFiles _ _
          (inv_emit _ _ (inv_emit _ _ (inv_emit _ _ (inv_emit _ _ (inv_emit _ _ h)))))
      · exact inv_emit _ _ (inv_setSession _ _ _ rfl (inv_emit _ _ (inv_emit _ _ (inv_emit _ _ h))))

theorem inv_LoadExistingSessions (obs : String → LoadObs) (w : World) (h : ConnectedByMap w) :
    ConnectedByMap (LoadExistingSessions obs w) := by
  unfold LoadExistingSessions
  cases w.fs.readDir JadibotFolder with
  | none => exact h
  | some files =>
    simp only
    apply inv_emit
    generalize files.filter (fun f => f.isDir) = l
    induction l generalizing w with
    | nil => exact h
    | cons f t ih => exact ih _ (inv_loadSession (obs f.name) w f.name h)

theorem inv_apply (op : Op) (w : World) (h : ConnectedByMap w) : ConnectedByMap (op.apply w) := by
  cases op with
  | create obs id owner mc => exact inv_create obs w id owner mc h
  | event obs id evt => exact inv_event obs w id evt h
  | timeout mcn id => exact inv_timeout mcn w id h
  | reconnect obs id => exact inv_reconnectSession obs w id h
  | enter id => exact inv_reconnectEnter w id h
  | attempt obs id a => exact inv_reconnectAttempt obs w id a h
  | release id => exact inv_releaseReconnecting w id h
  | sweep obs => exact inv_validateAllSessions obs w h
  | remove id => exact inv_RemoveSession w id h
  | load obs => exact inv_LoadExistingSessions obs w h
  | loadOne obs id => exact inv_loadSession obs w id h

theorem inv_run (ops : List Op) (w : World) (h : ConnectedByMap w) :
    ConnectedByMap (run ops w) := by
  induction ops generalizing w with
  | nil => exact h
  | cons op t ih => exact ih _ (inv_apply op w h)

/-- C29: in every state reached from a world with an empty registry by any history of
`CreatePairingSession`, event handling, pairing timeout, `reconnectSession` (as a whole
or attempt by attempt), `validateAllSessions`, `RemoveSession` and
`LoadExistingSessions` steps, whatever the collaborators answer, every session in the
pending map has `Connected = false` and every session in the active map has
`Connected = true`. -/
theorem c29_connected_follows_map (ops : List Op) (w : World)
    (hs : w.jm.sessions = ∅) (hp : w.jm.pending = ∅) (id : String) (s : JadibotSession) :
    ((run ops w).jm.pending.lookup id = some s → s.Connected = false) ∧
    ((run ops w).jm.sessions.lookup id = some s → s.Connected = true) := by
  have h0 : ConnectedByMap w := by
    unfold ConnectedByMap
    rw [hs, hp]
    exact ⟨fun j t ht => by simp at ht, fun j t ht => by simp at ht⟩
  obtain ⟨a, b⟩ := inv_run ops w h0
  exact ⟨a id s, b id s⟩

/-- C29, witness: a history in which `samplePhone` is paired, drops its connection and
reconnects, while `otherPhone` is still being paired. -/
theorem c29_witness :
    (initialWorld.jm.sessions = ∅ ∧ initialWorld.jm.pending = ∅) ∧
    (((run sampleHistory initialWorld).jm.pending.lookup otherPhone =
        some { pairingSession with PhoneNumber := otherPhone } →
      ({ pairingSession with PhoneNumber := otherPhone } : JadibotSession).Connected = false) ∧
    ((run sampleHistory initialWorld).jm.sessions.lookup otherPhone =
        some { pairingSession with PhoneNumber := otherPhone } →
      ({ pairingSession with PhoneNumber := otherPhone } : JadibotSession).Connected = true)) :=
  ⟨⟨rfl, rfl⟩,
    c29_connected_follows_map sampleHistory initialWorld rfl rfl otherPhone
      { pairingSession with PhoneNumber := otherPhone }⟩

theorem sampleHistory_result :
    (run sampleHistory initialWorld).jm.pending.lookup otherPhone =
      some { pairingSession with PhoneNumber := otherPhone } ∧
    ((run sampleHistory initialWorld).jm.sessions.lookup samplePhone).map (fun s => s.Connected)
      = some true := by
  decide

end Jadibot
